import Mathlib

/-!
# WellIndexCalculator geometry functions

A shallow embedding of
`src/FieldOpt/WellIndexCalculator/geometry_functions/geometryfunctions.cpp`.

Conventions of the embedding.

* `double` is an arbitrary linearly ordered field `K`; the functions `sqrt`, `log` and
  the constant `M_PI` of the C library are parameters, so every definition is
  executable over a computable field.  Statements about concrete numbers take
  `K := ℝ`, `sqrt := Real.sqrt`.  Rounding, infinities and NaN are not modelled.
* `Eigen::Vector3d` is `Vec3 K`; `normalized()` divides by the norm.
* `int` indices are natural numbers; `QList` is `List`; `QList::append` appends
  at the end.  The one `int` computed by a multiplication, `total_cells` of
  `get_cell_enveloping_point`, is modelled as a 32-bit `int` that wraps.
* `Reservoir::Grid::Grid` and `Reservoir::Grid::Cell` are declared outside the
  analysed sources; they are the records `Grid` and `Cell` below.
* A `throw`, a failed `QList::at` range assertion and an exhausted iteration
  budget of a `while` loop are the three values of `Error`.  The two `while`
  loops of `cells_intersected` take an iteration budget `fuel`; a call that
  ends in `out_of_fuel` for every budget is a call that does not terminate.
* Division is the total division of the field (`x / 0 = 0`), where the source
  yields an infinity or NaN.  A statement for all inputs says nothing about
  the source at an input where a divisor is zero, and none of the evaluations
  at concrete inputs divides by zero.
-/

namespace WellIndexCalculator

/-- Model of `Eigen::Vector3d`. -/
@[ext]
structure Vec3 (K : Type) where
  x : K
  y : K
  z : K
deriving DecidableEq, Repr

namespace Vec3

variable {K : Type} [LinearOrderedField K]

/-- Model of `a + b` on vectors. -/
def add (a b : Vec3 K) : Vec3 K := ⟨a.x + b.x, a.y + b.y, a.z + b.z⟩

/-- Model of `a - b` on vectors. -/
def sub (a b : Vec3 K) : Vec3 K := ⟨a.x - b.x, a.y - b.y, a.z - b.z⟩

/-- Model of `-a` on vectors. -/
def neg (a : Vec3 K) : Vec3 K := ⟨-a.x, -a.y, -a.z⟩

/-- Model of `v * s`, a vector times a scalar. -/
def mul (v : Vec3 K) (s : K) : Vec3 K := ⟨v.x * s, v.y * s, v.z * s⟩

/-- Model of `v / s`, a vector divided by a scalar. -/
def div (v : Vec3 K) (s : K) : Vec3 K := ⟨v.x / s, v.y / s, v.z / s⟩

/-- Model of `a.dot(b)`. -/
def dot (a b : Vec3 K) : K := a.x * b.x + a.y * b.y + a.z * b.z

/-- Model of `a.cross(b)`. -/
def cross (a b : Vec3 K) : Vec3 K :=
  ⟨a.y * b.z - a.z * b.y, a.z * b.x - a.x * b.z, a.x * b.y - a.y * b.x⟩

/-- Model of `v.norm()`. -/
def norm (sqrt : K → K) (v : Vec3 K) : K := sqrt (v.dot v)

/-- Model of `v.normalized()` and of the result of `v.normalize()`. -/
def normalized (sqrt : K → K) (v : Vec3 K) : Vec3 K := v.div (v.norm sqrt)

end Vec3

/-- Model of `Reservoir::Grid::Cell`: the eight corners in the fixed corner
convention, the diagonal permeabilities and the global index. -/
structure Cell (K : Type) where
  corners : Fin 8 → Vec3 K
  permx : K
  permy : K
  permz : K
  global_index : Nat

/-- Model of `Reservoir::Grid::Grid`: `Dimensions()` and `GetCell`. -/
structure Grid (K : Type) where
  nx : Nat
  ny : Nat
  nz : Nat
  GetCell : Nat → Cell K

/-- The ways a call can fail to produce a value. -/
inductive Error where
  | cell_outside_grid
  | index_out_of_range
  | out_of_fuel
deriving DecidableEq, Repr

section Geometry

variable {K : Type} [LinearOrderedField K]

/-- Model of `line_plane_intersection`. -/
def line_plane_intersection (sqrt : K → K) (p0 p1 normal_vector point_in_plane : Vec3 K) :
    Vec3 K :=
  let line_vector : Vec3 K := ⟨p1.x - p0.x, p1.y - p0.y, p1.z - p0.z⟩
  let line_vector := line_vector.normalized sqrt
  let normal_vector := normal_vector.normalized sqrt
  let w : Vec3 K := ⟨p0.x - point_in_plane.x, p0.y - point_in_plane.y, p0.z - point_in_plane.z⟩
  let s := normal_vector.dot w.neg / normal_vector.dot line_vector
  ⟨p0.x + s * line_vector.x, p0.y + s * line_vector.y, p0.z + s * line_vector.z⟩

/-- Model of `normal_vector`. -/
def normal_vector (sqrt : K → K) (p0 p1 p2 : Vec3 K) : Vec3 K :=
  ((p2.sub p0).cross (p1.sub p0)).normalized sqrt

/-- Model of `point_on_same_side`. -/
def point_on_same_side (point plane_point normal_vector : Vec3 K) (slack : K) : Bool :=
  let dot_product := (point.sub plane_point).dot normal_vector
  decide (dot_product ≥ 0 - slack)

/-- The index table `points` of `cell_planes_coords`: the three corner numbers of
each of the six faces. -/
def face_corner_indices : List (Fin 8 × Fin 8 × Fin 8) :=
  [(0, 2, 1), (4, 5, 6), (0, 4, 2), (1, 3, 5), (0, 1, 4), (2, 6, 3)]

/-- Model of `cell_planes_coords`: the three corner points of each face. -/
def cell_planes_coords (corners : Fin 8 → Vec3 K) : List (Vec3 K × Vec3 K × Vec3 K) :=
  face_corner_indices.map fun p => (corners p.1, corners p.2.1, corners p.2.2)

/-- The list `normal_vectors` that `find_exit_point` and `is_point_inside_cell`
both build from `face_corner_coords`. -/
def normal_vectors (sqrt : K → K) (face_corner_coords : List (Vec3 K × Vec3 K × Vec3 K)) :
    List (Vec3 K) :=
  face_corner_coords.map fun f => normal_vector sqrt f.1 f.2.1 f.2.2

/-- The reference point (first corner) and the normal of each of the six faces,
in face order: entry `ii` is `(face_corner_coords.at(ii).at(0), normal_vectors[ii])`. -/
def face_points_normals (sqrt : K → K) (cell : Cell K) : List (Vec3 K × Vec3 K) :=
  let face_corner_coords := cell_planes_coords cell.corners
  (face_corner_coords.map fun f => f.1).zip (normal_vectors sqrt face_corner_coords)

/-- Model of `is_point_inside_cell`: the flag `point_inside` is cleared by every
face whose dot product is negative. -/
def is_point_inside_cell (sqrt : K → K) (cell : Cell K) (point : Vec3 K) : Bool :=
  (face_points_normals sqrt cell).foldl
    (fun point_inside fn =>
      if (point.sub fn.1).dot fn.2 < 0 then false else point_inside)
    true

/-- The `for` loop of `get_cell_enveloping_point`, with `n` cells left to scan
from index `ii`. -/
def get_cell_loop (sqrt : K → K) (grid : Grid K) (point : Vec3 K) : Nat → Nat → Option (Cell K)
  | 0, _ => none
  | n + 1, ii =>
    if is_point_inside_cell sqrt (grid.GetCell ii) point then some (grid.GetCell ii)
    else get_cell_loop sqrt grid point n (ii + 1)

/-- The number of cells the loop of `get_cell_enveloping_point` scans: the value
of `int total_cells = nx * ny * nz` (line 335) as the loop condition
`ii < total_cells` reads it.  An `int` has 32 bits, so the product is kept modulo
`2 ^ 32`; a wrapped value of `2 ^ 31` or more has the sign bit set and is a
negative `int`, for which the loop does not run, as for 0. -/
def total_cells (grid : Grid K) : Nat :=
  let product := (grid.nx * grid.ny * grid.nz) % 2 ^ 32
  if product < 2 ^ 31 then product else 0

/-- Model of `get_cell_enveloping_point`. -/
def get_cell_enveloping_point (sqrt : K → K) (grid : Grid K) (point : Vec3 K) :
    Except Error (Cell K) :=
  let total_cells := total_cells grid
  match get_cell_loop sqrt grid point total_cells 0 with
  | some cell => .ok cell
  | none => .error .cell_outside_grid

/-- The inner loop of `find_exit_point`: `feasible_point` is cleared by every
face on whose wrong side the point lies, with slack `10e-6`. -/
def feasible_point (faces : List (Vec3 K × Vec3 K)) (intersect_point : Vec3 K) : Bool :=
  faces.foldl
    (fun feasible fn =>
      if !point_on_same_side intersect_point fn.1 fn.2 (10 / 1000000) then false else feasible)
    true

/-- The acceptance test of `find_exit_point` for one candidate. -/
def accept_point (sqrt : K → K) (faces : List (Vec3 K × Vec3 K))
    (entry_point end_point exception_point intersect_point : Vec3 K) : Bool :=
  feasible_point faces intersect_point
    && decide ((exception_point.sub intersect_point).norm sqrt > 10 / 10000000000)
    && decide ((end_point.sub entry_point).dot (end_point.sub intersect_point) ≥ 0)

/-- The face loop of `find_exit_point` over the faces still to try; `faces` is
the full list of faces, used by the feasibility test. -/
def find_exit_loop (sqrt : K → K) (faces : List (Vec3 K × Vec3 K))
    (entry_point end_point exception_point : Vec3 K) : List (Vec3 K × Vec3 K) → Vec3 K
  | [] => entry_point
  | (cur_face_point, cur_normal_vector) :: rest =>
    let line := end_point.sub entry_point
    if cur_normal_vector.dot line ≠ 0 then
      let intersect_point :=
        line_plane_intersection sqrt entry_point end_point cur_normal_vector cur_face_point
      if accept_point sqrt faces entry_point end_point exception_point intersect_point then
        intersect_point
      else find_exit_loop sqrt faces entry_point end_point exception_point rest
    else find_exit_loop sqrt faces entry_point end_point exception_point rest

/-- Model of `find_exit_point`. -/
def find_exit_point (sqrt : K → K) (cell : Cell K)
    (entry_point end_point exception_point : Vec3 K) : Vec3 K :=
  let faces := face_points_normals sqrt cell
  find_exit_loop sqrt faces entry_point end_point exception_point faces

/-- The probe point `exit_point * (1 - epsilon) + end_point * epsilon`. -/
def move_exit (exit_point end_point : Vec3 K) (epsilon : K) : Vec3 K :=
  (exit_point.mul (1 - epsilon)).add (end_point.mul epsilon)

/-- The first `while` loop of `cells_intersected` (lines 97-101): as long as the
probe is located in the first cell, `epsilon_temp` is multiplied by ten. -/
def first_cell_loop (sqrt : K → K) (grid : Grid K) (exit_point end_point : Vec3 K)
    (first_cell_index : Nat) : Nat → K → Cell K → Except Error (Cell K)
  | 0, _, current_cell =>
    if current_cell.global_index = first_cell_index then .error .out_of_fuel
    else .ok current_cell
  | fuel + 1, epsilon_temp, current_cell =>
    if current_cell.global_index = first_cell_index then
      let epsilon_temp := 10 * epsilon_temp
      let move_exit_epsilon := move_exit exit_point end_point epsilon_temp
      match get_cell_enveloping_point sqrt grid move_exit_epsilon with
      | .error e => .error e
      | .ok current_cell =>
        first_cell_loop sqrt grid exit_point end_point first_cell_index fuel epsilon_temp
          current_cell
    else .ok current_cell

/-- The second `while` loop of `cells_intersected` (lines 103-123).  The state is
the two result lists, `exit_point` and `current_cell`; the value is the state at
loop exit. -/
def stepping_loop (sqrt : K → K) (grid : Grid K) (end_point : Vec3 K) (last_cell : Cell K) :
    Nat → List Nat → List (Vec3 K) → Vec3 K → Cell K →
      Except Error (List Nat × List (Vec3 K) × Vec3 K)
  | 0, cell_global_index, entry_points, exit_point, current_cell =>
    if current_cell.global_index ≠ last_cell.global_index then .error .out_of_fuel
    else .ok (cell_global_index, entry_points, exit_point)
  | fuel + 1, cell_global_index, entry_points, exit_point, current_cell =>
    if current_cell.global_index ≠ last_cell.global_index then
      let cell_global_index := cell_global_index ++ [current_cell.global_index]
      let entry_points := entry_points ++ [exit_point]
      let exit_point := find_exit_point sqrt current_cell exit_point end_point exit_point
      if exit_point = end_point then
        stepping_loop sqrt grid end_point last_cell fuel cell_global_index entry_points
          exit_point last_cell
      else
        let epsilon := (1 / 100) / (end_point.sub exit_point).norm sqrt
        let move_exit_epsilon := move_exit exit_point end_point epsilon
        match get_cell_enveloping_point sqrt grid move_exit_epsilon with
        | .error e => .error e
        | .ok current_cell =>
          stepping_loop sqrt grid end_point last_cell fuel cell_global_index entry_points
            exit_point current_cell
    else .ok (cell_global_index, entry_points, exit_point)

/-- Model of `cells_intersected`; `fuel` bounds the iterations of each of the
two `while` loops. -/
def cells_intersected (sqrt : K → K) (fuel : Nat) (start_point end_point : Vec3 K)
    (grid : Grid K) : Except Error (List Nat × List (Vec3 K)) :=
  match get_cell_enveloping_point sqrt grid end_point with
  | .error e => .error e
  | .ok last_cell =>
  match get_cell_enveloping_point sqrt grid start_point with
  | .error e => .error e
  | .ok first_cell =>
    let last_cell_index := last_cell.global_index
    let first_cell_index := first_cell.global_index
    let cell_global_index := [first_cell_index]
    let entry_points := [start_point]
    if last_cell_index = first_cell_index then
      .ok (cell_global_index, entry_points ++ [end_point])
    else
      let exit_point := find_exit_point sqrt first_cell start_point end_point start_point
      let exit_point :=
        if (end_point.sub start_point).dot (exit_point.sub start_point) ≤ 0 then
          find_exit_point sqrt first_cell start_point end_point exit_point
        else exit_point
      let epsilon := (1 / 100) / (end_point.sub exit_point).norm sqrt
      let move_exit_epsilon := move_exit exit_point end_point epsilon
      match get_cell_enveloping_point sqrt grid move_exit_epsilon with
      | .error e => .error e
      | .ok current_cell =>
      match first_cell_loop sqrt grid exit_point end_point first_cell_index fuel epsilon
          current_cell with
      | .error e => .error e
      | .ok current_cell =>
      match stepping_loop sqrt grid end_point last_cell fuel cell_global_index entry_points
          exit_point current_cell with
      | .error e => .error e
      | .ok (cell_global_index, entry_points, exit_point) =>
        .ok (cell_global_index ++ [last_cell_index], entry_points ++ [exit_point] ++ [end_point])

end Geometry

section WellIndex

variable {K : Type} [LinearOrderedField K]

/-- Model of `project_v1_on_v2`: `v2 * v2.dot(v1) / v2.dot(v2)`. -/
def project_v1_on_v2 (v1 v2 : Vec3 K) : Vec3 K := (v2.mul (v2.dot v1)).div (v2.dot v2)

/-- Model of `dir_wellblock_radius`. -/
def dir_wellblock_radius (sqrt : K → K) (dx dy kx ky : K) : K :=
  0.28 * sqrt ((dx * dx) * sqrt (ky / kx) + (dy * dy) * sqrt (kx / ky)) /
    (sqrt (sqrt (kx / ky)) + sqrt (sqrt (ky / kx)))

/-- Model of `dir_well_index`; `pi` is `M_PI`. -/
def dir_well_index (sqrt log : K → K) (pi : K) (Lx dy dz ky kz wellbore_radius : K) : K :=
  let silly_eclipse_factor : K := 0.008527
  silly_eclipse_factor * (2 * pi * sqrt (ky * kz) * Lx) /
    log (dir_wellblock_radius sqrt dy dz ky kz / wellbore_radius)

/-- The segment loop of `well_index_cell_qvector` (lines 268-280) from segment
`ii = start_points.length() - remaining` on: the accumulated `(Lx, Ly, Lz)`.
`end_points.at(ii)` fails when `end_points` is the shorter list. -/
def projection_loop (sqrt : K → K) (xvec yvec zvec : Vec3 K) :
    List (Vec3 K) → List (Vec3 K) → K × K × K → Except Error (K × K × K)
  | [], _, acc => .ok acc
  | _ :: _, [], _ => .error .index_out_of_range
  | start_point :: start_points, end_point :: end_points, (Lx, Ly, Lz) =>
    let current_vec := end_point.sub start_point
    projection_loop sqrt xvec yvec zvec start_points end_points
      (Lx + (project_v1_on_v2 current_vec xvec).norm sqrt,
       Ly + (project_v1_on_v2 current_vec yvec).norm sqrt,
       Lz + (project_v1_on_v2 current_vec zvec).norm sqrt)

/-- Model of `well_index_cell_qvector`. -/
def well_index_cell_qvector (sqrt log : K → K) (pi : K) (cell : Cell K)
    (start_points end_points : List (Vec3 K)) (wellbore_radius : K) : Except Error K :=
  let corners := cell.corners
  let xvec := (corners 5).sub (corners 4)
  let yvec := (corners 6).sub (corners 4)
  let zvec := (corners 0).sub (corners 4)
  let dx := xvec.norm sqrt
  let dy := yvec.norm sqrt
  let dz := zvec.norm sqrt
  let kx := cell.permx
  let ky := cell.permy
  let kz := cell.permz
  match projection_loop sqrt xvec yvec zvec start_points end_points (0, 0, 0) with
  | .error e => .error e
  | .ok (Lx, Ly, Lz) =>
    let well_index_x := dir_well_index sqrt log pi Lx dy dz ky kz wellbore_radius
    let well_index_y := dir_well_index sqrt log pi Ly dx dz kx kz wellbore_radius
    let well_index_z := dir_well_index sqrt log pi Lz dx dy kx ky wellbore_radius
    .ok (sqrt (well_index_x * well_index_x + well_index_y * well_index_y
      + well_index_z * well_index_z))

/-- Model of `QList::at`. -/
def at_index {α : Type} (l : List α) (i : Nat) : Except Error α :=
  match l.get? i with
  | some a => .ok a
  | none => .error .index_out_of_range

/-- The `for` loop of `well_index_of_grid` (lines 360-368) over the cell
positions still to visit; `ii` is the position of the head of that list. -/
def well_indeces_loop (sqrt log : K → K) (pi : K) (grid : Grid K) (points : List (Vec3 K))
    (wellbore_radius : K) : List Nat → Nat → List K → Except Error (List K)
  | [], _, well_indeces => .ok well_indeces
  | cell_index :: rest, ii, well_indeces =>
    match at_index points ii with
    | .error e => .error e
    | .ok entry_point =>
    match at_index points (ii + 1) with
    | .error e => .error e
    | .ok exit_point =>
    match well_index_cell_qvector sqrt log pi (grid.GetCell cell_index) [entry_point]
        [exit_point] wellbore_radius with
    | .error e => .error e
    | .ok wi =>
      well_indeces_loop sqrt log pi grid points wellbore_radius rest (ii + 1)
        (well_indeces ++ [wi])

/-- Model of `well_index_of_grid`. -/
def well_index_of_grid (sqrt log : K → K) (pi : K) (fuel : Nat) (grid : Grid K)
    (start_points end_points : List (Vec3 K)) (wellbore_radius : K) :
    Except Error (List Nat × List K) :=
  match at_index start_points 0 with
  | .error e => .error e
  | .ok start_point =>
  match at_index end_points 0 with
  | .error e => .error e
  | .ok end_point =>
  match cells_intersected sqrt fuel start_point end_point grid with
  | .error e => .error e
  | .ok temp_pair =>
  match well_indeces_loop sqrt log pi grid temp_pair.2 wellbore_radius temp_pair.1 0 [] with
  | .error e => .error e
  | .ok well_indeces => .ok (temp_pair.1, well_indeces)

end WellIndex

section Examples

variable {K : Type} [LinearOrderedField K]

/-- The axis-aligned box `[x0,x1] x [y0,y1] x [z0,z1]` as a cell in the corner
convention: corner `i` has the upper `x` bound iff bit 0 of `i` is set, the
upper `y` bound iff bit 1 is set and the upper `z` bound iff bit 2 is set. -/
def box (global_index : Nat) (x0 x1 y0 y1 z0 z1 kx ky kz : K) : Cell K where
  corners := fun i =>
    match i with
    | 0 => ⟨x0, y0, z0⟩
    | 1 => ⟨x1, y0, z0⟩
    | 2 => ⟨x0, y1, z0⟩
    | 3 => ⟨x1, y1, z0⟩
    | 4 => ⟨x0, y0, z1⟩
    | 5 => ⟨x1, y0, z1⟩
    | 6 => ⟨x0, y1, z1⟩
    | 7 => ⟨x1, y1, z1⟩
  permx := kx
  permy := ky
  permz := kz
  global_index := global_index

/-- The `(reference corner, unit inward normal)` pairs of the six faces of the
box `[x0,x1] x [y0,y1] x [z0,z1]`, in face order. -/
def box_faces (x0 x1 y0 y1 z0 z1 : K) : List (Vec3 K × Vec3 K) :=
  [(⟨x0, y0, z0⟩, ⟨0, 0, 1⟩), (⟨x0, y0, z1⟩, ⟨0, 0, -1⟩),
   (⟨x0, y0, z0⟩, ⟨1, 0, 0⟩), (⟨x1, y0, z0⟩, ⟨-1, 0, 0⟩),
   (⟨x0, y0, z0⟩, ⟨0, 1, 0⟩), (⟨x0, y1, z0⟩, ⟨0, -1, 0⟩)]

/-- The grid of Scenario B: the unit cells `[0,1]^3` (index 0) and
`[1,2] x [0,1] x [0,1]` (index 1). -/
def twoCells : Grid K where
  nx := 2
  ny := 1
  nz := 1
  GetCell := fun i =>
    match i with
    | 0 => box 0 0 1 0 1 0 1 100 100 100
    | _ => box 1 1 2 0 1 0 1 100 100 100

/-- The 2 x 2 x 1 grid of unit cells with global index `i + 2 * j`. -/
def fourCells : Grid K where
  nx := 2
  ny := 2
  nz := 1
  GetCell := fun i =>
    match i with
    | 0 => box 0 0 1 0 1 0 1 100 100 100
    | 1 => box 1 1 2 0 1 0 1 100 100 100
    | 2 => box 2 0 1 1 2 0 1 100 100 100
    | _ => box 3 1 2 1 2 0 1 100 100 100

/-- A 1 x 2 x 1 grid: the cell `[0,1] x [0,1/2] x [0,1]` (index 0) below the
cell `[0,1] x [1/2,3/2] x [0,1]` (index 1). -/
def stackedCells : Grid K where
  nx := 1
  ny := 2
  nz := 1
  GetCell := fun i =>
    match i with
    | 0 => box 0 0 1 0 (1 / 2) 0 1 100 100 100
    | _ => box 1 0 1 (1 / 2) (3 / 2) 0 1 100 100 100

/-- The interior of a cell: all six face dot products are strictly positive. -/
def in_interior (sqrt : K → K) (cell : Cell K) (point : Vec3 K) : Prop :=
  ∀ fn ∈ face_points_normals sqrt cell, 0 < (point.sub fn.1).dot fn.2

/-- No point lies in the interior of two different cells of the grid. -/
def pairwise_disjoint_interiors (sqrt : K → K) (grid : Grid K) : Prop :=
  ∀ i j, i < grid.nx * grid.ny * grid.nz → j < grid.nx * grid.ny * grid.nz → i ≠ j →
    ∀ p, ¬ (in_interior sqrt (grid.GetCell i) p ∧ in_interior sqrt (grid.GetCell j) p)

/-- The six-face containment test with the loose tolerance of `find_exit_point`. -/
def in_cell_loose (sqrt : K → K) (cell : Cell K) (point : Vec3 K) : Bool :=
  feasible_point (face_points_normals sqrt cell) point

/-- The point of the segment from `a` to `b` at parameter `t`. -/
def segment_point (a b : Vec3 K) (t : K) : Vec3 K := a.add ((b.sub a).mul t)

/-- The sum of the Euclidean lengths of the consecutive sub-segments of a point list. -/
def path_length (sqrt : K → K) : List (Vec3 K) → K
  | [] => 0
  | [_] => 0
  | p :: q :: rest => (q.sub p).norm sqrt + path_length sqrt (q :: rest)

/-- The parallelepiped cell spanned from corner 4 by the edge vectors
`x = c5 - c4`, `y = c6 - c4` and `z = c0 - c4`, in the corner convention:
`c1 = c0 + x`, `c2 = c0 + y`, `c3 = c0 + x + y`, `c7 = c4 + x + y`. -/
def parallelepiped (global_index : Nat) (c4 x y z : Vec3 K) (kx ky kz : K) : Cell K where
  corners := fun i =>
    match i with
    | 0 => c4.add z
    | 1 => (c4.add z).add x
    | 2 => (c4.add z).add y
    | 3 => ((c4.add z).add x).add y
    | 4 => c4
    | 5 => c4.add x
    | 6 => c4.add y
    | 7 => (c4.add x).add y
  permx := kx
  permy := ky
  permz := kz
  global_index := global_index

/-- The centroid of a cell: the mean of its eight corners. -/
def centroid (cell : Cell K) : Vec3 K :=
  ((((((((cell.corners 0).add (cell.corners 1)).add (cell.corners 2)).add (cell.corners 3)).add
    (cell.corners 4)).add (cell.corners 5)).add (cell.corners 6)).add (cell.corners 7)).div 8

/-- The unit cube with corner 7 raised to `(1, 1, 1.1)`: the four corners of the
top face are not coplanar. -/
def raisedCornerCell : Cell K where
  corners := fun i =>
    match i with
    | 0 => ⟨0, 0, 0⟩
    | 1 => ⟨1, 0, 0⟩
    | 2 => ⟨0, 1, 0⟩
    | 3 => ⟨1, 1, 0⟩
    | 4 => ⟨0, 0, 1⟩
    | 5 => ⟨1, 0, 1⟩
    | 6 => ⟨0, 1, 1⟩
    | 7 => ⟨1, 1, 11 / 10⟩
  permx := 100
  permy := 100
  permz := 100
  global_index := 0

/-- The grid of Scenario A: the single unit cell `[0,1]^3` with permeability 100
in every direction. -/
def oneCell : Grid K where
  nx := 1
  ny := 1
  nz := 1
  GetCell := fun _ => box 0 0 1 0 1 0 1 100 100 100

/-- The sum over the sub-segments of the lengths of their projections on `axis`:
the value `Lx`, `Ly` or `Lz` of `well_index_cell_qvector`. -/
def projected_length (sqrt : K → K) (axis : Vec3 K) (start_points end_points : List (Vec3 K)) :
    K :=
  ((start_points.zip end_points).map fun se =>
    (project_v1_on_v2 (se.2.sub se.1) axis).norm sqrt).sum

/-- The second `while` loop of `cells_intersected` with the function called at
its call site of `find_exit_point` (line 110) as the parameter `find_exit`. -/
def stepping_loop_with (find_exit : Cell K → Vec3 K → Vec3 K → Vec3 K → Vec3 K)
    (sqrt : K → K) (grid : Grid K) (end_point : Vec3 K) (last_cell : Cell K) :
    Nat → List Nat → List (Vec3 K) → Vec3 K → Cell K →
      Except Error (List Nat × List (Vec3 K) × Vec3 K)
  | 0, cell_global_index, entry_points, exit_point, current_cell =>
    if current_cell.global_index ≠ last_cell.global_index then .error .out_of_fuel
    else .ok (cell_global_index, entry_points, exit_point)
  | fuel + 1, cell_global_index, entry_points, exit_point, current_cell =>
    if current_cell.global_index ≠ last_cell.global_index then
      let cell_global_index := cell_global_index ++ [current_cell.global_index]
      let entry_points := entry_points ++ [exit_point]
      let exit_point := find_exit current_cell exit_point end_point exit_point
      if exit_point = end_point then
        stepping_loop_with find_exit sqrt grid end_point last_cell fuel cell_global_index
          entry_points exit_point last_cell
      else
        let epsilon := (1 / 100) / (end_point.sub exit_point).norm sqrt
        let move_exit_epsilon := move_exit exit_point end_point epsilon
        match get_cell_enveloping_point sqrt grid move_exit_epsilon with
        | .error e => .error e
        | .ok current_cell =>
          stepping_loop_with find_exit sqrt grid end_point last_cell fuel cell_global_index
            entry_points exit_point current_cell
    else .ok (cell_global_index, entry_points, exit_point)

/-- The function `cells_intersected` with the function called at the three call
sites of `find_exit_point` (lines 84, 90 and 110) as the parameter `find_exit`:
a run whose result is the same for every `find_exit` does not call it. -/
def cells_intersected_with (find_exit : Cell K → Vec3 K → Vec3 K → Vec3 K → Vec3 K)
    (sqrt : K → K) (fuel : Nat) (start_point end_point : Vec3 K)
    (grid : Grid K) : Except Error (List Nat × List (Vec3 K)) :=
  match get_cell_enveloping_point sqrt grid end_point with
  | .error e => .error e
  | .ok last_cell =>
  match get_cell_enveloping_point sqrt grid start_point with
  | .error e => .error e
  | .ok first_cell =>
    let last_cell_index := last_cell.global_index
    let first_cell_index := first_cell.global_index
    let cell_global_index := [first_cell_index]
    let entry_points := [start_point]
    if last_cell_index = first_cell_index then
      .ok (cell_global_index, entry_points ++ [end_point])
    else
      let exit_point := find_exit first_cell start_point end_point start_point
      let exit_point :=
        if (end_point.sub start_point).dot (exit_point.sub start_point) ≤ 0 then
          find_exit first_cell start_point end_point exit_point
        else exit_point
      let epsilon := (1 / 100) / (end_point.sub exit_point).norm sqrt
      let move_exit_epsilon := move_exit exit_point end_point epsilon
      match get_cell_enveloping_point sqrt grid move_exit_epsilon with
      | .error e => .error e
      | .ok current_cell =>
      match first_cell_loop sqrt grid exit_point end_point first_cell_index fuel epsilon
          current_cell with
      | .error e => .error e
      | .ok current_cell =>
      match stepping_loop_with find_exit sqrt grid end_point last_cell fuel cell_global_index
          entry_points exit_point current_cell with
      | .error e => .error e
      | .ok (cell_global_index, entry_points, exit_point) =>
        .ok (cell_global_index ++ [last_cell_index], entry_points ++ [exit_point] ++ [end_point])

/-- The exit point of the first cell as `cells_intersected` computes it (lines
84-91): the answer of `find_exit_point` with the start point as exception, and
the answer of a second call with the first answer as exception when the first
answer is not ahead of the start point. -/
def first_exit_point (sqrt : K → K) (first_cell : Cell K) (start_point end_point : Vec3 K) :
    Vec3 K :=
  let exit_point := find_exit_point sqrt first_cell start_point end_point start_point
  if (end_point.sub start_point).dot (exit_point.sub start_point) ≤ 0 then
    find_exit_point sqrt first_cell start_point end_point exit_point
  else exit_point

/-- The divisors in `dir_wellblock_radius`: `ky / kx` divides by `kx`, `kx / ky`
by `ky`, and the quotient by the sum of the two fourth roots. -/
def dir_wellblock_radius_divisors (sqrt : K → K) (kx ky : K) : List K :=
  [kx, ky, sqrt (sqrt (kx / ky)) + sqrt (sqrt (ky / kx))]

/-- The divisors in `dir_well_index`: those of its call of
`dir_wellblock_radius`, the wellbore radius and the logarithm. -/
def dir_well_index_divisors (sqrt log : K → K) (dy dz ky kz wellbore_radius : K) : List K :=
  dir_wellblock_radius_divisors sqrt ky kz ++
    [wellbore_radius, log (dir_wellblock_radius sqrt dy dz ky kz / wellbore_radius)]

/-- A point of the boundary of a cell: contained in the cell, not in its interior. -/
def on_boundary (sqrt : K → K) (cell : Cell K) (point : Vec3 K) : Prop :=
  is_point_inside_cell sqrt cell point = true ∧ ¬ in_interior sqrt cell point

/-- The acceptance conditions (ii) and (iii) of `find_exit_point` for a candidate
on an axis-parallel line, in the coordinate along the line (with the distance
test squared): `c` is the candidate, `exc` the exception point, `sa` and `ea`
the entry and end point. -/
def axis_accept (sa ea exc c : K) : Bool :=
  decide ((1 / 1000000000) ^ 2 < (exc - c) ^ 2) && decide (0 ≤ (ea - sa) * (ea - c))

/-- The coordinate along the line of the point `find_exit_point` returns for an
axis-parallel line through a box with the bounds `lo` and `hi` on that axis: the
lower face is tried before the upper face. -/
def axis_exit (lo hi sa ea exc : K) : K :=
  if axis_accept sa ea exc lo then lo
  else if axis_accept sa ea exc hi then hi
  else sa

/-- A grid of 65536 x 65536 x 1 unit cells, cell `i` at column `i % 65536` and
row `i / 65536`: it has `2 ^ 32` cells, more than an `int` counts. -/
def bigGrid : Grid K where
  nx := 65536
  ny := 65536
  nz := 1
  GetCell := fun i =>
    box i ((i % 65536 : Nat) : K) ((i % 65536 + 1 : Nat) : K) ((i / 65536 : Nat) : K)
      ((i / 65536 + 1 : Nat) : K) 0 1 100 100 100

/-- The divisors in a call of `well_index_cell_qvector`: `project_v1_on_v2`
divides by `dot xvec xvec`, `dot yvec yvec` and `dot zvec zvec`, and the three
calls of `dir_well_index` have the divisors of `dir_well_index_divisors`. -/
def well_index_cell_qvector_divisors (sqrt log : K → K) (cell : Cell K) (wellbore_radius : K) :
    List K :=
  let corners := cell.corners
  let xvec := (corners 5).sub (corners 4)
  let yvec := (corners 6).sub (corners 4)
  let zvec := (corners 0).sub (corners 4)
  let dx := xvec.norm sqrt
  let dy := yvec.norm sqrt
  let dz := zvec.norm sqrt
  let kx := cell.permx
  let ky := cell.permy
  let kz := cell.permz
  [xvec.dot xvec, yvec.dot yvec, zvec.dot zvec] ++
    dir_well_index_divisors sqrt log dy dz ky kz wellbore_radius ++
    dir_well_index_divisors sqrt log dx dz kx kz wellbore_radius ++
    dir_well_index_divisors sqrt log dx dy kx ky wellbore_radius

/-- The inputs of `well_index_cell_qvector` for which no quotient is a quotient
by zero and no square root or logarithm is taken of a negative number: positive
permeabilities and wellbore radius, nonzero edge vectors `xvec`, `yvec`, `zvec`,
and a wellbore radius different from the three directional block radii. -/
def well_index_defined (sqrt : K → K) (cell : Cell K) (wellbore_radius : K) : Prop :=
  let corners := cell.corners
  let xvec := (corners 5).sub (corners 4)
  let yvec := (corners 6).sub (corners 4)
  let zvec := (corners 0).sub (corners 4)
  let dx := xvec.norm sqrt
  let dy := yvec.norm sqrt
  let dz := zvec.norm sqrt
  let kx := cell.permx
  let ky := cell.permy
  let kz := cell.permz
  (0 < kx ∧ 0 < ky ∧ 0 < kz ∧ 0 < wellbore_radius) ∧
  (xvec ≠ ⟨0, 0, 0⟩ ∧ yvec ≠ ⟨0, 0, 0⟩ ∧ zvec ≠ ⟨0, 0, 0⟩) ∧
  (dir_wellblock_radius sqrt dy dz ky kz ≠ wellbore_radius ∧
    dir_wellblock_radius sqrt dx dz kx kz ≠ wellbore_radius ∧
    dir_wellblock_radius sqrt dx dy kx ky ≠ wellbore_radius)

end Examples

section CellCount

variable {K : Type}

/-- The wrapped count never exceeds the number of cells. -/
lemma total_cells_le (grid : Grid K) : total_cells grid ≤ grid.nx * grid.ny * grid.nz := by
  simp only [total_cells]
  split_ifs
  · exact Nat.mod_le _ _
  · exact Nat.zero_le _

/-- For a grid with fewer than `2 ^ 31` cells the count is the number of cells. -/
lemma total_cells_of_lt (grid : Grid K) (h : grid.nx * grid.ny * grid.nz < 2 ^ 31) :
    total_cells grid = grid.nx * grid.ny * grid.nz := by
  have h1 : grid.nx * grid.ny * grid.nz % 2 ^ 32 = grid.nx * grid.ny * grid.nz :=
    Nat.mod_eq_of_lt (lt_trans h (by norm_num))
  simp only [total_cells, h1, h, if_true]

end CellCount

section GenericLemmas

variable {K : Type} [LinearOrderedField K]

/-- A flag that starts at `b` and is cleared by every element satisfying `P` ends
up set exactly when `b` was set and no element satisfies `P`. -/
lemma foldl_clear_flag {α : Type} (P : α → Prop) [DecidablePred P] (l : List α) (b : Bool) :
    (l.foldl (fun flag a => if P a then false else flag) b = true) ↔
      (b = true ∧ ∀ a ∈ l, ¬ P a) := by
  induction l generalizing b with
  | nil => simp
  | cons a l ih =>
    rw [List.foldl_cons, ih]
    by_cases h : P a
    · simp [h]
    · simp [h]

lemma is_point_inside_cell_iff (sqrt : K → K) (cell : Cell K) (point : Vec3 K) :
    is_point_inside_cell sqrt cell point = true ↔
      ∀ fn ∈ face_points_normals sqrt cell, 0 ≤ (point.sub fn.1).dot fn.2 := by
  unfold is_point_inside_cell
  rw [foldl_clear_flag (fun fn : Vec3 K × Vec3 K => (point.sub fn.1).dot fn.2 < 0)]
  simp

lemma feasible_point_iff (faces : List (Vec3 K × Vec3 K)) (p : Vec3 K) :
    feasible_point faces p = true ↔
      ∀ fn ∈ faces, point_on_same_side p fn.1 fn.2 (10 / 1000000) = true := by
  unfold feasible_point
  have h := foldl_clear_flag
    (fun fn : Vec3 K × Vec3 K => (!point_on_same_side p fn.1 fn.2 (10 / 1000000)) = true)
    faces true
  rw [h]
  simp

lemma point_on_same_side_iff (point plane_point normal : Vec3 K) (slack : K) :
    point_on_same_side point plane_point normal slack = true ↔
      (point.sub plane_point).dot normal ≥ -slack := by
  simp [point_on_same_side]

/-- The faces of a cell as `(reference point, normal)` pairs, read off
`cell_planes_coords`. -/
lemma face_points_normals_eq_map (sqrt : K → K) (cell : Cell K) :
    face_points_normals sqrt cell =
      (cell_planes_coords cell.corners).map
        (fun f => (f.1, normal_vector sqrt f.1 f.2.1 f.2.2)) := by
  simp [face_points_normals, normal_vectors, cell_planes_coords, face_corner_indices]

/-- The scan finds the first cell containing the point among `ii, ..., ii + n - 1`. -/
lemma get_cell_loop_eq_some (sqrt : K → K) (grid : Grid K) (point : Vec3 K) (c : Cell K) :
    ∀ n ii, get_cell_loop sqrt grid point n ii = some c ↔
      ∃ i, ii ≤ i ∧ i < ii + n ∧ is_point_inside_cell sqrt (grid.GetCell i) point = true ∧
        (∀ j, ii ≤ j → j < i → is_point_inside_cell sqrt (grid.GetCell j) point = false) ∧
        c = grid.GetCell i := by
  intro n
  induction n with
  | zero =>
    intro ii
    simp only [get_cell_loop, add_zero]
    constructor
    · intro h; cases h
    · rintro ⟨i, h1, h2, _⟩; omega
  | succ n ih =>
    intro ii
    simp only [get_cell_loop]
    by_cases h : is_point_inside_cell sqrt (grid.GetCell ii) point = true
    · rw [if_pos h]
      constructor
      · intro hc
        refine ⟨ii, le_refl _, by omega, h, ?_, ?_⟩
        · intro j h1 h2; omega
        · exact (Option.some.inj hc).symm
      · rintro ⟨i, h1, _, _, h4, h5⟩
        rcases Nat.eq_or_lt_of_le h1 with h6 | h6
        · subst h6; rw [h5]
        · have := h4 ii (le_refl _) h6
          rw [h] at this; cases this
    · rw [if_neg h, ih]
      have hf : is_point_inside_cell sqrt (grid.GetCell ii) point = false := by
        simpa using h
      constructor
      · rintro ⟨i, h1, h2, h3, h4, h5⟩
        refine ⟨i, by omega, by omega, h3, ?_, h5⟩
        intro j hj1 hj2
        rcases Nat.eq_or_lt_of_le hj1 with h6 | h6
        · subst h6; exact hf
        · exact h4 j (by omega) hj2
      · rintro ⟨i, h1, h2, h3, h4, h5⟩
        have hne : i ≠ ii := by
          rintro rfl
          rw [hf] at h3; cases h3
        refine ⟨i, by omega, by omega, h3, ?_, h5⟩
        intro j hj1 hj2
        exact h4 j (by omega) hj2

lemma get_cell_loop_eq_none (sqrt : K → K) (grid : Grid K) (point : Vec3 K) :
    ∀ n ii, get_cell_loop sqrt grid point n ii = none ↔
      ∀ i, ii ≤ i → i < ii + n →
        is_point_inside_cell sqrt (grid.GetCell i) point = false := by
  intro n
  induction n with
  | zero =>
    intro ii
    simp only [get_cell_loop, add_zero, true_iff]
    intro i h1 h2; omega
  | succ n ih =>
    intro ii
    simp only [get_cell_loop]
    by_cases h : is_point_inside_cell sqrt (grid.GetCell ii) point = true
    · rw [if_pos h]
      simp only [reduceCtorEq, false_iff, not_forall]
      refine ⟨ii, le_refl _, by omega, ?_⟩
      simp [h]
    · rw [if_neg h, ih]
      have hf : is_point_inside_cell sqrt (grid.GetCell ii) point = false := by
        simpa using h
      constructor
      · intro H i h1 h2
        rcases Nat.eq_or_lt_of_le h1 with h6 | h6
        · subst h6; exact hf
        · exact H i (by omega) (by omega)
      · intro H i h1 h2
        exact H i (by omega) (by omega)

lemma get_cell_enveloping_point_eq_ok (sqrt : K → K) (grid : Grid K) (point : Vec3 K)
    (c : Cell K) :
    get_cell_enveloping_point sqrt grid point = .ok c ↔
      ∃ i, i < total_cells grid ∧
        is_point_inside_cell sqrt (grid.GetCell i) point = true ∧
        (∀ j, j < i → is_point_inside_cell sqrt (grid.GetCell j) point = false) ∧
        c = grid.GetCell i := by
  unfold get_cell_enveloping_point
  have h := get_cell_loop_eq_some sqrt grid point c (total_cells grid) 0
  cases hl : get_cell_loop sqrt grid point (total_cells grid) 0 with
  | none =>
    rw [hl] at h
    simp only [hl, false_iff, reduceCtorEq] at h ⊢
    rintro ⟨i, h1, h2, h3, h4⟩
    exact h ⟨i, Nat.zero_le _, by omega, h2, fun j _ hj => h3 j hj, h4⟩
  | some c' =>
    rw [hl] at h
    simp only [hl, Except.ok.injEq]
    rw [Option.some.injEq] at h
    rw [h]
    constructor
    · rintro ⟨i, _, h2, h3, h4, h5⟩
      exact ⟨i, by omega, h3, fun j hj => h4 j (Nat.zero_le _) hj, h5⟩
    · rintro ⟨i, h1, h2, h3, h4⟩
      exact ⟨i, Nat.zero_le _, by omega, h2, fun j _ hj => h3 j hj, h4⟩

lemma get_cell_enveloping_point_eq_error (sqrt : K → K) (grid : Grid K) (point : Vec3 K)
    (e : Error) :
    get_cell_enveloping_point sqrt grid point = .error e ↔
      e = .cell_outside_grid ∧ ∀ i, i < total_cells grid →
        is_point_inside_cell sqrt (grid.GetCell i) point = false := by
  unfold get_cell_enveloping_point
  have h := get_cell_loop_eq_none sqrt grid point (total_cells grid) 0
  cases hl : get_cell_loop sqrt grid point (total_cells grid) 0 with
  | none =>
    rw [hl] at h
    simp only [true_iff] at h
    simp only [hl, Except.error.injEq]
    constructor
    · intro he
      exact ⟨he.symm, fun i hi => h i (Nat.zero_le _) (by omega)⟩
    · rintro ⟨he, _⟩; exact he.symm
  | some c' =>
    rw [hl] at h
    simp only [hl, false_iff, reduceCtorEq] at h ⊢
    rintro ⟨_, H⟩
    exact h fun i _ hi => H i (by omega)

end GenericLemmas

section RealBox

lemma div_sqrt_mul_self (a : ℝ) (ha : 0 < a) : a / Real.sqrt (a * a) = 1 := by
  rw [Real.sqrt_mul_self ha.le, div_self ha.ne']

lemma neg_div_sqrt_mul_self (a : ℝ) (ha : 0 < a) : -a / Real.sqrt (a * a) = -1 := by
  rw [Real.sqrt_mul_self ha.le, neg_div, div_self ha.ne']

/-- The faces of an axis-aligned box: reference corners and unit inward normals. -/
lemma face_points_normals_box (gi : Nat) (x0 x1 y0 y1 z0 z1 kx ky kz : ℝ)
    (hx : x0 < x1) (hy : y0 < y1) (hz : z0 < z1) :
    face_points_normals Real.sqrt (box gi x0 x1 y0 y1 z0 z1 kx ky kz) =
      box_faces x0 x1 y0 y1 z0 z1 := by
  have dx : 0 < x1 - x0 := sub_pos.2 hx
  have dy : 0 < y1 - y0 := sub_pos.2 hy
  have dz : 0 < z1 - z0 := sub_pos.2 hz
  simp [box_faces, face_points_normals, cell_planes_coords, face_corner_indices, normal_vectors,
    normal_vector, box, Vec3.sub, Vec3.cross, Vec3.normalized, Vec3.norm, Vec3.dot, Vec3.div]
  exact ⟨div_sqrt_mul_self _ (mul_pos dx dy), neg_div_sqrt_mul_self _ (mul_pos dy dx),
    div_sqrt_mul_self _ (mul_pos dy dz), neg_div_sqrt_mul_self _ (mul_pos dz dy),
    div_sqrt_mul_self _ (mul_pos dz dx), neg_div_sqrt_mul_self _ (mul_pos dx dz)⟩

/-- Containment in an axis-aligned box is the six coordinate inequalities. -/
lemma is_point_inside_box (gi : Nat) (x0 x1 y0 y1 z0 z1 kx ky kz : ℝ)
    (hx : x0 < x1) (hy : y0 < y1) (hz : z0 < z1) (p : Vec3 ℝ) :
    is_point_inside_cell Real.sqrt (box gi x0 x1 y0 y1 z0 z1 kx ky kz) p = true ↔
      (x0 ≤ p.x ∧ p.x ≤ x1) ∧ (y0 ≤ p.y ∧ p.y ≤ y1) ∧ (z0 ≤ p.z ∧ p.z ≤ z1) := by
  rw [is_point_inside_cell_iff, face_points_normals_box gi x0 x1 y0 y1 z0 z1 kx ky kz hx hy hz]
  simp [box_faces, Vec3.sub, Vec3.dot]
  tauto

/-- The interior of an axis-aligned box is the six strict coordinate inequalities. -/
lemma in_interior_box (gi : Nat) (x0 x1 y0 y1 z0 z1 kx ky kz : ℝ)
    (hx : x0 < x1) (hy : y0 < y1) (hz : z0 < z1) (p : Vec3 ℝ) :
    in_interior Real.sqrt (box gi x0 x1 y0 y1 z0 z1 kx ky kz) p ↔
      (x0 < p.x ∧ p.x < x1) ∧ (y0 < p.y ∧ p.y < y1) ∧ (z0 < p.z ∧ p.z < z1) := by
  rw [in_interior, face_points_normals_box gi x0 x1 y0 y1 z0 z1 kx ky kz hx hy hz]
  simp [box_faces, Vec3.sub, Vec3.dot]
  tauto

/-- The loose feasibility test against the faces of an axis-aligned box. -/
lemma feasible_point_box_faces (x0 x1 y0 y1 z0 z1 : ℝ) (p : Vec3 ℝ) :
    feasible_point (box_faces x0 x1 y0 y1 z0 z1) p = true ↔
      (x0 - 1 / 100000 ≤ p.x ∧ p.x ≤ x1 + 1 / 100000) ∧
      (y0 - 1 / 100000 ≤ p.y ∧ p.y ≤ y1 + 1 / 100000) ∧
      (z0 - 1 / 100000 ≤ p.z ∧ p.z ≤ z1 + 1 / 100000) := by
  rw [feasible_point_iff]
  simp only [box_faces, List.mem_cons, List.mem_singleton, forall_eq_or_imp, forall_eq,
    point_on_same_side_iff, Vec3.sub, Vec3.dot, List.not_mem_nil]
  constructor
  · rintro ⟨h1, h2, h3, h4, h5, h6, _⟩
    norm_num at h1 h2 h3 h4 h5 h6
    refine ⟨⟨?_, ?_⟩, ⟨?_, ?_⟩, ?_, ?_⟩ <;> linarith
  · rintro ⟨⟨h1, h2⟩, ⟨h3, h4⟩, h5, h6⟩
    norm_num
    refine ⟨?_, ?_, ?_, ?_, ?_, ?_⟩ <;> linarith

/-- The loose containment test for an axis-aligned box. -/
lemma in_cell_loose_box (gi : Nat) (x0 x1 y0 y1 z0 z1 kx ky kz : ℝ)
    (hx : x0 < x1) (hy : y0 < y1) (hz : z0 < z1) (p : Vec3 ℝ) :
    in_cell_loose Real.sqrt (box gi x0 x1 y0 y1 z0 z1 kx ky kz) p = true ↔
      (x0 - 1 / 100000 ≤ p.x ∧ p.x ≤ x1 + 1 / 100000) ∧
      (y0 - 1 / 100000 ≤ p.y ∧ p.y ≤ y1 + 1 / 100000) ∧
      (z0 - 1 / 100000 ≤ p.z ∧ p.z ≤ z1 + 1 / 100000) := by
  rw [in_cell_loose, face_points_normals_box gi x0 x1 y0 y1 z0 z1 kx ky kz hx hy hz,
    feasible_point_box_faces]

/-- The acceptance test over the reals, with the distance test squared. -/
lemma accept_point_real (faces : List (Vec3 ℝ × Vec3 ℝ)) (entry_point end_point
    exception_point p : Vec3 ℝ) :
    accept_point Real.sqrt faces entry_point end_point exception_point p = true ↔
      feasible_point faces p = true ∧
      (1 / 1000000000) ^ 2 < (exception_point.sub p).dot (exception_point.sub p) ∧
      0 ≤ (end_point.sub entry_point).dot (end_point.sub p) := by
  simp only [accept_point, Vec3.norm, Bool.and_eq_true, decide_eq_true_eq, gt_iff_lt, ge_iff_le,
    and_assoc]
  have h : (10 / 10000000000 : ℝ) = 1 / 1000000000 := by norm_num
  rw [h, Real.lt_sqrt (by norm_num)]

lemma find_exit_point_box (gi : Nat) (x0 x1 y0 y1 z0 z1 kx ky kz : ℝ)
    (hx : x0 < x1) (hy : y0 < y1) (hz : z0 < z1) (entry_point end_point exception_point : Vec3 ℝ) :
    find_exit_point Real.sqrt (box gi x0 x1 y0 y1 z0 z1 kx ky kz) entry_point end_point
        exception_point =
      find_exit_loop Real.sqrt (box_faces x0 x1 y0 y1 z0 z1) entry_point end_point
        exception_point
        [(⟨x0, y0, z0⟩, ⟨0, 0, 1⟩), (⟨x0, y0, z1⟩, ⟨0, 0, -1⟩),
         (⟨x0, y0, z0⟩, ⟨1, 0, 0⟩), (⟨x1, y0, z0⟩, ⟨-1, 0, 0⟩),
         (⟨x0, y0, z0⟩, ⟨0, 1, 0⟩), (⟨x0, y1, z0⟩, ⟨0, -1, 0⟩)] := by
  rw [find_exit_point, face_points_normals_box gi x0 x1 y0 y1 z0 z1 kx ky kz hx hy hz]
  rfl

/-- The intersection point without the two normalisations: for a line with
`p0 ≠ p1` and a nonzero normal the result is `p0 + t * (p1 - p0)` with
`t = n.(q - p0) / n.(p1 - p0)`. -/
lemma line_plane_intersection_real (p0 p1 n q : Vec3 ℝ)
    (hd : 0 < (p1.sub p0).dot (p1.sub p0)) (hn : 0 < n.dot n) :
    line_plane_intersection Real.sqrt p0 p1 n q =
      p0.add ((p1.sub p0).mul (n.dot (q.sub p0) / n.dot (p1.sub p0))) := by
  have ha : 0 < Real.sqrt ((p1.sub p0).dot (p1.sub p0)) := Real.sqrt_pos.2 hd
  have hb : 0 < Real.sqrt (n.dot n) := Real.sqrt_pos.2 hn
  simp only [line_plane_intersection, Vec3.normalized, Vec3.norm, Vec3.div, Vec3.neg,
    Vec3.add, Vec3.mul]
  generalize Real.sqrt (n.dot n) = b at hb
  have hd' : (⟨p1.x - p0.x, p1.y - p0.y, p1.z - p0.z⟩ : Vec3 ℝ) = p1.sub p0 := rfl
  rw [hd']
  generalize Real.sqrt ((p1.sub p0).dot (p1.sub p0)) = a at ha
  simp only [Vec3.dot, Vec3.sub]
  by_cases h0 : n.x * (p1.x - p0.x) + n.y * (p1.y - p0.y) + n.z * (p1.z - p0.z) = 0
  · have h1 : n.x / b * ((p1.x - p0.x) / a) + n.y / b * ((p1.y - p0.y) / a)
        + n.z / b * ((p1.z - p0.z) / a) = 0 := by
      have : n.x / b * ((p1.x - p0.x) / a) + n.y / b * ((p1.y - p0.y) / a)
        + n.z / b * ((p1.z - p0.z) / a)
        = (n.x * (p1.x - p0.x) + n.y * (p1.y - p0.y) + n.z * (p1.z - p0.z)) / (b * a) := by
        field_simp
      rw [this, h0, zero_div]
    rw [h0, h1]
    simp
  · ext <;> simp only <;> field_simp <;> ring

end RealBox

section Traversal

variable {K : Type} [LinearOrderedField K]

/-- The stepping loop only appends: it adds as many cell indices as points. -/
lemma stepping_loop_appends (sqrt : K → K) (grid : Grid K) (end_point : Vec3 K)
    (last_cell : Cell K) :
    ∀ (fuel : Nat) (cells : List Nat) (points : List (Vec3 K)) (exit_point : Vec3 K)
      (current_cell : Cell K) (cells' : List Nat) (points' : List (Vec3 K))
      (exit_point' : Vec3 K),
      stepping_loop sqrt grid end_point last_cell fuel cells points exit_point current_cell =
        .ok (cells', points', exit_point') →
      ∃ (cs : List Nat) (ps : List (Vec3 K)),
        cells' = cells ++ cs ∧ points' = points ++ ps ∧ cs.length = ps.length := by
  intro fuel
  induction fuel with
  | zero =>
    intro cells points exit_point current_cell cells' points' exit_point' h
    simp only [stepping_loop] at h
    split at h
    · cases h
    · simp only [Except.ok.injEq, Prod.mk.injEq] at h
      exact ⟨[], [], by simp [h.1], by simp [h.2.1], rfl⟩
  | succ fuel ih =>
    intro cells points exit_point current_cell cells' points' exit_point' h
    simp only [stepping_loop] at h
    split at h
    · split at h
      · obtain ⟨cs, ps, h1, h2, h3⟩ := ih _ _ _ _ _ _ _ h
        exact ⟨current_cell.global_index :: cs, exit_point :: ps,
          by simp [h1], by simp [h2], by simp [h3]⟩
      · split at h
        · cases h
        · obtain ⟨cs, ps, h1, h2, h3⟩ := ih _ _ _ _ _ _ _ h
          exact ⟨current_cell.global_index :: cs, exit_point :: ps,
            by simp [h1], by simp [h2], by simp [h3]⟩
    · simp only [Except.ok.injEq, Prod.mk.injEq] at h
      exact ⟨[], [], by simp [h.1], by simp [h.2.1], rfl⟩

/-- The shape of every record `cells_intersected` returns. -/
lemma cells_intersected_shape (sqrt : K → K) (fuel : Nat) (start_point end_point : Vec3 K)
    (grid : Grid K) (cells : List Nat) (points : List (Vec3 K))
    (h : cells_intersected sqrt fuel start_point end_point grid = .ok (cells, points)) :
    ∃ (first_cell last_cell : Cell K) (cs : List Nat) (ps : List (Vec3 K)),
      get_cell_enveloping_point sqrt grid start_point = .ok first_cell ∧
      get_cell_enveloping_point sqrt grid end_point = .ok last_cell ∧
      cs.length = ps.length ∧
      ((cells = [first_cell.global_index] ∧ points = [start_point, end_point] ∧
          last_cell.global_index = first_cell.global_index) ∨
       (cells = first_cell.global_index :: (cs ++ [last_cell.global_index]) ∧
        ∃ exit_point, points = start_point :: (ps ++ [exit_point, end_point]))) := by
  unfold cells_intersected at h
  split at h
  · cases h
  · rename_i last_cell hlast
    split at h
    · cases h
    · rename_i first_cell hfirst
      simp only at h
      split at h
      · simp only [Except.ok.injEq, Prod.mk.injEq] at h
        rename_i heq
        exact ⟨first_cell, last_cell, [], [], hfirst, hlast, rfl,
          Or.inl ⟨h.1.symm, by simp [← h.2], heq⟩⟩
      · split at h
        · cases h
        · split at h
          · cases h
          · split at h
            · cases h
            · rename_i cells' points' exit' hstep
              obtain ⟨cs, ps, h1, h2, h3⟩ := stepping_loop_appends _ _ _ _ _ _ _ _ _ _ _ _ hstep
              simp only [Except.ok.injEq, Prod.mk.injEq] at h
              refine ⟨first_cell, last_cell, cs, ps, hfirst, hlast, h3, Or.inr ⟨?_, exit', ?_⟩⟩
              · rw [← h.1, h1]; simp
              · rw [← h.2, h2]; simp

end Traversal

section TraversalCases

variable {K : Type} [LinearOrderedField K]

/-- The early return: both end points are located in cells of the same index. -/
lemma cells_intersected_same_cell (sqrt : K → K) (fuel : Nat) (start_point end_point : Vec3 K)
    (grid : Grid K) (first_cell last_cell : Cell K)
    (hfirst : get_cell_enveloping_point sqrt grid start_point = .ok first_cell)
    (hlast : get_cell_enveloping_point sqrt grid end_point = .ok last_cell)
    (heq : last_cell.global_index = first_cell.global_index) :
    cells_intersected sqrt fuel start_point end_point grid =
      .ok ([first_cell.global_index], [start_point, end_point]) := by
  simp [cells_intersected, hfirst, hlast, heq]

lemma cells_intersected_error_of_end (sqrt : K → K) (fuel : Nat) (start_point end_point : Vec3 K)
    (grid : Grid K) (e : Error)
    (hlast : get_cell_enveloping_point sqrt grid end_point = .error e) :
    cells_intersected sqrt fuel start_point end_point grid = .error e := by
  simp [cells_intersected, hlast]

lemma cells_intersected_error_of_start (sqrt : K → K) (fuel : Nat)
    (start_point end_point : Vec3 K) (grid : Grid K)
    (hfirst : get_cell_enveloping_point sqrt grid start_point = .error .cell_outside_grid) :
    cells_intersected sqrt fuel start_point end_point grid = .error .cell_outside_grid := by
  unfold cells_intersected
  cases hlast : get_cell_enveloping_point sqrt grid end_point with
  | error e =>
    have := (get_cell_enveloping_point_eq_error sqrt grid end_point e).1 hlast
    simp [this.1]
  | ok c => simp [hfirst]

/-- The run in which the probe behind the first exit point is located in the
last cell at once or after some rounds of the first loop: two cells are reported. -/
lemma cells_intersected_two_cells (sqrt : K → K) (fuel : Nat) (start_point end_point : Vec3 K)
    (grid : Grid K) (first_cell last_cell probe_cell current_cell : Cell K)
    (first_exit exit_point : Vec3 K)
    (hlast : get_cell_enveloping_point sqrt grid end_point = .ok last_cell)
    (hfirst : get_cell_enveloping_point sqrt grid start_point = .ok first_cell)
    (hne : last_cell.global_index ≠ first_cell.global_index)
    (hexit1 : find_exit_point sqrt first_cell start_point end_point start_point = first_exit)
    (hexit : (if (end_point.sub start_point).dot (first_exit.sub start_point) ≤ 0 then
        find_exit_point sqrt first_cell start_point end_point first_exit
      else first_exit) = exit_point)
    (hprobe : get_cell_enveloping_point sqrt grid
        (move_exit exit_point end_point ((1 / 100) / (end_point.sub exit_point).norm sqrt)) =
      .ok probe_cell)
    (hloop : first_cell_loop sqrt grid exit_point end_point first_cell.global_index fuel
        ((1 / 100) / (end_point.sub exit_point).norm sqrt) probe_cell = .ok current_cell)
    (hcur : current_cell.global_index = last_cell.global_index) :
    cells_intersected sqrt fuel start_point end_point grid =
      .ok ([first_cell.global_index, last_cell.global_index],
        [start_point, exit_point, end_point]) := by
  unfold cells_intersected
  simp only [hlast, hfirst, hexit1, hexit, hprobe, hloop, if_neg hne]
  cases fuel with
  | zero => simp [stepping_loop, hcur]
  | succ n => simp [stepping_loop, hcur]

/-- The first loop does not iterate when the probe is outside the first cell. -/
lemma first_cell_loop_done (sqrt : K → K) (grid : Grid K) (exit_point end_point : Vec3 K)
    (first_cell_index fuel : Nat) (epsilon : K) (current_cell : Cell K)
    (h : current_cell.global_index ≠ first_cell_index) :
    first_cell_loop sqrt grid exit_point end_point first_cell_index fuel epsilon current_cell =
      .ok current_cell := by
  cases fuel with
  | zero => simp [first_cell_loop, h]
  | succ n => simp [first_cell_loop, h]

/-- One round of the first loop. -/
lemma first_cell_loop_step (sqrt : K → K) (grid : Grid K) (exit_point end_point : Vec3 K)
    (first_cell_index fuel : Nat) (epsilon : K) (current_cell next_cell : Cell K)
    (h : current_cell.global_index = first_cell_index)
    (hnext : get_cell_enveloping_point sqrt grid
      (move_exit exit_point end_point (10 * epsilon)) = .ok next_cell) :
    first_cell_loop sqrt grid exit_point end_point first_cell_index (fuel + 1) epsilon
        current_cell =
      first_cell_loop sqrt grid exit_point end_point first_cell_index fuel (10 * epsilon)
        next_cell := by
  simp [first_cell_loop, h, hnext]

/-- A stepping state that reproduces itself: the exit point found is the entry
point, it is not the end point, and the probe is located in the current cell
again.  The loop then exhausts every budget. -/
lemma stepping_loop_stuck (sqrt : K → K) (grid : Grid K) (end_point : Vec3 K)
    (last_cell current_cell : Cell K) (exit_point : Vec3 K)
    (hne : current_cell.global_index ≠ last_cell.global_index)
    (hexit : find_exit_point sqrt current_cell exit_point end_point exit_point = exit_point)
    (hend : exit_point ≠ end_point)
    (hprobe : get_cell_enveloping_point sqrt grid
        (move_exit exit_point end_point ((1 / 100) / (end_point.sub exit_point).norm sqrt)) =
      .ok current_cell) :
    ∀ (fuel : Nat) (cells : List Nat) (points : List (Vec3 K)),
      stepping_loop sqrt grid end_point last_cell fuel cells points exit_point current_cell =
        .error .out_of_fuel := by
  intro fuel
  induction fuel with
  | zero => intro cells points; simp [stepping_loop, hne]
  | succ n ih =>
    intro cells points
    simp only [stepping_loop, hexit, if_neg hend, hprobe, if_pos hne, ne_eq, not_false_eq_true]
    exact ih _ _

end TraversalCases

section ScenarioB

/-- The norm of a vector whose squared length is the square of `c ≥ 0`. -/
lemma norm_eq_of_dot_eq (v : Vec3 ℝ) (c : ℝ) (hc : 0 ≤ c) (h : v.dot v = c * c) :
    v.norm Real.sqrt = c := by
  rw [Vec3.norm, h, Real.sqrt_mul_self hc]

/-- The traversal of Scenario B, for every iteration budget. -/
lemma scenarioB_eval (fuel : Nat) :
    cells_intersected Real.sqrt fuel ⟨1 / 2, 1 / 2, 1 / 2⟩ ⟨3 / 2, 1 / 2, 1 / 2⟩
        (twoCells : Grid ℝ) =
      .ok ([0, 1], [⟨1 / 2, 1 / 2, 1 / 2⟩, ⟨1, 1 / 2, 1 / 2⟩, ⟨3 / 2, 1 / 2, 1 / 2⟩]) := by
  have hstart : get_cell_enveloping_point Real.sqrt (twoCells : Grid ℝ) ⟨1 / 2, 1 / 2, 1 / 2⟩ =
      .ok (box 0 0 1 0 1 0 1 100 100 100) := by
    norm_num [get_cell_enveloping_point, total_cells, get_cell_loop, twoCells,
      is_point_inside_box]
  have hend : get_cell_enveloping_point Real.sqrt (twoCells : Grid ℝ) ⟨3 / 2, 1 / 2, 1 / 2⟩ =
      .ok (box 1 1 2 0 1 0 1 100 100 100) := by
    norm_num [get_cell_enveloping_point, total_cells, get_cell_loop, twoCells,
      is_point_inside_box]
  have hl : ∀ n q : Vec3 ℝ, 0 < n.dot n →
      line_plane_intersection Real.sqrt ⟨1 / 2, 1 / 2, 1 / 2⟩ ⟨3 / 2, 1 / 2, 1 / 2⟩ n q = _ :=
    fun n q hn => line_plane_intersection_real _ _ n q (by norm_num [Vec3.dot, Vec3.sub]) hn
  have hexit1 : find_exit_point Real.sqrt (box 0 0 1 0 1 0 1 100 100 100 : Cell ℝ)
      ⟨1 / 2, 1 / 2, 1 / 2⟩ ⟨3 / 2, 1 / 2, 1 / 2⟩ ⟨1 / 2, 1 / 2, 1 / 2⟩ = ⟨0, 1 / 2, 1 / 2⟩ := by
    rw [find_exit_point_box _ _ _ _ _ _ _ _ _ _ (by norm_num) (by norm_num) (by norm_num)]
    simp only [find_exit_loop]
    norm_num [hl, accept_point_real, feasible_point_box_faces, Vec3.dot, Vec3.sub, Vec3.add,
      Vec3.mul]
  have hexit2 : find_exit_point Real.sqrt (box 0 0 1 0 1 0 1 100 100 100 : Cell ℝ)
      ⟨1 / 2, 1 / 2, 1 / 2⟩ ⟨3 / 2, 1 / 2, 1 / 2⟩ ⟨0, 1 / 2, 1 / 2⟩ = ⟨1, 1 / 2, 1 / 2⟩ := by
    rw [find_exit_point_box _ _ _ _ _ _ _ _ _ _ (by norm_num) (by norm_num) (by norm_num)]
    simp only [find_exit_loop]
    norm_num [hl, accept_point_real, feasible_point_box_faces, Vec3.dot, Vec3.sub, Vec3.add,
      Vec3.mul]
  have hnorm : ((⟨3 / 2, 1 / 2, 1 / 2⟩ : Vec3 ℝ).sub ⟨1, 1 / 2, 1 / 2⟩).norm Real.sqrt = 1 / 2 :=
    norm_eq_of_dot_eq _ _ (by norm_num) (by norm_num [Vec3.dot, Vec3.sub])
  have hprobe : get_cell_enveloping_point Real.sqrt (twoCells : Grid ℝ)
      (move_exit ⟨1, 1 / 2, 1 / 2⟩ ⟨3 / 2, 1 / 2, 1 / 2⟩
        ((1 / 100) / ((⟨3 / 2, 1 / 2, 1 / 2⟩ : Vec3 ℝ).sub ⟨1, 1 / 2, 1 / 2⟩).norm Real.sqrt)) =
      .ok (box 1 1 2 0 1 0 1 100 100 100) := by
    rw [hnorm]
    norm_num [move_exit, Vec3.add, Vec3.mul, get_cell_enveloping_point, total_cells,
      get_cell_loop, twoCells,
      is_point_inside_box]
  have h := cells_intersected_two_cells Real.sqrt fuel ⟨1 / 2, 1 / 2, 1 / 2⟩
    ⟨3 / 2, 1 / 2, 1 / 2⟩ twoCells _ _ _ _ _ ⟨1, 1 / 2, 1 / 2⟩ hend hstart (by simp [box]) hexit1
    (by rw [if_pos (by norm_num [Vec3.dot, Vec3.sub])]; exact hexit2) hprobe
    (first_cell_loop_done _ _ _ _ _ _ _ _ (by simp [box])) rfl
  simpa [box] using h

end ScenarioB

section CornerClip

/-- Locating a point in the 2 x 2 grid of unit cells: the cell `[1,2] x [1,2] x [0,1]`. -/
lemma fourCells_locate_3 (p : Vec3 ℝ) (hx : 1 < p.x ∧ p.x ≤ 2) (hy : 1 < p.y ∧ p.y ≤ 2)
    (hz : 0 ≤ p.z ∧ p.z ≤ 1) :
    get_cell_enveloping_point Real.sqrt (fourCells : Grid ℝ) p =
      .ok (box 3 1 2 1 2 0 1 100 100 100) := by
  have h0 : ¬ p.x ≤ 1 := not_le.2 hx.1
  have h1 : ¬ p.y ≤ 1 := not_le.2 hy.1
  have h2 : (1 : ℝ) ≤ p.x := hx.1.le
  have h3 : (1 : ℝ) ≤ p.y := hy.1.le
  norm_num [get_cell_enveloping_point, total_cells, get_cell_loop, fourCells,
    is_point_inside_box, h0, h1, h2,
    h3, hx.2, hy.2, hz.1, hz.2]

/-- Locating a point in the 2 x 2 grid of unit cells: the cell `[0,1]^3`. -/
lemma fourCells_locate_0 (p : Vec3 ℝ) (hx : 0 ≤ p.x ∧ p.x ≤ 1) (hy : 0 ≤ p.y ∧ p.y ≤ 1)
    (hz : 0 ≤ p.z ∧ p.z ≤ 1) :
    get_cell_enveloping_point Real.sqrt (fourCells : Grid ℝ) p =
      .ok (box 0 0 1 0 1 0 1 100 100 100) := by
  norm_num [get_cell_enveloping_point, total_cells, get_cell_loop, fourCells,
    is_point_inside_box,
    hx.1, hx.2, hy.1, hy.2, hz.1, hz.2]

/-- Locating a point in the 2 x 2 grid of unit cells: the cell `[1,2] x [0,1] x [0,1]`. -/
lemma fourCells_locate_1 (p : Vec3 ℝ) (hx : 1 < p.x ∧ p.x ≤ 2) (hy : 0 ≤ p.y ∧ p.y ≤ 1)
    (hz : 0 ≤ p.z ∧ p.z ≤ 1) :
    get_cell_enveloping_point Real.sqrt (fourCells : Grid ℝ) p =
      .ok (box 1 1 2 0 1 0 1 100 100 100) := by
  have h0 : ¬ p.x ≤ 1 := not_le.2 hx.1
  have h2 : (1 : ℝ) ≤ p.x := hx.1.le
  norm_num [get_cell_enveloping_point, total_cells, get_cell_loop, fourCells,
    is_point_inside_box, h0, h2,
    hx.2, hy.1, hy.2, hz.1, hz.2]

/-- The corner-clipping traversal: from `(0.7, 0.596, 0.5)` to `(1.3, 1.396, 0.5)`
the segment crosses the cells 0, 1 and 3 of the 2 x 2 grid, and the probe behind the
exit point of cell 0 is already located in cell 3. -/
lemma cornerClip_eval (fuel : Nat) :
    cells_intersected Real.sqrt fuel ⟨7 / 10, 149 / 250, 1 / 2⟩ ⟨13 / 10, 349 / 250, 1 / 2⟩
        (fourCells : Grid ℝ) =
      .ok ([0, 3], [⟨7 / 10, 149 / 250, 1 / 2⟩, ⟨1, 249 / 250, 1 / 2⟩,
        ⟨13 / 10, 349 / 250, 1 / 2⟩]) := by
  have hstart := fourCells_locate_0 ⟨7 / 10, 149 / 250, 1 / 2⟩ (by norm_num) (by norm_num)
    (by norm_num)
  have hend := fourCells_locate_3 ⟨13 / 10, 349 / 250, 1 / 2⟩ (by norm_num) (by norm_num)
    (by norm_num)
  have hl : ∀ n q : Vec3 ℝ, 0 < n.dot n →
      line_plane_intersection Real.sqrt ⟨7 / 10, 149 / 250, 1 / 2⟩
        ⟨13 / 10, 349 / 250, 1 / 2⟩ n q = _ :=
    fun n q hn => line_plane_intersection_real _ _ n q (by norm_num [Vec3.dot, Vec3.sub]) hn
  have hexit1 : find_exit_point Real.sqrt (box 0 0 1 0 1 0 1 100 100 100 : Cell ℝ)
      ⟨7 / 10, 149 / 250, 1 / 2⟩ ⟨13 / 10, 349 / 250, 1 / 2⟩ ⟨7 / 10, 149 / 250, 1 / 2⟩ =
      ⟨1, 249 / 250, 1 / 2⟩ := by
    rw [find_exit_point_box _ _ _ _ _ _ _ _ _ _ (by norm_num) (by norm_num) (by norm_num)]
    simp only [find_exit_loop]
    norm_num [hl, accept_point_real, feasible_point_box_faces, Vec3.dot, Vec3.sub, Vec3.add,
      Vec3.mul]
  have hnorm : ((⟨13 / 10, 349 / 250, 1 / 2⟩ : Vec3 ℝ).sub ⟨1, 249 / 250, 1 / 2⟩).norm
      Real.sqrt = 1 / 2 :=
    norm_eq_of_dot_eq _ _ (by norm_num) (by norm_num [Vec3.dot, Vec3.sub])
  have hprobe : get_cell_enveloping_point Real.sqrt (fourCells : Grid ℝ)
      (move_exit ⟨1, 249 / 250, 1 / 2⟩ ⟨13 / 10, 349 / 250, 1 / 2⟩
        ((1 / 100) / ((⟨13 / 10, 349 / 250, 1 / 2⟩ : Vec3 ℝ).sub
          ⟨1, 249 / 250, 1 / 2⟩).norm Real.sqrt)) =
      .ok (box 3 1 2 1 2 0 1 100 100 100) := by
    rw [hnorm]
    apply fourCells_locate_3 <;> norm_num [move_exit, Vec3.add, Vec3.mul]
  have h := cells_intersected_two_cells Real.sqrt fuel ⟨7 / 10, 149 / 250, 1 / 2⟩
    ⟨13 / 10, 349 / 250, 1 / 2⟩ fourCells _ _ _ _ _ ⟨1, 249 / 250, 1 / 2⟩ hend hstart
    (by simp [box]) hexit1
    (by rw [if_neg (by norm_num [Vec3.dot, Vec3.sub])]) hprobe
    (first_cell_loop_done _ _ _ _ _ _ _ _ (by simp [box])) rfl
  simpa [box] using h

/-- The traversal that never ends: from `(0.7, 0.596, 0.5)` to
`(1.0015, 0.998, 0.5)`, a point of cell 1 nearer than 0.01 to the exit point of
cell 0, the probe is located in cell 3, which the segment never reaches. -/
lemma overshoot_eval (fuel : Nat) :
    cells_intersected Real.sqrt fuel ⟨7 / 10, 149 / 250, 1 / 2⟩ ⟨2003 / 2000, 499 / 500, 1 / 2⟩
        (fourCells : Grid ℝ) = .error .out_of_fuel := by
  have hstart := fourCells_locate_0 ⟨7 / 10, 149 / 250, 1 / 2⟩ (by norm_num) (by norm_num)
    (by norm_num)
  have hend := fourCells_locate_1 ⟨2003 / 2000, 499 / 500, 1 / 2⟩ (by norm_num) (by norm_num)
    (by norm_num)
  have hl : ∀ n q : Vec3 ℝ, 0 < n.dot n →
      line_plane_intersection Real.sqrt ⟨7 / 10, 149 / 250, 1 / 2⟩
        ⟨2003 / 2000, 499 / 500, 1 / 2⟩ n q = _ :=
    fun n q hn => line_plane_intersection_real _ _ n q (by norm_num [Vec3.dot, Vec3.sub]) hn
  have hexit1 : find_exit_point Real.sqrt (box 0 0 1 0 1 0 1 100 100 100 : Cell ℝ)
      ⟨7 / 10, 149 / 250, 1 / 2⟩ ⟨2003 / 2000, 499 / 500, 1 / 2⟩ ⟨7 / 10, 149 / 250, 1 / 2⟩ =
      ⟨1, 249 / 250, 1 / 2⟩ := by
    rw [find_exit_point_box _ _ _ _ _ _ _ _ _ _ (by norm_num) (by norm_num) (by norm_num)]
    simp only [find_exit_loop]
    norm_num [hl, accept_point_real, feasible_point_box_faces, Vec3.dot, Vec3.sub, Vec3.add,
      Vec3.mul]
  have hl2 : ∀ n q : Vec3 ℝ, 0 < n.dot n →
      line_plane_intersection Real.sqrt ⟨1, 249 / 250, 1 / 2⟩
        ⟨2003 / 2000, 499 / 500, 1 / 2⟩ n q = _ :=
    fun n q hn => line_plane_intersection_real _ _ n q (by norm_num [Vec3.dot, Vec3.sub]) hn
  have hexit2 : find_exit_point Real.sqrt (box 3 1 2 1 2 0 1 100 100 100 : Cell ℝ)
      ⟨1, 249 / 250, 1 / 2⟩ ⟨2003 / 2000, 499 / 500, 1 / 2⟩ ⟨1, 249 / 250, 1 / 2⟩ =
      ⟨1, 249 / 250, 1 / 2⟩ := by
    rw [find_exit_point_box _ _ _ _ _ _ _ _ _ _ (by norm_num) (by norm_num) (by norm_num)]
    simp only [find_exit_loop]
    norm_num [hl2, accept_point_real, feasible_point_box_faces, Vec3.dot, Vec3.sub, Vec3.add,
      Vec3.mul]
  have hnorm : ((⟨2003 / 2000, 499 / 500, 1 / 2⟩ : Vec3 ℝ).sub ⟨1, 249 / 250, 1 / 2⟩).norm
      Real.sqrt = 1 / 400 :=
    norm_eq_of_dot_eq _ _ (by norm_num) (by norm_num [Vec3.dot, Vec3.sub])
  have hprobe : get_cell_enveloping_point Real.sqrt (fourCells : Grid ℝ)
      (move_exit ⟨1, 249 / 250, 1 / 2⟩ ⟨2003 / 2000, 499 / 500, 1 / 2⟩
        ((1 / 100) / ((⟨2003 / 2000, 499 / 500, 1 / 2⟩ : Vec3 ℝ).sub
          ⟨1, 249 / 250, 1 / 2⟩).norm Real.sqrt)) =
      .ok (box 3 1 2 1 2 0 1 100 100 100) := by
    rw [hnorm]
    apply fourCells_locate_3 <;> norm_num [move_exit, Vec3.add, Vec3.mul]
  have hstuck := stepping_loop_stuck Real.sqrt (fourCells : Grid ℝ)
    ⟨2003 / 2000, 499 / 500, 1 / 2⟩ (box 1 1 2 0 1 0 1 100 100 100)
    (box 3 1 2 1 2 0 1 100 100 100) ⟨1, 249 / 250, 1 / 2⟩ (by simp [box]) hexit2
    (by intro h; have := congrArg Vec3.x h; norm_num at this) hprobe
  unfold cells_intersected
  simp only [hend, hstart, hexit1]
  rw [if_neg (by simp [box]), if_neg (by norm_num [Vec3.dot, Vec3.sub])]
  simp only [hprobe]
  rw [first_cell_loop_done _ _ _ _ _ _ _ _ (by simp [box])]
  simp only [hstuck]

end CornerClip

section BoundaryStart

/-- The traversal from a point of the shared face `x = 1` of the two cells of
Scenario B into the second cell: the start point is located in cell 0. -/
lemma sharedFace_eval (fuel : Nat) :
    cells_intersected Real.sqrt fuel ⟨1, 1 / 2, 1 / 2⟩ ⟨3 / 2, 1 / 2, 1 / 2⟩
        (twoCells : Grid ℝ) =
      .ok ([0, 1], [⟨1, 1 / 2, 1 / 2⟩, ⟨1, 1 / 2, 1 / 2⟩, ⟨3 / 2, 1 / 2, 1 / 2⟩]) := by
  have hstart : get_cell_enveloping_point Real.sqrt (twoCells : Grid ℝ) ⟨1, 1 / 2, 1 / 2⟩ =
      .ok (box 0 0 1 0 1 0 1 100 100 100) := by
    norm_num [get_cell_enveloping_point, total_cells, get_cell_loop, twoCells,
      is_point_inside_box]
  have hend : get_cell_enveloping_point Real.sqrt (twoCells : Grid ℝ) ⟨3 / 2, 1 / 2, 1 / 2⟩ =
      .ok (box 1 1 2 0 1 0 1 100 100 100) := by
    norm_num [get_cell_enveloping_point, total_cells, get_cell_loop, twoCells,
      is_point_inside_box]
  have hl : ∀ n q : Vec3 ℝ, 0 < n.dot n →
      line_plane_intersection Real.sqrt ⟨1, 1 / 2, 1 / 2⟩ ⟨3 / 2, 1 / 2, 1 / 2⟩ n q = _ :=
    fun n q hn => line_plane_intersection_real _ _ n q (by norm_num [Vec3.dot, Vec3.sub]) hn
  have hexit1 : find_exit_point Real.sqrt (box 0 0 1 0 1 0 1 100 100 100 : Cell ℝ)
      ⟨1, 1 / 2, 1 / 2⟩ ⟨3 / 2, 1 / 2, 1 / 2⟩ ⟨1, 1 / 2, 1 / 2⟩ = ⟨0, 1 / 2, 1 / 2⟩ := by
    rw [find_exit_point_box _ _ _ _ _ _ _ _ _ _ (by norm_num) (by norm_num) (by norm_num)]
    simp only [find_exit_loop]
    norm_num [hl, accept_point_real, feasible_point_box_faces, Vec3.dot, Vec3.sub, Vec3.add,
      Vec3.mul]
  have hexit2 : find_exit_point Real.sqrt (box 0 0 1 0 1 0 1 100 100 100 : Cell ℝ)
      ⟨1, 1 / 2, 1 / 2⟩ ⟨3 / 2, 1 / 2, 1 / 2⟩ ⟨0, 1 / 2, 1 / 2⟩ = ⟨1, 1 / 2, 1 / 2⟩ := by
    rw [find_exit_point_box _ _ _ _ _ _ _ _ _ _ (by norm_num) (by norm_num) (by norm_num)]
    simp only [find_exit_loop]
    norm_num [hl, accept_point_real, feasible_point_box_faces, Vec3.dot, Vec3.sub, Vec3.add,
      Vec3.mul]
  have hnorm : ((⟨3 / 2, 1 / 2, 1 / 2⟩ : Vec3 ℝ).sub ⟨1, 1 / 2, 1 / 2⟩).norm Real.sqrt = 1 / 2 :=
    norm_eq_of_dot_eq _ _ (by norm_num) (by norm_num [Vec3.dot, Vec3.sub])
  have hprobe : get_cell_enveloping_point Real.sqrt (twoCells : Grid ℝ)
      (move_exit ⟨1, 1 / 2, 1 / 2⟩ ⟨3 / 2, 1 / 2, 1 / 2⟩
        ((1 / 100) / ((⟨3 / 2, 1 / 2, 1 / 2⟩ : Vec3 ℝ).sub ⟨1, 1 / 2, 1 / 2⟩).norm Real.sqrt)) =
      .ok (box 1 1 2 0 1 0 1 100 100 100) := by
    rw [hnorm]
    norm_num [move_exit, Vec3.add, Vec3.mul, get_cell_enveloping_point, total_cells,
      get_cell_loop, twoCells,
      is_point_inside_box]
  have h := cells_intersected_two_cells Real.sqrt fuel ⟨1, 1 / 2, 1 / 2⟩
    ⟨3 / 2, 1 / 2, 1 / 2⟩ twoCells _ _ _ _ _ ⟨1, 1 / 2, 1 / 2⟩ hend hstart (by simp [box]) hexit1
    (by rw [if_pos (by norm_num [Vec3.dot, Vec3.sub])]; exact hexit2) hprobe
    (first_cell_loop_done _ _ _ _ _ _ _ _ (by simp [box])) rfl
  simpa [box] using h

end BoundaryStart

section EdgeGraze

/-- Locating a point in the lower cell of `stackedCells`. -/
lemma stackedCells_locate_0 (p : Vec3 ℝ) (hx : 0 ≤ p.x ∧ p.x ≤ 1) (hy : 0 ≤ p.y ∧ p.y ≤ 1 / 2)
    (hz : 0 ≤ p.z ∧ p.z ≤ 1) :
    get_cell_enveloping_point Real.sqrt (stackedCells : Grid ℝ) p =
      .ok (box 0 0 1 0 (1 / 2) 0 1 100 100 100) := by
  have h := hy.2
  norm_num at h
  norm_num [get_cell_enveloping_point, total_cells, get_cell_loop, stackedCells,
    is_point_inside_box,
    hx.1, hx.2, hy.1, h, hz.1, hz.2]

/-- Locating a point in the upper cell of `stackedCells`. -/
lemma stackedCells_locate_1 (p : Vec3 ℝ) (hx : 0 ≤ p.x ∧ p.x ≤ 1)
    (hy : 1 / 2 < p.y ∧ p.y ≤ 3 / 2) (hz : 0 ≤ p.z ∧ p.z ≤ 1) :
    get_cell_enveloping_point Real.sqrt (stackedCells : Grid ℝ) p =
      .ok (box 1 0 1 (1 / 2) (3 / 2) 0 1 100 100 100) := by
  have h0 : ¬ p.y ≤ 1 / 2 := not_le.2 hy.1
  have h1 : (1 / 2 : ℝ) ≤ p.y := hy.1.le
  have h2 := hy.2
  norm_num at h1 h2
  norm_num [get_cell_enveloping_point, total_cells, get_cell_loop, stackedCells,
    is_point_inside_box,
    hx.1, hx.2, h0, h1, h2, hz.1, hz.2]

/-- The edge-grazing traversal: the line through the start point
`(0.299997, 0.4, 0.5)` with direction `(3, 4, 0)` meets the plane `x = 0` at
`y = 0.000004` and the plane `y = 0` at `x = -0.000003`, both within the
tolerance of the lower cell and both behind the start point.  The retry returns
the second of them as the exit point of the first cell. -/
lemma edgeGraze_eval (fuel : Nat) :
    cells_intersected Real.sqrt (fuel + 2) ⟨299997 / 1000000, 2 / 5, 1 / 2⟩
        ⟨539997 / 1000000, 18 / 25, 1 / 2⟩ (stackedCells : Grid ℝ) =
      .ok ([0, 1], [⟨299997 / 1000000, 2 / 5, 1 / 2⟩, ⟨-3 / 1000000, 0, 1 / 2⟩,
        ⟨539997 / 1000000, 18 / 25, 1 / 2⟩]) := by
  have hstart := stackedCells_locate_0 ⟨299997 / 1000000, 2 / 5, 1 / 2⟩ (by norm_num)
    (by norm_num) (by norm_num)
  have hend := stackedCells_locate_1 ⟨539997 / 1000000, 18 / 25, 1 / 2⟩ (by norm_num)
    (by norm_num) (by norm_num)
  have hl : ∀ n q : Vec3 ℝ, 0 < n.dot n →
      line_plane_intersection Real.sqrt ⟨299997 / 1000000, 2 / 5, 1 / 2⟩
        ⟨539997 / 1000000, 18 / 25, 1 / 2⟩ n q = _ :=
    fun n q hn => line_plane_intersection_real _ _ n q (by norm_num [Vec3.dot, Vec3.sub]) hn
  have hexit1 : find_exit_point Real.sqrt (box 0 0 1 0 (1 / 2) 0 1 100 100 100 : Cell ℝ)
      ⟨299997 / 1000000, 2 / 5, 1 / 2⟩ ⟨539997 / 1000000, 18 / 25, 1 / 2⟩
      ⟨299997 / 1000000, 2 / 5, 1 / 2⟩ = ⟨0, 1 / 250000, 1 / 2⟩ := by
    rw [find_exit_point_box _ _ _ _ _ _ _ _ _ _ (by norm_num) (by norm_num) (by norm_num)]
    simp only [find_exit_loop]
    norm_num [hl, accept_point_real, feasible_point_box_faces, Vec3.dot, Vec3.sub, Vec3.add,
      Vec3.mul]
  have hexit2 : find_exit_point Real.sqrt (box 0 0 1 0 (1 / 2) 0 1 100 100 100 : Cell ℝ)
      ⟨299997 / 1000000, 2 / 5, 1 / 2⟩ ⟨539997 / 1000000, 18 / 25, 1 / 2⟩
      ⟨0, 1 / 250000, 1 / 2⟩ = ⟨-3 / 1000000, 0, 1 / 2⟩ := by
    rw [find_exit_point_box _ _ _ _ _ _ _ _ _ _ (by norm_num) (by norm_num) (by norm_num)]
    simp only [find_exit_loop]
    norm_num [hl, accept_point_real, feasible_point_box_faces, Vec3.dot, Vec3.sub, Vec3.add,
      Vec3.mul]
  have hnorm : ((⟨539997 / 1000000, 18 / 25, 1 / 2⟩ : Vec3 ℝ).sub
      ⟨-3 / 1000000, 0, 1 / 2⟩).norm Real.sqrt = 9 / 10 :=
    norm_eq_of_dot_eq _ _ (by norm_num) (by norm_num [Vec3.dot, Vec3.sub])
  have hprobe : get_cell_enveloping_point Real.sqrt (stackedCells : Grid ℝ)
      (move_exit ⟨-3 / 1000000, 0, 1 / 2⟩ ⟨539997 / 1000000, 18 / 25, 1 / 2⟩
        ((1 / 100) / ((⟨539997 / 1000000, 18 / 25, 1 / 2⟩ : Vec3 ℝ).sub
          ⟨-3 / 1000000, 0, 1 / 2⟩).norm Real.sqrt)) =
      .ok (box 0 0 1 0 (1 / 2) 0 1 100 100 100) := by
    rw [hnorm]
    apply stackedCells_locate_0 <;> norm_num [move_exit, Vec3.add, Vec3.mul]
  have hprobe1 : get_cell_enveloping_point Real.sqrt (stackedCells : Grid ℝ)
      (move_exit ⟨-3 / 1000000, 0, 1 / 2⟩ ⟨539997 / 1000000, 18 / 25, 1 / 2⟩
        (10 * ((1 / 100) / ((⟨539997 / 1000000, 18 / 25, 1 / 2⟩ : Vec3 ℝ).sub
          ⟨-3 / 1000000, 0, 1 / 2⟩).norm Real.sqrt))) =
      .ok (box 0 0 1 0 (1 / 2) 0 1 100 100 100) := by
    rw [hnorm]
    apply stackedCells_locate_0 <;> norm_num [move_exit, Vec3.add, Vec3.mul]
  have hprobe2 : get_cell_enveloping_point Real.sqrt (stackedCells : Grid ℝ)
      (move_exit ⟨-3 / 1000000, 0, 1 / 2⟩ ⟨539997 / 1000000, 18 / 25, 1 / 2⟩
        (10 * (10 * ((1 / 100) / ((⟨539997 / 1000000, 18 / 25, 1 / 2⟩ : Vec3 ℝ).sub
          ⟨-3 / 1000000, 0, 1 / 2⟩).norm Real.sqrt)))) =
      .ok (box 1 0 1 (1 / 2) (3 / 2) 0 1 100 100 100) := by
    rw [hnorm]
    apply stackedCells_locate_1 <;> norm_num [move_exit, Vec3.add, Vec3.mul]
  have hloop : first_cell_loop Real.sqrt (stackedCells : Grid ℝ) ⟨-3 / 1000000, 0, 1 / 2⟩
      ⟨539997 / 1000000, 18 / 25, 1 / 2⟩ 0 (fuel + 2)
      ((1 / 100) / ((⟨539997 / 1000000, 18 / 25, 1 / 2⟩ : Vec3 ℝ).sub
          ⟨-3 / 1000000, 0, 1 / 2⟩).norm Real.sqrt)
      (box 0 0 1 0 (1 / 2) 0 1 100 100 100) = .ok (box 1 0 1 (1 / 2) (3 / 2) 0 1 100 100 100) := by
    have h0 : (box 0 0 1 0 (1 / 2) 0 1 100 100 100 : Cell ℝ).global_index = 0 := rfl
    rw [first_cell_loop_step _ _ _ _ _ _ _ _ _ h0 hprobe1,
      first_cell_loop_step _ _ _ _ _ _ _ _ _ h0 hprobe2,
      first_cell_loop_done _ _ _ _ _ _ _ _ (by simp [box])]
  have h := cells_intersected_two_cells Real.sqrt (fuel + 2) ⟨299997 / 1000000, 2 / 5, 1 / 2⟩
    ⟨539997 / 1000000, 18 / 25, 1 / 2⟩ stackedCells _ _ _ _ _ ⟨-3 / 1000000, 0, 1 / 2⟩ hend
    hstart (by simp [box]) hexit1
    (by rw [if_pos (by norm_num [Vec3.dot, Vec3.sub])]; exact hexit2) hprobe hloop rfl
  simpa [box] using h

end EdgeGraze

section ExampleGrids

lemma twoCells_disjoint : pairwise_disjoint_interiors Real.sqrt (twoCells : Grid ℝ) := by
  intro i j hi hj hij p h
  simp only [twoCells] at hi hj
  interval_cases i <;> interval_cases j <;> simp only [ne_eq, not_true_eq_false] at hij <;>
    · simp only [twoCells] at h
      rw [in_interior_box _ _ _ _ _ _ _ _ _ _ (by norm_num) (by norm_num) (by norm_num),
        in_interior_box _ _ _ _ _ _ _ _ _ _ (by norm_num) (by norm_num) (by norm_num)] at h
      obtain ⟨⟨⟨a1, a2⟩, ⟨a3, a4⟩, _⟩, ⟨b1, b2⟩, ⟨b3, b4⟩, _⟩ := h
      linarith

lemma fourCells_disjoint : pairwise_disjoint_interiors Real.sqrt (fourCells : Grid ℝ) := by
  intro i j hi hj hij p h
  simp only [fourCells] at hi hj
  interval_cases i <;> interval_cases j <;> simp only [ne_eq, not_true_eq_false] at hij <;>
    · simp only [fourCells] at h
      rw [in_interior_box _ _ _ _ _ _ _ _ _ _ (by norm_num) (by norm_num) (by norm_num),
        in_interior_box _ _ _ _ _ _ _ _ _ _ (by norm_num) (by norm_num) (by norm_num)] at h
      obtain ⟨⟨⟨a1, a2⟩, ⟨a3, a4⟩, _⟩, ⟨b1, b2⟩, ⟨b3, b4⟩, _⟩ := h
      linarith

lemma stackedCells_disjoint : pairwise_disjoint_interiors Real.sqrt (stackedCells : Grid ℝ) := by
  intro i j hi hj hij p h
  simp only [stackedCells] at hi hj
  interval_cases i <;> interval_cases j <;> simp only [ne_eq, not_true_eq_false] at hij <;>
    · simp only [stackedCells] at h
      rw [in_interior_box _ _ _ _ _ _ _ _ _ _ (by norm_num) (by norm_num) (by norm_num),
        in_interior_box _ _ _ _ _ _ _ _ _ _ (by norm_num) (by norm_num) (by norm_num)] at h
      obtain ⟨⟨⟨a1, a2⟩, ⟨a3, a4⟩, _⟩, ⟨b1, b2⟩, ⟨b3, b4⟩, _⟩ := h
      linarith

end ExampleGrids

section Claims

variable {K : Type} [LinearOrderedField K]

/-- C1 (code defect, evaluated at the failing input).  On the 2 x 2 grid of unit
cells, whose cells have pairwise disjoint interiors, the segment from
`(0.7, 0.596, 0.5)` to `(1.3, 1.396, 0.5)` passes through the interior of cell 1
(at parameter 201/400 it is at `(1.0015, 0.998, 0.5)`), but for every iteration
budget `cells_intersected` returns the cell list `[0, 3]`, which lacks cell 1. -/
theorem C1_clipped_cell_missing :
    pairwise_disjoint_interiors Real.sqrt (fourCells : Grid ℝ) ∧
    (∀ fuel : Nat,
      cells_intersected Real.sqrt fuel ⟨7 / 10, 149 / 250, 1 / 2⟩ ⟨13 / 10, 349 / 250, 1 / 2⟩
          (fourCells : Grid ℝ) =
        .ok ([0, 3], [⟨7 / 10, 149 / 250, 1 / 2⟩, ⟨1, 249 / 250, 1 / 2⟩,
          ⟨13 / 10, 349 / 250, 1 / 2⟩])) ∧
    ((0 : ℝ) ≤ 201 / 400 ∧ (201 / 400 : ℝ) ≤ 1 ∧
      in_interior Real.sqrt ((fourCells : Grid ℝ).GetCell 1)
        (segment_point ⟨7 / 10, 149 / 250, 1 / 2⟩ ⟨13 / 10, 349 / 250, 1 / 2⟩ (201 / 400))) ∧
    ((fourCells : Grid ℝ).GetCell 1).global_index ∉ [0, 3] := by
  refine ⟨fourCells_disjoint, cornerClip_eval, ⟨by norm_num, by norm_num, ?_⟩, ?_⟩
  · simp only [fourCells]
    rw [in_interior_box _ _ _ _ _ _ _ _ _ _ (by norm_num) (by norm_num) (by norm_num)]
    norm_num [segment_point, Vec3.add, Vec3.sub, Vec3.mul]
  · simp [fourCells, box]

/-- C2 (code defect, evaluated at the failing input).  On the 2 x 2 grid of unit
cells the record returned for the segment from `(0.7, 0.596, 0.5)` to
`(1.3, 1.396, 0.5)` pairs cell 3 with the entry point `(1, 0.996, 0.5)`, which
fails the six-face containment test of cell 3 with the loose tolerance. -/
theorem C2_entry_point_outside_its_cell :
    pairwise_disjoint_interiors Real.sqrt (fourCells : Grid ℝ) ∧
    (∀ fuel : Nat,
      cells_intersected Real.sqrt fuel ⟨7 / 10, 149 / 250, 1 / 2⟩ ⟨13 / 10, 349 / 250, 1 / 2⟩
          (fourCells : Grid ℝ) =
        .ok ([0, 3], [⟨7 / 10, 149 / 250, 1 / 2⟩, ⟨1, 249 / 250, 1 / 2⟩,
          ⟨13 / 10, 349 / 250, 1 / 2⟩])) ∧
    ((fourCells : Grid ℝ).GetCell 3).global_index = 3 ∧
    in_cell_loose Real.sqrt ((fourCells : Grid ℝ).GetCell 3) ⟨1, 249 / 250, 1 / 2⟩ = false := by
  refine ⟨fourCells_disjoint, cornerClip_eval, rfl, ?_⟩
  rw [Bool.eq_false_iff]
  simp only [fourCells, ne_eq]
  rw [in_cell_loose_box _ _ _ _ _ _ _ _ _ _ (by norm_num) (by norm_num) (by norm_num)]
  norm_num

/-- C3, counterexample.  In the grid of Scenario B the points `(1, 0.5, 0.5)` and
`(1.5, 0.5, 0.5)` are both contained in cell 1, yet `cells_intersected` returns the
two cell indices `[0, 1]` and three points: the start point lies on the face
shared with cell 0, and the Cell Locator returns cell 0 for it. -/
theorem C3_counterexample :
    (is_point_inside_cell Real.sqrt ((twoCells : Grid ℝ).GetCell 1) ⟨1, 1 / 2, 1 / 2⟩ = true ∧
      is_point_inside_cell Real.sqrt ((twoCells : Grid ℝ).GetCell 1) ⟨3 / 2, 1 / 2, 1 / 2⟩ =
        true) ∧
    (∀ fuel : Nat,
      cells_intersected Real.sqrt fuel ⟨1, 1 / 2, 1 / 2⟩ ⟨3 / 2, 1 / 2, 1 / 2⟩
          (twoCells : Grid ℝ) =
        .ok ([0, 1], [⟨1, 1 / 2, 1 / 2⟩, ⟨1, 1 / 2, 1 / 2⟩, ⟨3 / 2, 1 / 2, 1 / 2⟩])) := by
  refine ⟨⟨?_, ?_⟩, sharedFace_eval⟩
  · simp only [twoCells]
    rw [is_point_inside_box _ _ _ _ _ _ _ _ _ _ (by norm_num) (by norm_num) (by norm_num)]
    norm_num
  · simp only [twoCells]
    rw [is_point_inside_box _ _ _ _ _ _ _ _ _ _ (by norm_num) (by norm_num) (by norm_num)]
    norm_num

/-- C3, amended.  For every grid, every index `i` below `total_cells` (the `int`
product `nx * ny * nz` of line 335, which is `nx * ny * nz` for a grid with fewer
than `2 ^ 31` cells) and every segment whose start and end points are both
contained in cell `i` and in no cell of smaller index, `cells_intersected`
returns exactly one cell index, that of cell `i`, with the point list
`[start, end]`. -/
theorem C3_segment_in_first_containing_cell (sqrt : K → K) (fuel : Nat) (grid : Grid K)
    (i : Nat) (start_point end_point : Vec3 K)
    (hi : i < total_cells grid)
    (hstart : is_point_inside_cell sqrt (grid.GetCell i) start_point = true)
    (hend : is_point_inside_cell sqrt (grid.GetCell i) end_point = true)
    (hstart' : ∀ j, j < i → is_point_inside_cell sqrt (grid.GetCell j) start_point = false)
    (hend' : ∀ j, j < i → is_point_inside_cell sqrt (grid.GetCell j) end_point = false) :
    cells_intersected sqrt fuel start_point end_point grid =
      .ok ([(grid.GetCell i).global_index], [start_point, end_point]) :=
  cells_intersected_same_cell sqrt fuel start_point end_point grid _ _
    ((get_cell_enveloping_point_eq_ok sqrt grid start_point _).2 ⟨i, hi, hstart, hstart', rfl⟩)
    ((get_cell_enveloping_point_eq_ok sqrt grid end_point _).2 ⟨i, hi, hend, hend', rfl⟩) rfl

/-- C3, witness: a segment inside the second cell of Scenario B. -/
theorem C3_segment_in_first_containing_cell_witness :
    cells_intersected Real.sqrt 0 ⟨6 / 5, 1 / 2, 1 / 2⟩ ⟨9 / 5, 1 / 2, 1 / 2⟩
        (twoCells : Grid ℝ) =
      .ok ([1], [⟨6 / 5, 1 / 2, 1 / 2⟩, ⟨9 / 5, 1 / 2, 1 / 2⟩]) :=
  C3_segment_in_first_containing_cell Real.sqrt 0 twoCells 1 ⟨6 / 5, 1 / 2, 1 / 2⟩
    ⟨9 / 5, 1 / 2, 1 / 2⟩ (by decide)
    (by
      simp only [twoCells]
      rw [is_point_inside_box _ _ _ _ _ _ _ _ _ _ (by norm_num) (by norm_num) (by norm_num)]
      norm_num)
    (by
      simp only [twoCells]
      rw [is_point_inside_box _ _ _ _ _ _ _ _ _ _ (by norm_num) (by norm_num) (by norm_num)]
      norm_num)
    (by
      intro j hj
      interval_cases j
      rw [Bool.eq_false_iff]
      simp only [twoCells, ne_eq]
      rw [is_point_inside_box _ _ _ _ _ _ _ _ _ _ (by norm_num) (by norm_num) (by norm_num)]
      norm_num)
    (by
      intro j hj
      interval_cases j
      rw [Bool.eq_false_iff]
      simp only [twoCells, ne_eq]
      rw [is_point_inside_box _ _ _ _ _ _ _ _ _ _ (by norm_num) (by norm_num) (by norm_num)]
      norm_num)

/-- C4.  Scenario B: on the two unit cells sharing the face `x = 1`,
`cells_intersected` from `(0.5, 0.5, 0.5)` to `(1.5, 0.5, 0.5)` returns, for every
iteration budget, the cell list `[0, 1]` and the point list
`[(0.5, 0.5, 0.5), (1, 0.5, 0.5), (1.5, 0.5, 0.5)]`. -/
theorem C4_scenario_B (fuel : Nat) :
    cells_intersected Real.sqrt fuel ⟨1 / 2, 1 / 2, 1 / 2⟩ ⟨3 / 2, 1 / 2, 1 / 2⟩
        (twoCells : Grid ℝ) =
      .ok ([0, 1], [⟨1 / 2, 1 / 2, 1 / 2⟩, ⟨1, 1 / 2, 1 / 2⟩, ⟨3 / 2, 1 / 2, 1 / 2⟩]) :=
  scenarioB_eval fuel

/-- C5.  Whenever `cells_intersected` returns `(cells, points)`, `points` has one
more element than `cells`, the first point is `start`, the last point is `end`,
the first cell index is that of the cell located for `start` and the last cell
index is that of the cell located for `end`. -/
theorem C5_record_shape (sqrt : K → K) (fuel : Nat) (start_point end_point : Vec3 K)
    (grid : Grid K) (cells : List Nat) (points : List (Vec3 K))
    (h : cells_intersected sqrt fuel start_point end_point grid = .ok (cells, points)) :
    points.length = cells.length + 1 ∧
    points.head? = some start_point ∧
    points.getLast? = some end_point ∧
    (∃ first_cell, get_cell_enveloping_point sqrt grid start_point = .ok first_cell ∧
      cells.head? = some first_cell.global_index) ∧
    (∃ last_cell, get_cell_enveloping_point sqrt grid end_point = .ok last_cell ∧
      cells.getLast? = some last_cell.global_index) := by
  obtain ⟨first_cell, last_cell, cs, ps, hfirst, hlast, hlen, hcase⟩ :=
    cells_intersected_shape sqrt fuel start_point end_point grid cells points h
  rcases hcase with ⟨hc, hp, heq⟩ | ⟨hc, exit_point, hp⟩
  · subst hc hp
    refine ⟨rfl, rfl, rfl, ⟨first_cell, hfirst, rfl⟩, ⟨last_cell, hlast, ?_⟩⟩
    simp [heq]
  · subst hc hp
    refine ⟨?_, rfl, ?_, ⟨first_cell, hfirst, rfl⟩, ⟨last_cell, hlast, ?_⟩⟩
    · simp [hlen]
    · rw [show start_point :: (ps ++ [exit_point, end_point]) =
        (start_point :: (ps ++ [exit_point])) ++ [end_point] by simp]
      exact List.getLast?_concat _
    · rw [show first_cell.global_index :: (cs ++ [last_cell.global_index]) =
        (first_cell.global_index :: cs) ++ [last_cell.global_index] by simp]
      exact List.getLast?_concat _

/-- C5, witness: the record of Scenario B. -/
theorem C5_record_shape_witness :
    cells_intersected Real.sqrt 0 ⟨1 / 2, 1 / 2, 1 / 2⟩ ⟨3 / 2, 1 / 2, 1 / 2⟩
        (twoCells : Grid ℝ) =
      .ok ([0, 1], [⟨1 / 2, 1 / 2, 1 / 2⟩, ⟨1, 1 / 2, 1 / 2⟩, ⟨3 / 2, 1 / 2, 1 / 2⟩]) ∧
    ([⟨1 / 2, 1 / 2, 1 / 2⟩, ⟨1, 1 / 2, 1 / 2⟩, ⟨3 / 2, 1 / 2, 1 / 2⟩] : List (Vec3 ℝ)).length =
      ([0, 1] : List Nat).length + 1 ∧
    ([⟨1 / 2, 1 / 2, 1 / 2⟩, ⟨1, 1 / 2, 1 / 2⟩, ⟨3 / 2, 1 / 2, 1 / 2⟩] : List (Vec3 ℝ)).head? =
      some ⟨1 / 2, 1 / 2, 1 / 2⟩ ∧
    ([⟨1 / 2, 1 / 2, 1 / 2⟩, ⟨1, 1 / 2, 1 / 2⟩, ⟨3 / 2, 1 / 2, 1 / 2⟩] : List (Vec3 ℝ)).getLast? =
      some ⟨3 / 2, 1 / 2, 1 / 2⟩ ∧
    (∃ first_cell, get_cell_enveloping_point Real.sqrt (twoCells : Grid ℝ)
        ⟨1 / 2, 1 / 2, 1 / 2⟩ = .ok first_cell ∧
      ([0, 1] : List Nat).head? = some first_cell.global_index) ∧
    (∃ last_cell, get_cell_enveloping_point Real.sqrt (twoCells : Grid ℝ)
        ⟨3 / 2, 1 / 2, 1 / 2⟩ = .ok last_cell ∧
      ([0, 1] : List Nat).getLast? = some last_cell.global_index) :=
  ⟨scenarioB_eval 0,
    C5_record_shape Real.sqrt 0 ⟨1 / 2, 1 / 2, 1 / 2⟩ ⟨3 / 2, 1 / 2, 1 / 2⟩ twoCells [0, 1]
      [⟨1 / 2, 1 / 2, 1 / 2⟩, ⟨1, 1 / 2, 1 / 2⟩, ⟨3 / 2, 1 / 2, 1 / 2⟩] (scenarioB_eval 0)⟩

/-- C6 (code defect, evaluated at the failing input).  On `stackedCells` the
record returned for the segment from `(0.299997, 0.4, 0.5)` to
`(0.539997, 0.72, 0.5)` has the points `start, (-0.000003, 0, 0.5), end`: the
middle point lies behind the start point, the sub-segment lengths add up to 7/5,
and the segment has length 2/5. -/
theorem C6_exit_point_behind_start :
    pairwise_disjoint_interiors Real.sqrt (stackedCells : Grid ℝ) ∧
    (∀ fuel : Nat,
      cells_intersected Real.sqrt (fuel + 2) ⟨299997 / 1000000, 2 / 5, 1 / 2⟩
          ⟨539997 / 1000000, 18 / 25, 1 / 2⟩ (stackedCells : Grid ℝ) =
        .ok ([0, 1], [⟨299997 / 1000000, 2 / 5, 1 / 2⟩, ⟨-3 / 1000000, 0, 1 / 2⟩,
          ⟨539997 / 1000000, 18 / 25, 1 / 2⟩])) ∧
    path_length Real.sqrt [(⟨299997 / 1000000, 2 / 5, 1 / 2⟩ : Vec3 ℝ),
      ⟨-3 / 1000000, 0, 1 / 2⟩, ⟨539997 / 1000000, 18 / 25, 1 / 2⟩] = 7 / 5 ∧
    ((⟨539997 / 1000000, 18 / 25, 1 / 2⟩ : Vec3 ℝ).sub
      ⟨299997 / 1000000, 2 / 5, 1 / 2⟩).norm Real.sqrt = 2 / 5 ∧
    ((⟨539997 / 1000000, 18 / 25, 1 / 2⟩ : Vec3 ℝ).sub ⟨299997 / 1000000, 2 / 5, 1 / 2⟩).dot
      ((⟨-3 / 1000000, 0, 1 / 2⟩ : Vec3 ℝ).sub ⟨299997 / 1000000, 2 / 5, 1 / 2⟩) < 0 := by
  refine ⟨stackedCells_disjoint, edgeGraze_eval, ?_, ?_, ?_⟩
  · have h1 : ((⟨-3 / 1000000, 0, 1 / 2⟩ : Vec3 ℝ).sub
        ⟨299997 / 1000000, 2 / 5, 1 / 2⟩).norm Real.sqrt = 1 / 2 :=
      norm_eq_of_dot_eq _ _ (by norm_num) (by norm_num [Vec3.dot, Vec3.sub])
    have h2 : ((⟨539997 / 1000000, 18 / 25, 1 / 2⟩ : Vec3 ℝ).sub
        ⟨-3 / 1000000, 0, 1 / 2⟩).norm Real.sqrt = 9 / 10 :=
      norm_eq_of_dot_eq _ _ (by norm_num) (by norm_num [Vec3.dot, Vec3.sub])
    simp only [path_length, h1, h2]
    norm_num
  · exact norm_eq_of_dot_eq _ _ (by norm_num) (by norm_num [Vec3.dot, Vec3.sub])
  · norm_num [Vec3.dot, Vec3.sub]

/-- C7 (code defect, evaluated at the failing input).  On the 2 x 2 grid of unit
cells, for the segment from `(0.7, 0.596, 0.5)` in cell 0 to
`(1.0015, 0.998, 0.5)` in cell 1, the stepping loop of `cells_intersected` never
exits: every iteration budget is exhausted. -/
theorem C7_stepping_loop_never_exits :
    (is_point_inside_cell Real.sqrt ((fourCells : Grid ℝ).GetCell 0)
        ⟨7 / 10, 149 / 250, 1 / 2⟩ = true ∧
      is_point_inside_cell Real.sqrt ((fourCells : Grid ℝ).GetCell 1)
        ⟨2003 / 2000, 499 / 500, 1 / 2⟩ = true) ∧
    (∀ fuel : Nat,
      cells_intersected Real.sqrt fuel ⟨7 / 10, 149 / 250, 1 / 2⟩
        ⟨2003 / 2000, 499 / 500, 1 / 2⟩ (fourCells : Grid ℝ) = .error .out_of_fuel) := by
  refine ⟨⟨?_, ?_⟩, overshoot_eval⟩
  · simp only [fourCells]
    rw [is_point_inside_box _ _ _ _ _ _ _ _ _ _ (by norm_num) (by norm_num) (by norm_num)]
    norm_num
  · simp only [fourCells]
    rw [is_point_inside_box _ _ _ _ _ _ _ _ _ _ (by norm_num) (by norm_num) (by norm_num)]
    norm_num

/-- C8.  If the start point or the end point is contained in no cell of the grid,
`cells_intersected` fails with the out-of-grid error, and so does
`well_index_of_grid` for every trajectory list starting with that segment; no
record is returned. -/
theorem C8_out_of_grid_endpoint (sqrt log : K → K) (pi : K) (fuel : Nat) (grid : Grid K)
    (start_point end_point : Vec3 K) (start_points end_points : List (Vec3 K))
    (wellbore_radius : K)
    (h : (∀ i, i < grid.nx * grid.ny * grid.nz →
          is_point_inside_cell sqrt (grid.GetCell i) start_point = false) ∨
        (∀ i, i < grid.nx * grid.ny * grid.nz →
          is_point_inside_cell sqrt (grid.GetCell i) end_point = false)) :
    cells_intersected sqrt fuel start_point end_point grid = .error .cell_outside_grid ∧
    well_index_of_grid sqrt log pi fuel grid (start_point :: start_points)
      (end_point :: end_points) wellbore_radius = .error .cell_outside_grid := by
  have hc : cells_intersected sqrt fuel start_point end_point grid =
      .error .cell_outside_grid := by
    rcases h with h | h
    · exact cells_intersected_error_of_start sqrt fuel start_point end_point grid
        ((get_cell_enveloping_point_eq_error sqrt grid start_point _).2
          ⟨rfl, fun i hi => h i (lt_of_lt_of_le hi (total_cells_le grid))⟩)
    · exact cells_intersected_error_of_end sqrt fuel start_point end_point grid _
        ((get_cell_enveloping_point_eq_error sqrt grid end_point _).2
          ⟨rfl, fun i hi => h i (lt_of_lt_of_le hi (total_cells_le grid))⟩)
  refine ⟨hc, ?_⟩
  simp [well_index_of_grid, at_index, hc]

/-- C8, witness: in the grid of Scenario B the end point `(2.5, 0.5, 0.5)` is
contained in no cell. -/
theorem C8_out_of_grid_endpoint_witness :
    cells_intersected Real.sqrt 0 ⟨1 / 2, 1 / 2, 1 / 2⟩ ⟨5 / 2, 1 / 2, 1 / 2⟩
        (twoCells : Grid ℝ) = .error .cell_outside_grid ∧
    well_index_of_grid Real.sqrt Real.log Real.pi 0 (twoCells : Grid ℝ)
      [⟨1 / 2, 1 / 2, 1 / 2⟩] [⟨5 / 2, 1 / 2, 1 / 2⟩] (1 / 10) = .error .cell_outside_grid :=
  C8_out_of_grid_endpoint Real.sqrt Real.log Real.pi 0 twoCells ⟨1 / 2, 1 / 2, 1 / 2⟩
    ⟨5 / 2, 1 / 2, 1 / 2⟩ [] [] (1 / 10)
    (Or.inr (by
      intro i hi
      simp only [twoCells] at hi
      interval_cases i <;>
      · rw [Bool.eq_false_iff]
        simp only [twoCells, ne_eq]
        rw [is_point_inside_box _ _ _ _ _ _ _ _ _ _ (by norm_num) (by norm_num) (by norm_num)]
        norm_num))

/-- C9, counterexample.  In the grid of 65536 x 65536 x 1 cells the index 0 is
below `nx * ny * nz` and cell 0 contains the point `(0.5, 0.5, 0.5)`, but the
`int` product `total_cells` wraps to 0, no cell is scanned and
`get_cell_enveloping_point` fails with the out-of-grid error. -/
theorem C9_counterexample :
    0 < (bigGrid : Grid ℝ).nx * (bigGrid : Grid ℝ).ny * (bigGrid : Grid ℝ).nz ∧
    is_point_inside_cell Real.sqrt ((bigGrid : Grid ℝ).GetCell 0) ⟨1 / 2, 1 / 2, 1 / 2⟩ = true ∧
    total_cells (bigGrid : Grid ℝ) = 0 ∧
    get_cell_enveloping_point Real.sqrt (bigGrid : Grid ℝ) ⟨1 / 2, 1 / 2, 1 / 2⟩ =
      .error .cell_outside_grid := by
  have ht : total_cells (bigGrid : Grid ℝ) = 0 := by
    norm_num [total_cells, bigGrid]
  refine ⟨by norm_num [bigGrid], ?_, ht, ?_⟩
  · have h : (bigGrid : Grid ℝ).GetCell 0 = box 0 0 1 0 1 0 1 100 100 100 := by
      simp [bigGrid]
    rw [h, is_point_inside_box _ _ _ _ _ _ _ _ _ _ (by norm_num) (by norm_num) (by norm_num)]
    norm_num
  · simp only [get_cell_enveloping_point, ht, get_cell_loop]

/-- C9, amended.  `get_cell_enveloping_point` returns a cell exactly when that
cell is `grid.GetCell i` for the smallest index `i` below `total_cells` whose
cell contains the point; it fails exactly when no index below `total_cells` has
a cell containing the point, and its only error is the out-of-grid error.
`total_cells` is the `int` product of line 335: it is `nx * ny * nz` for a grid
with fewer than `2 ^ 31` cells and never more than `nx * ny * nz`. -/
theorem C9_cell_locator (sqrt : K → K) (grid : Grid K) (point : Vec3 K) :
    (∀ cell, get_cell_enveloping_point sqrt grid point = .ok cell ↔
      ∃ i, i < total_cells grid ∧
        is_point_inside_cell sqrt (grid.GetCell i) point = true ∧
        (∀ j, j < i → is_point_inside_cell sqrt (grid.GetCell j) point = false) ∧
        cell = grid.GetCell i) ∧
    (get_cell_enveloping_point sqrt grid point = .error .cell_outside_grid ↔
      ∀ i, i < total_cells grid →
        is_point_inside_cell sqrt (grid.GetCell i) point = false) ∧
    (∀ e, get_cell_enveloping_point sqrt grid point = .error e → e = .cell_outside_grid) ∧
    (grid.nx * grid.ny * grid.nz < 2 ^ 31 → total_cells grid = grid.nx * grid.ny * grid.nz) ∧
    total_cells grid ≤ grid.nx * grid.ny * grid.nz := by
  refine ⟨fun cell => get_cell_enveloping_point_eq_ok sqrt grid point cell, ?_, ?_,
    total_cells_of_lt grid, total_cells_le grid⟩
  · rw [get_cell_enveloping_point_eq_error]
    simp
  · intro e he
    exact ((get_cell_enveloping_point_eq_error sqrt grid point e).1 he).1

/-- C10.  `is_point_inside_cell cell p` holds exactly when, for each of the six
faces of `cell_planes_coords`, the dot product of `p - ref` with the face normal
is at least `-0`, where `ref` is the first corner of the face triple; equivalently
when `point_on_same_side p ref n 0` holds for all six faces, where
`point_on_same_side q r n slack` holds iff `dot (q - r) n ≥ -slack`. -/
theorem C10_point_containment (sqrt : K → K) (cell : Cell K) (point : Vec3 K) :
    (cell_planes_coords cell.corners).length = 6 ∧
    (is_point_inside_cell sqrt cell point = true ↔
      ∀ f ∈ cell_planes_coords cell.corners,
        (point.sub f.1).dot (normal_vector sqrt f.1 f.2.1 f.2.2) ≥ -0) ∧
    (is_point_inside_cell sqrt cell point = true ↔
      ∀ f ∈ cell_planes_coords cell.corners,
        point_on_same_side point f.1 (normal_vector sqrt f.1 f.2.1 f.2.2) 0 = true) ∧
    (∀ (q r n : Vec3 K) (slack : K),
      point_on_same_side q r n slack = true ↔ (q.sub r).dot n ≥ -slack) := by
  refine ⟨rfl, ?_, ?_, point_on_same_side_iff⟩
  · rw [is_point_inside_cell_iff, face_points_normals_eq_map]
    constructor
    · intro h f hf
      have := h _ (List.mem_map_of_mem (fun f => (f.1, normal_vector sqrt f.1 f.2.1 f.2.2)) hf)
      simpa using this
    · intro h fn hfn
      obtain ⟨f, hf, rfl⟩ := List.mem_map.1 hfn
      simpa using h f hf
  · rw [is_point_inside_cell_iff, face_points_normals_eq_map]
    constructor
    · intro h f hf
      have := h _ (List.mem_map_of_mem (fun f => (f.1, normal_vector sqrt f.1 f.2.1 f.2.2)) hf)
      rw [point_on_same_side_iff]
      simpa using this
    · intro h fn hfn
      obtain ⟨f, hf, rfl⟩ := List.mem_map.1 hfn
      have := h f hf
      rw [point_on_same_side_iff] at this
      simpa using this

end Claims

section WellIndexLemmas

variable {K : Type} [LinearOrderedField K]

/-- The segment loop adds the projected lengths to the three accumulators. -/
lemma projection_loop_eq (sqrt : K → K) (xvec yvec zvec : Vec3 K) :
    ∀ (start_points end_points : List (Vec3 K)) (acc : K × K × K),
      start_points.length ≤ end_points.length →
      projection_loop sqrt xvec yvec zvec start_points end_points acc =
        .ok (acc.1 + projected_length sqrt xvec start_points end_points,
          acc.2.1 + projected_length sqrt yvec start_points end_points,
          acc.2.2 + projected_length sqrt zvec start_points end_points) := by
  intro start_points
  induction start_points with
  | nil =>
    intro end_points acc _
    simp [projection_loop, projected_length]
  | cons s ss ih =>
    intro end_points acc h
    cases end_points with
    | nil => simp at h
    | cons e es =>
      obtain ⟨Lx, Ly, Lz⟩ := acc
      simp only [projection_loop]
      rw [ih es _ (by simpa using h)]
      simp only [projected_length, List.zip_cons_cons, List.map_cons, List.sum_cons, add_assoc]

/-- The value of `well_index_cell_qvector` on lists of equal length. -/
lemma well_index_cell_qvector_eq (sqrt log : K → K) (pi : K) (cell : Cell K)
    (start_points end_points : List (Vec3 K)) (wellbore_radius : K)
    (h : start_points.length ≤ end_points.length) :
    well_index_cell_qvector sqrt log pi cell start_points end_points wellbore_radius =
      .ok (sqrt (
        dir_well_index sqrt log pi
            (projected_length sqrt ((cell.corners 5).sub (cell.corners 4)) start_points end_points)
            (((cell.corners 6).sub (cell.corners 4)).norm sqrt)
            (((cell.corners 0).sub (cell.corners 4)).norm sqrt) cell.permy cell.permz
            wellbore_radius *
          dir_well_index sqrt log pi
            (projected_length sqrt ((cell.corners 5).sub (cell.corners 4)) start_points end_points)
            (((cell.corners 6).sub (cell.corners 4)).norm sqrt)
            (((cell.corners 0).sub (cell.corners 4)).norm sqrt) cell.permy cell.permz
            wellbore_radius +
        dir_well_index sqrt log pi
            (projected_length sqrt ((cell.corners 6).sub (cell.corners 4)) start_points end_points)
            (((cell.corners 5).sub (cell.corners 4)).norm sqrt)
            (((cell.corners 0).sub (cell.corners 4)).norm sqrt) cell.permx cell.permz
            wellbore_radius *
          dir_well_index sqrt log pi
            (projected_length sqrt ((cell.corners 6).sub (cell.corners 4)) start_points end_points)
            (((cell.corners 5).sub (cell.corners 4)).norm sqrt)
            (((cell.corners 0).sub (cell.corners 4)).norm sqrt) cell.permx cell.permz
            wellbore_radius +
        dir_well_index sqrt log pi
            (projected_length sqrt ((cell.corners 0).sub (cell.corners 4)) start_points end_points)
            (((cell.corners 5).sub (cell.corners 4)).norm sqrt)
            (((cell.corners 6).sub (cell.corners 4)).norm sqrt) cell.permx cell.permy
            wellbore_radius *
          dir_well_index sqrt log pi
            (projected_length sqrt ((cell.corners 0).sub (cell.corners 4)) start_points end_points)
            (((cell.corners 5).sub (cell.corners 4)).norm sqrt)
            (((cell.corners 6).sub (cell.corners 4)).norm sqrt) cell.permx cell.permy
            wellbore_radius)) := by
  simp only [well_index_cell_qvector, projection_loop_eq sqrt _ _ _ start_points end_points _ h,
    zero_add]

/-- Over the reals every value `well_index_cell_qvector` returns is a square root. -/
lemma well_index_cell_qvector_nonneg (cell : Cell ℝ) (start_points end_points : List (Vec3 ℝ))
    (wellbore_radius w : ℝ)
    (h : well_index_cell_qvector Real.sqrt Real.log Real.pi cell start_points end_points
      wellbore_radius = .ok w) : 0 ≤ w := by
  simp only [well_index_cell_qvector] at h
  split at h
  · cases h
  · simp only [Except.ok.injEq] at h
    rw [← h]
    exact Real.sqrt_nonneg _

/-- The cell loop of `well_index_of_grid` only appends values returned by
`well_index_cell_qvector`. -/
lemma well_indeces_loop_nonneg (grid : Grid ℝ) (points : List (Vec3 ℝ)) (wellbore_radius : ℝ) :
    ∀ (cells : List Nat) (ii : Nat) (acc ws : List ℝ),
      (∀ w ∈ acc, 0 ≤ w) →
      well_indeces_loop Real.sqrt Real.log Real.pi grid points wellbore_radius cells ii acc =
        .ok ws →
      ∀ w ∈ ws, 0 ≤ w := by
  intro cells
  induction cells with
  | nil =>
    intro ii acc ws hacc h
    simp only [well_indeces_loop, Except.ok.injEq] at h
    rw [← h]; exact hacc
  | cons c cs ih =>
    intro ii acc ws hacc h
    simp only [well_indeces_loop] at h
    split at h
    · cases h
    · split at h
      · cases h
      · split at h
        · cases h
        · rename_i wi hwi
          refine ih _ _ _ ?_ h
          intro w hw
          rcases List.mem_append.1 hw with hw | hw
          · exact hacc w hw
          · rw [List.mem_singleton.1 hw]
            exact well_index_cell_qvector_nonneg _ _ _ _ _ hwi

end WellIndexLemmas

section ExitPointLemmas

variable {K : Type} [LinearOrderedField K]

/-- The face loop returns the candidate of the first face of the list that is not
skipped and whose candidate is accepted, and the entry point if there is none. -/
lemma find_exit_loop_spec (sqrt : K → K) (faces : List (Vec3 K × Vec3 K))
    (entry_point end_point exception_point : Vec3 K) :
    ∀ l : List (Vec3 K × Vec3 K),
      (∃ pre fn post, l = pre ++ fn :: post ∧
        (∀ g ∈ pre, ¬ (g.2.dot (end_point.sub entry_point) ≠ 0 ∧
          accept_point sqrt faces entry_point end_point exception_point
            (line_plane_intersection sqrt entry_point end_point g.2 g.1) = true)) ∧
        (fn.2.dot (end_point.sub entry_point) ≠ 0 ∧
          accept_point sqrt faces entry_point end_point exception_point
            (line_plane_intersection sqrt entry_point end_point fn.2 fn.1) = true) ∧
        find_exit_loop sqrt faces entry_point end_point exception_point l =
          line_plane_intersection sqrt entry_point end_point fn.2 fn.1) ∨
      ((∀ g ∈ l, ¬ (g.2.dot (end_point.sub entry_point) ≠ 0 ∧
          accept_point sqrt faces entry_point end_point exception_point
            (line_plane_intersection sqrt entry_point end_point g.2 g.1) = true)) ∧
        find_exit_loop sqrt faces entry_point end_point exception_point l = entry_point) := by
  intro l
  induction l with
  | nil => right; simp [find_exit_loop]
  | cons f rest ih =>
    obtain ⟨q, n⟩ := f
    by_cases hf : n.dot (end_point.sub entry_point) ≠ 0 ∧
        accept_point sqrt faces entry_point end_point exception_point
          (line_plane_intersection sqrt entry_point end_point n q) = true
    · left
      refine ⟨[], (q, n), rest, rfl, by simp, hf, ?_⟩
      simp only [find_exit_loop]
      rw [if_pos hf.1, if_pos hf.2]
    · have hstep : find_exit_loop sqrt faces entry_point end_point exception_point
          ((q, n) :: rest) =
          find_exit_loop sqrt faces entry_point end_point exception_point rest := by
        simp only [find_exit_loop]
        by_cases h1 : n.dot (end_point.sub entry_point) ≠ 0
        · have h2 : ¬ accept_point sqrt faces entry_point end_point exception_point
              (line_plane_intersection sqrt entry_point end_point n q) = true :=
            fun h => hf ⟨h1, h⟩
          rw [if_pos h1, if_neg h2]
        · rw [if_neg h1]
      rcases ih with ⟨pre, fn, post, hl, hpre, hfn, hres⟩ | ⟨hall, hres⟩
      · left
        refine ⟨(q, n) :: pre, fn, post, by simp [hl], ?_, hfn, by rw [hstep, hres]⟩
        intro g hg
        rcases List.mem_cons.1 hg with rfl | hg
        · exact hf
        · exact hpre g hg
      · right
        refine ⟨?_, by rw [hstep, hres]⟩
        intro g hg
        rcases List.mem_cons.1 hg with rfl | hg
        · exact hf
        · exact hall g hg

/-- An accepted candidate passes the loose test of every face, is farther than
`10e-10` from the exception point and is not beyond the end point. -/
lemma accept_point_iff (sqrt : K → K) (faces : List (Vec3 K × Vec3 K))
    (entry_point end_point exception_point p : Vec3 K) :
    accept_point sqrt faces entry_point end_point exception_point p = true ↔
      (∀ fn ∈ faces, (p.sub fn.1).dot fn.2 ≥ -(1 / 100000)) ∧
      (exception_point.sub p).norm sqrt > 1 / 1000000000 ∧
      (end_point.sub entry_point).dot (end_point.sub p) ≥ 0 := by
  have h1 : (10 / 1000000 : K) = 1 / 100000 := by norm_num
  have h2 : (10 / 10000000000 : K) = 1 / 1000000000 := by norm_num
  simp only [accept_point, Bool.and_eq_true, decide_eq_true_eq, feasible_point_iff,
    point_on_same_side_iff, h1, h2, and_assoc]

/-- What `find_exit_point` returns is the entry point or an accepted candidate of
a face that is not parallel to the line. -/
lemma find_exit_point_cases (sqrt : K → K) (cell : Cell K)
    (entry_point end_point exception_point : Vec3 K) :
    find_exit_point sqrt cell entry_point end_point exception_point = entry_point ∨
    ∃ fn ∈ face_points_normals sqrt cell,
      fn.2.dot (end_point.sub entry_point) ≠ 0 ∧
      accept_point sqrt (face_points_normals sqrt cell) entry_point end_point exception_point
        (line_plane_intersection sqrt entry_point end_point fn.2 fn.1) = true ∧
      find_exit_point sqrt cell entry_point end_point exception_point =
        line_plane_intersection sqrt entry_point end_point fn.2 fn.1 := by
  rcases find_exit_loop_spec sqrt (face_points_normals sqrt cell) entry_point end_point
    exception_point (face_points_normals sqrt cell) with
    ⟨pre, fn, post, hl, _, hfn, hres⟩ | ⟨_, hres⟩
  · right
    refine ⟨fn, ?_, hfn.1, hfn.2, hres⟩
    rw [hl]; simp
  · left; exact hres

end ExitPointLemmas

section RealVectors

lemma dot_self_pos_of_ne (v : Vec3 ℝ) (h : v ≠ ⟨0, 0, 0⟩) : 0 < v.dot v := by
  have h0 : 0 ≤ v.dot v := by
    simp only [Vec3.dot]
    nlinarith [mul_self_nonneg v.x, mul_self_nonneg v.y, mul_self_nonneg v.z]
  rcases h0.lt_or_eq with h1 | h1
  · exact h1
  · exfalso
    apply h
    simp only [Vec3.dot] at h1
    have hx : v.x = 0 := by
      have : v.x * v.x = 0 := by
        nlinarith [mul_self_nonneg v.x, mul_self_nonneg v.y, mul_self_nonneg v.z]
      exact mul_self_eq_zero.1 this
    have hy : v.y = 0 := by
      have : v.y * v.y = 0 := by
        nlinarith [mul_self_nonneg v.x, mul_self_nonneg v.y, mul_self_nonneg v.z]
      exact mul_self_eq_zero.1 this
    have hz : v.z = 0 := by
      have : v.z * v.z = 0 := by
        nlinarith [mul_self_nonneg v.x, mul_self_nonneg v.y, mul_self_nonneg v.z]
      exact mul_self_eq_zero.1 this
    ext <;> simp [hx, hy, hz]

lemma dot_self_pos_of_dot_ne (v w : Vec3 ℝ) (h : v.dot w ≠ 0) : 0 < v.dot v := by
  apply dot_self_pos_of_ne
  rintro rfl
  apply h
  simp [Vec3.dot]

lemma dot_self_pos_of_dot_ne_right (v w : Vec3 ℝ) (h : v.dot w ≠ 0) : 0 < w.dot w := by
  apply dot_self_pos_of_ne
  rintro rfl
  apply h
  simp [Vec3.dot]

end RealVectors

section Parallelepiped

lemma dot_normalized (v N : Vec3 ℝ) :
    v.dot (N.normalized Real.sqrt) = v.dot N / Real.sqrt (N.dot N) := by
  simp only [Vec3.normalized, Vec3.div, Vec3.norm, Vec3.dot]
  ring

lemma normalized_dot (v N : Vec3 ℝ) :
    (N.normalized Real.sqrt).dot v = N.dot v / Real.sqrt (N.dot N) := by
  simp only [Vec3.normalized, Vec3.div, Vec3.norm, Vec3.dot]
  ring

/-- Every corner of a parallelepiped in the corner convention lies on the inner
side of (or in) the plane of every face, measured with the cross product of the
face triple before normalisation. -/
lemma parallelepiped_corner_dot (gi : Nat) (c4 x y z : Vec3 ℝ) (kx ky kz : ℝ)
    (hT : (x.cross y).dot z ≤ 0) (i : Fin 8) :
    ∀ f ∈ cell_planes_coords (parallelepiped gi c4 x y z kx ky kz).corners,
      0 ≤ (((parallelepiped gi c4 x y z kx ky kz).corners i).sub f.1).dot
        ((f.2.2.sub f.1).cross (f.2.1.sub f.1)) := by
  simp only [Vec3.cross, Vec3.dot] at hT
  intro f hf
  simp only [cell_planes_coords, face_corner_indices, List.map_cons, List.map_nil,
    List.mem_cons, List.mem_singleton, List.not_mem_nil, or_false] at hf
  rcases hf with rfl | rfl | rfl | rfl | rfl | rfl <;> fin_cases i <;>
    simp only [parallelepiped, Vec3.add, Vec3.sub, Vec3.cross, Vec3.dot] <;>
    nlinarith [hT]

/-- For a parallelepiped, the cross product of every face triple has the same dot
product with the vector from the face's first corner to the centroid: minus half
the triple product of the edge vectors. -/
lemma parallelepiped_centroid_dot (gi : Nat) (c4 x y z : Vec3 ℝ) (kx ky kz : ℝ) :
    ∀ f ∈ cell_planes_coords (parallelepiped gi c4 x y z kx ky kz).corners,
      ((f.2.2.sub f.1).cross (f.2.1.sub f.1)).dot
        ((centroid (parallelepiped gi c4 x y z kx ky kz)).sub f.1) =
      -((x.cross y).dot z) / 2 := by
  intro f hf
  simp only [cell_planes_coords, face_corner_indices, List.map_cons, List.map_nil,
    List.mem_cons, List.mem_singleton, List.not_mem_nil, or_false] at hf
  rcases hf with rfl | rfl | rfl | rfl | rfl | rfl <;>
    simp only [centroid, parallelepiped, Vec3.add, Vec3.sub, Vec3.cross, Vec3.dot, Vec3.div] <;>
    ring

end Parallelepiped

section RaisedCorner

/-- The face planes of the unit cube with raised corner 7 are those of the unit
cube: no face triple contains corner 7. -/
lemma face_points_normals_raisedCornerCell :
    face_points_normals Real.sqrt (raisedCornerCell : Cell ℝ) = box_faces 0 1 0 1 0 1 := by
  simp [box_faces, face_points_normals, cell_planes_coords, face_corner_indices, normal_vectors,
    normal_vector, raisedCornerCell, Vec3.sub, Vec3.cross, Vec3.normalized, Vec3.norm, Vec3.dot,
    Vec3.div]

end RaisedCorner

section FaceClaims

variable {K : Type} [LinearOrderedField K]

/-- C11, counterexample.  The unit cube with corner 7 raised to `(1, 1, 1.1)` has
no collinear face triple (every face triple has a nonzero cross product), yet its
own corner 7 fails the six-face containment test with the loose tolerance: it
lies 0.1 outside the plane through the corners 4, 5 and 6. -/
theorem C11_counterexample :
    (∀ f ∈ cell_planes_coords (raisedCornerCell : Cell ℝ).corners,
      (f.2.2.sub f.1).cross (f.2.1.sub f.1) ≠ ⟨0, 0, 0⟩) ∧
    in_cell_loose Real.sqrt (raisedCornerCell : Cell ℝ)
      ((raisedCornerCell : Cell ℝ).corners 7) = false := by
  constructor
  · intro f hf
    simp only [cell_planes_coords, face_corner_indices, List.map_cons, List.map_nil,
      List.mem_cons, List.mem_singleton, List.not_mem_nil, or_false] at hf
    rcases hf with rfl | rfl | rfl | rfl | rfl | rfl <;>
      simp [raisedCornerCell, Vec3.sub, Vec3.cross]
  · rw [Bool.eq_false_iff, ne_eq, in_cell_loose, face_points_normals_raisedCornerCell,
      feasible_point_box_faces]
    norm_num [raisedCornerCell]

/-- C11, amended.  For every parallelepiped cell in the corner convention (built
from corner 4 and the edge vectors `x`, `y`, `z` with negative triple product) and
each of its eight corners `c`, `point_on_same_side c ref n 10e-6` is true for all
six faces, i.e. `c` passes the six-face containment test with the loose tolerance. -/
theorem C11_parallelepiped_corners_pass (gi : Nat) (c4 x y z : Vec3 ℝ) (kx ky kz : ℝ)
    (hT : (x.cross y).dot z < 0) (i : Fin 8) :
    (∀ fn ∈ face_points_normals Real.sqrt (parallelepiped gi c4 x y z kx ky kz),
      point_on_same_side ((parallelepiped gi c4 x y z kx ky kz).corners i) fn.1 fn.2
        (10 / 1000000) = true) ∧
    in_cell_loose Real.sqrt (parallelepiped gi c4 x y z kx ky kz)
      ((parallelepiped gi c4 x y z kx ky kz).corners i) = true := by
  have h : ∀ fn ∈ face_points_normals Real.sqrt (parallelepiped gi c4 x y z kx ky kz),
      point_on_same_side ((parallelepiped gi c4 x y z kx ky kz).corners i) fn.1 fn.2
        (10 / 1000000) = true := by
    intro fn hfn
    rw [face_points_normals_eq_map] at hfn
    obtain ⟨f, hf, rfl⟩ := List.mem_map.1 hfn
    rw [point_on_same_side_iff]
    simp only [normal_vector]
    rw [dot_normalized]
    have h0 := parallelepiped_corner_dot gi c4 x y z kx ky kz hT.le i f hf
    have h1 : 0 ≤ (((parallelepiped gi c4 x y z kx ky kz).corners i).sub f.1).dot
        ((f.2.2.sub f.1).cross (f.2.1.sub f.1)) /
        Real.sqrt (((f.2.2.sub f.1).cross (f.2.1.sub f.1)).dot
          ((f.2.2.sub f.1).cross (f.2.1.sub f.1))) :=
      div_nonneg h0 (Real.sqrt_nonneg _)
    have h2 : (0 : ℝ) ≤ 10 / 1000000 := by norm_num
    linarith
  exact ⟨h, (feasible_point_iff _ _).2 h⟩

/-- C11, witness: the unit cube, as the parallelepiped spanned from `(0, 0, 1)` by
`(1, 0, 0)`, `(0, 1, 0)` and `(0, 0, -1)`, and its corner 7. -/
theorem C11_parallelepiped_corners_pass_witness :
    (∀ i, (parallelepiped 0 ⟨0, 0, 1⟩ ⟨1, 0, 0⟩ ⟨0, 1, 0⟩ ⟨0, 0, -1⟩ 100 100 100 :
        Cell ℝ).corners i = (box 0 0 1 0 1 0 1 100 100 100 : Cell ℝ).corners i) ∧
    in_cell_loose Real.sqrt
      (parallelepiped 0 ⟨0, 0, 1⟩ ⟨1, 0, 0⟩ ⟨0, 1, 0⟩ ⟨0, 0, -1⟩ 100 100 100 : Cell ℝ)
      ((parallelepiped 0 ⟨0, 0, 1⟩ ⟨1, 0, 0⟩ ⟨0, 1, 0⟩ ⟨0, 0, -1⟩ 100 100 100 :
        Cell ℝ).corners 7) = true :=
  ⟨by intro i; fin_cases i <;> simp [parallelepiped, box, Vec3.add],
    (C11_parallelepiped_corners_pass 0 ⟨0, 0, 1⟩ ⟨1, 0, 0⟩ ⟨0, 1, 0⟩ ⟨0, 0, -1⟩ 100 100 100
      (by norm_num [Vec3.cross, Vec3.dot]) 7).2⟩

/-- C12.  `cell_planes_coords` returns the corner triples (0,2,1), (4,5,6),
(0,4,2), (1,3,5), (0,1,4), (2,6,3), and for every parallelepiped cell in the
corner convention with negative triple product `dot (cross x y) z` the
`normal_vector` of each face has a strictly positive dot product with the vector
from the face's first corner to the centroid of the cell. -/
theorem C12_inward_face_normals (gi : Nat) (c4 x y z : Vec3 ℝ) (kx ky kz : ℝ)
    (hT : (x.cross y).dot z < 0) :
    (∀ corners : Fin 8 → Vec3 ℝ, cell_planes_coords corners =
      [(corners 0, corners 2, corners 1), (corners 4, corners 5, corners 6),
       (corners 0, corners 4, corners 2), (corners 1, corners 3, corners 5),
       (corners 0, corners 1, corners 4), (corners 2, corners 6, corners 3)]) ∧
    ∀ f ∈ cell_planes_coords (parallelepiped gi c4 x y z kx ky kz).corners,
      0 < (normal_vector Real.sqrt f.1 f.2.1 f.2.2).dot
        ((centroid (parallelepiped gi c4 x y z kx ky kz)).sub f.1) := by
  refine ⟨fun corners => rfl, ?_⟩
  intro f hf
  have h0 := parallelepiped_centroid_dot gi c4 x y z kx ky kz f hf
  have hpos : 0 < ((f.2.2.sub f.1).cross (f.2.1.sub f.1)).dot
      ((centroid (parallelepiped gi c4 x y z kx ky kz)).sub f.1) := by
    rw [h0]; linarith
  simp only [normal_vector]
  rw [normalized_dot]
  exact div_pos hpos (Real.sqrt_pos.2 (dot_self_pos_of_dot_ne _ _ hpos.ne'))

/-- C12, witness: the unit cube and its face 0, whose unit normal `(0, 0, 1)` has
dot product 1/2 with the vector from corner 0 to the centroid. -/
theorem C12_inward_face_normals_witness :
    0 < (normal_vector Real.sqrt (⟨0, 0, 0⟩ : Vec3 ℝ) ⟨0, 1, 0⟩ ⟨1, 0, 0⟩).dot
      ((centroid (parallelepiped 0 ⟨0, 0, 1⟩ ⟨1, 0, 0⟩ ⟨0, 1, 0⟩ ⟨0, 0, -1⟩ 100 100 100 :
        Cell ℝ)).sub ⟨0, 0, 0⟩) := by
  have h := (C12_inward_face_normals 0 ⟨0, 0, 1⟩ ⟨1, 0, 0⟩ ⟨0, 1, 0⟩ ⟨0, 0, -1⟩ 100 100 100
    (by norm_num [Vec3.cross, Vec3.dot])).2
    (⟨0, 0, 0⟩, ⟨0, 1, 0⟩, ⟨1, 0, 0⟩)
    (by simp [cell_planes_coords, face_corner_indices, parallelepiped, Vec3.add])
  exact h

end FaceClaims

section IntersectionClaims

variable {K : Type} [LinearOrderedField K]

/-- C13.  For `dot n (p1 - p0) ≠ 0` (which makes `p0 ≠ p1` and `n` nonzero),
`line_plane_intersection p0 p1 n q` is `r = p0 + s * d` with `d` the normalised
direction, `nhat` the normalised normal and `s = dot nhat (q - p0) / dot nhat d`;
`r` lies in the plane, `dot n (r - q) = 0`, and on the line through `p0` and `p1`. -/
theorem C13_line_plane_intersection (p0 p1 n q : Vec3 ℝ) (hnd : n.dot (p1.sub p0) ≠ 0) :
    line_plane_intersection Real.sqrt p0 p1 n q =
      p0.add (((p1.sub p0).normalized Real.sqrt).mul
        ((n.normalized Real.sqrt).dot (q.sub p0) /
          (n.normalized Real.sqrt).dot ((p1.sub p0).normalized Real.sqrt))) ∧
    n.dot ((line_plane_intersection Real.sqrt p0 p1 n q).sub q) = 0 ∧
    ∃ t : ℝ, line_plane_intersection Real.sqrt p0 p1 n q = p0.add ((p1.sub p0).mul t) := by
  have hd : 0 < (p1.sub p0).dot (p1.sub p0) := dot_self_pos_of_dot_ne_right _ _ hnd
  have hn' : 0 < n.dot n := dot_self_pos_of_dot_ne _ _ hnd
  refine ⟨?_, ?_, ?_⟩
  · simp only [line_plane_intersection, Vec3.normalized, Vec3.norm, Vec3.div, Vec3.neg,
      Vec3.add, Vec3.mul, Vec3.dot, Vec3.sub]
    ext <;> simp only <;> ring
  · rw [line_plane_intersection_real p0 p1 n q hd hn']
    simp only [Vec3.dot, Vec3.sub, Vec3.add, Vec3.mul] at hnd ⊢
    field_simp
    ring
  · exact ⟨_, line_plane_intersection_real p0 p1 n q hd hn'⟩

/-- C13, witness: the line from `(0.5, 0.5, 0.5)` to `(1.5, 0.5, 0.5)` and the
plane `x = 1` with normal `(-1, 0, 0)`. -/
theorem C13_line_plane_intersection_witness :
    (⟨-1, 0, 0⟩ : Vec3 ℝ).dot
      ((line_plane_intersection Real.sqrt ⟨1 / 2, 1 / 2, 1 / 2⟩ ⟨3 / 2, 1 / 2, 1 / 2⟩
        ⟨-1, 0, 0⟩ ⟨1, 0, 0⟩).sub ⟨1, 0, 0⟩) = 0 :=
  (C13_line_plane_intersection ⟨1 / 2, 1 / 2, 1 / 2⟩ ⟨3 / 2, 1 / 2, 1 / 2⟩ ⟨-1, 0, 0⟩
    ⟨1, 0, 0⟩ (by norm_num [Vec3.dot, Vec3.sub])).2.1

/-- C14.  `find_exit_point` goes through the six faces in the order of
`cell_planes_coords`; a face yields an accepted candidate when its normal is not
perpendicular to `end - entry` and its line-plane intersection point passes the
acceptance test.  The result is the candidate of the first such face (`pre` are
the faces before it), and the entry point when no face yields one. -/
theorem C14_exit_point_selection (sqrt : K → K) (cell : Cell K)
    (entry_point end_point exception_point : Vec3 K) :
    (face_points_normals sqrt cell).length = 6 ∧
    ((∃ pre fn post, face_points_normals sqrt cell = pre ++ fn :: post ∧
        (∀ g ∈ pre, ¬ (g.2.dot (end_point.sub entry_point) ≠ 0 ∧
          accept_point sqrt (face_points_normals sqrt cell) entry_point end_point
            exception_point (line_plane_intersection sqrt entry_point end_point g.2 g.1) =
              true)) ∧
        (fn.2.dot (end_point.sub entry_point) ≠ 0 ∧
          accept_point sqrt (face_points_normals sqrt cell) entry_point end_point
            exception_point (line_plane_intersection sqrt entry_point end_point fn.2 fn.1) =
              true) ∧
        find_exit_point sqrt cell entry_point end_point exception_point =
          line_plane_intersection sqrt entry_point end_point fn.2 fn.1) ∨
      ((∀ g ∈ face_points_normals sqrt cell,
          ¬ (g.2.dot (end_point.sub entry_point) ≠ 0 ∧
            accept_point sqrt (face_points_normals sqrt cell) entry_point end_point
              exception_point (line_plane_intersection sqrt entry_point end_point g.2 g.1) =
                true)) ∧
        find_exit_point sqrt cell entry_point end_point exception_point = entry_point)) :=
  ⟨by simp [face_points_normals, normal_vectors, cell_planes_coords, face_corner_indices],
    find_exit_loop_spec sqrt (face_points_normals sqrt cell) entry_point end_point
      exception_point (face_points_normals sqrt cell)⟩

end IntersectionClaims

section ExitExamples

/-- The first answer of `find_exit_point` in Scenario B: the point on the face
`x = 0`, behind the entry point. -/
lemma scenarioB_first_exit :
    find_exit_point Real.sqrt (box 0 0 1 0 1 0 1 100 100 100 : Cell ℝ)
      ⟨1 / 2, 1 / 2, 1 / 2⟩ ⟨3 / 2, 1 / 2, 1 / 2⟩ ⟨1 / 2, 1 / 2, 1 / 2⟩ = ⟨0, 1 / 2, 1 / 2⟩ := by
  have hl : ∀ n q : Vec3 ℝ, 0 < n.dot n →
      line_plane_intersection Real.sqrt ⟨1 / 2, 1 / 2, 1 / 2⟩ ⟨3 / 2, 1 / 2, 1 / 2⟩ n q = _ :=
    fun n q hn => line_plane_intersection_real _ _ n q (by norm_num [Vec3.dot, Vec3.sub]) hn
  rw [find_exit_point_box _ _ _ _ _ _ _ _ _ _ (by norm_num) (by norm_num) (by norm_num)]
  simp only [find_exit_loop]
  norm_num [hl, accept_point_real, feasible_point_box_faces, Vec3.dot, Vec3.sub, Vec3.add,
    Vec3.mul]

/-- A line that leaves the unit cube `[0,1]^3` close to two of its edges: the
answer of `find_exit_point` is the point of the plane `x = 0` at `y = -0.000005`. -/
lemma nearEdge_exit :
    find_exit_point Real.sqrt (box 0 0 1 0 1 0 1 100 100 100 : Cell ℝ)
      ⟨1 / 2, 1 / 2, 1 / 2⟩ ⟨3 / 2, 150001 / 100000, 1 / 2⟩ ⟨1 / 2, 1 / 2, 1 / 2⟩ =
      ⟨0, -(1 / 200000), 1 / 2⟩ := by
  have hl : ∀ n q : Vec3 ℝ, 0 < n.dot n →
      line_plane_intersection Real.sqrt ⟨1 / 2, 1 / 2, 1 / 2⟩
        ⟨3 / 2, 150001 / 100000, 1 / 2⟩ n q = _ :=
    fun n q hn => line_plane_intersection_real _ _ n q (by norm_num [Vec3.dot, Vec3.sub]) hn
  rw [find_exit_point_box _ _ _ _ _ _ _ _ _ _ (by norm_num) (by norm_num) (by norm_num)]
  simp only [find_exit_loop]
  norm_num [hl, accept_point_real, feasible_point_box_faces, Vec3.dot, Vec3.sub, Vec3.add,
    Vec3.mul]

end ExitExamples

section ExitPointClaims

variable {K : Type} [LinearOrderedField K]

/-- C15, counterexample.  For the unit cube, the entry point `(0.5, 0.5, 0.5)` and
the end point `(1.5, 1.50001, 0.5)`, `find_exit_point` returns the candidate
`(0, -0.000005, 0.5)` of the face `x = 0`, although this point lies 5e-6 on the
outward side of the face with reference corner `(0, 0, 0)` and normal `(0, 1, 0)`:
its dot product there is `-5e-6`, below `-1e-6`. -/
theorem C15_counterexample :
    find_exit_point Real.sqrt (box 0 0 1 0 1 0 1 100 100 100 : Cell ℝ)
      ⟨1 / 2, 1 / 2, 1 / 2⟩ ⟨3 / 2, 150001 / 100000, 1 / 2⟩ ⟨1 / 2, 1 / 2, 1 / 2⟩ =
      ⟨0, -(1 / 200000), 1 / 2⟩ ∧
    (⟨0, -(1 / 200000), 1 / 2⟩ : Vec3 ℝ) ≠ ⟨1 / 2, 1 / 2, 1 / 2⟩ ∧
    ((⟨0, 0, 0⟩, ⟨0, 1, 0⟩) : Vec3 ℝ × Vec3 ℝ) ∈
      face_points_normals Real.sqrt (box 0 0 1 0 1 0 1 100 100 100 : Cell ℝ) ∧
    ((⟨0, -(1 / 200000), 1 / 2⟩ : Vec3 ℝ).sub ⟨0, 0, 0⟩).dot ⟨0, 1, 0⟩ = -(5 / 1000000) ∧
    ¬ (((⟨0, -(1 / 200000), 1 / 2⟩ : Vec3 ℝ).sub ⟨0, 0, 0⟩).dot ⟨0, 1, 0⟩ ≥ -(1 / 1000000)) := by
  refine ⟨nearEdge_exit, ?_, ?_, ?_, ?_⟩
  · intro h; have := congrArg Vec3.x h; norm_num at this
  · rw [face_points_normals_box _ _ _ _ _ _ _ _ _ _ (by norm_num) (by norm_num) (by norm_num)]
    simp [box_faces]
  · norm_num [Vec3.dot, Vec3.sub]
  · norm_num [Vec3.dot, Vec3.sub]

/-- C15, amended.  `find_exit_point` accepts a candidate only if, for every one of
the six faces, `dot (candidate - ref) n ≥ -1e-5` (the literal `10e-6` of the
source): an accepted candidate satisfies this for all faces, a candidate with a
face where the dot product is below `-1e-5` (for instance `-5e-5`) is rejected,
and what `find_exit_point` returns is the entry point or a point that satisfies
it for all faces. -/
theorem C15_loose_tolerance (sqrt : K → K) (cell : Cell K)
    (entry_point end_point exception_point candidate : Vec3 K) :
    (accept_point sqrt (face_points_normals sqrt cell) entry_point end_point exception_point
        candidate = true →
      ∀ fn ∈ face_points_normals sqrt cell, (candidate.sub fn.1).dot fn.2 ≥ -(1 / 100000)) ∧
    ((∃ fn ∈ face_points_normals sqrt cell, (candidate.sub fn.1).dot fn.2 < -(1 / 100000)) →
      accept_point sqrt (face_points_normals sqrt cell) entry_point end_point exception_point
        candidate = false) ∧
    ((∃ fn ∈ face_points_normals sqrt cell, (candidate.sub fn.1).dot fn.2 = -(5 / 100000)) →
      accept_point sqrt (face_points_normals sqrt cell) entry_point end_point exception_point
        candidate = false) ∧
    (find_exit_point sqrt cell entry_point end_point exception_point = entry_point ∨
      ∀ fn ∈ face_points_normals sqrt cell,
        ((find_exit_point sqrt cell entry_point end_point exception_point).sub fn.1).dot fn.2 ≥
          -(1 / 100000)) := by
  have hrej : (∃ fn ∈ face_points_normals sqrt cell,
      (candidate.sub fn.1).dot fn.2 < -(1 / 100000)) →
      accept_point sqrt (face_points_normals sqrt cell) entry_point end_point exception_point
        candidate = false := by
    rintro ⟨fn, hfn, hlt⟩
    rw [Bool.eq_false_iff, ne_eq, accept_point_iff]
    rintro ⟨h, _⟩
    exact absurd (h fn hfn) (not_le.2 hlt)
  refine ⟨fun h => ((accept_point_iff _ _ _ _ _ _).1 h).1, hrej, ?_, ?_⟩
  · rintro ⟨fn, hfn, heq⟩
    refine hrej ⟨fn, hfn, ?_⟩
    rw [heq]
    norm_num
  · rcases find_exit_point_cases sqrt cell entry_point end_point exception_point with
      h | ⟨fn, _, _, hacc, hres⟩
    · exact Or.inl h
    · right
      rw [hres]
      exact ((accept_point_iff _ _ _ _ _ _).1 hacc).1

/-- C16, counterexample.  In Scenario B the entry point `(0.5, 0.5, 0.5)` is
contained in the unit cube and the end point `(1.5, 0.5, 0.5)` is not, yet
`find_exit_point cell entry end entry` returns `(0, 0.5, 0.5)`, which lies behind
the entry point: `dot (end - entry) (p - entry) = -1/2`. -/
theorem C16_counterexample :
    is_point_inside_cell Real.sqrt (box 0 0 1 0 1 0 1 100 100 100 : Cell ℝ)
      ⟨1 / 2, 1 / 2, 1 / 2⟩ = true ∧
    is_point_inside_cell Real.sqrt (box 0 0 1 0 1 0 1 100 100 100 : Cell ℝ)
      ⟨3 / 2, 1 / 2, 1 / 2⟩ = false ∧
    find_exit_point Real.sqrt (box 0 0 1 0 1 0 1 100 100 100 : Cell ℝ)
      ⟨1 / 2, 1 / 2, 1 / 2⟩ ⟨3 / 2, 1 / 2, 1 / 2⟩ ⟨1 / 2, 1 / 2, 1 / 2⟩ = ⟨0, 1 / 2, 1 / 2⟩ ∧
    ((⟨3 / 2, 1 / 2, 1 / 2⟩ : Vec3 ℝ).sub ⟨1 / 2, 1 / 2, 1 / 2⟩).dot
      ((⟨0, 1 / 2, 1 / 2⟩ : Vec3 ℝ).sub ⟨1 / 2, 1 / 2, 1 / 2⟩) = -(1 / 2) := by
  refine ⟨?_, ?_, scenarioB_first_exit, ?_⟩
  · rw [is_point_inside_box _ _ _ _ _ _ _ _ _ _ (by norm_num) (by norm_num) (by norm_num)]
    norm_num
  · rw [Bool.eq_false_iff, ne_eq,
      is_point_inside_box _ _ _ _ _ _ _ _ _ _ (by norm_num) (by norm_num) (by norm_num)]
    norm_num
  · norm_num [Vec3.dot, Vec3.sub]

/-- C16, amended.  For every cell, entry point and end point, the point `p`
returned by `find_exit_point cell entry end entry` is the entry point itself or a
point `entry + t * (end - entry)` of the trajectory line with `t ≤ 1` (not beyond
the end point, `dot (end - entry) (end - p) ≥ 0`) that passes the six-face
containment test with the loose tolerance; `t` may be negative. -/
theorem C16_exit_point_not_beyond_end (cell : Cell ℝ) (entry_point end_point : Vec3 ℝ) :
    find_exit_point Real.sqrt cell entry_point end_point entry_point = entry_point ∨
    (in_cell_loose Real.sqrt cell
        (find_exit_point Real.sqrt cell entry_point end_point entry_point) = true ∧
      (end_point.sub entry_point).dot
        (end_point.sub (find_exit_point Real.sqrt cell entry_point end_point entry_point)) ≥ 0 ∧
      ∃ t : ℝ, t ≤ 1 ∧
        find_exit_point Real.sqrt cell entry_point end_point entry_point =
          entry_point.add ((end_point.sub entry_point).mul t)) := by
  rcases find_exit_point_cases Real.sqrt cell entry_point end_point entry_point with
    h | ⟨fn, _, hdot, hacc, hres⟩
  · exact Or.inl h
  · right
    have hd : 0 < (end_point.sub entry_point).dot (end_point.sub entry_point) :=
      dot_self_pos_of_dot_ne_right _ _ hdot
    have hn : 0 < fn.2.dot fn.2 := dot_self_pos_of_dot_ne _ _ hdot
    have hline := line_plane_intersection_real entry_point end_point fn.2 fn.1 hd hn
    have hacc' := hacc
    rw [accept_point, Bool.and_eq_true, Bool.and_eq_true, decide_eq_true_eq,
      decide_eq_true_eq] at hacc'
    obtain ⟨⟨hfeas, _⟩, hfwd⟩ := hacc'
    rw [hres]
    refine ⟨hfeas, hfwd, _, ?_, hline⟩
    rw [hline] at hfwd
    by_contra hlt
    push_neg at hlt
    have hfwd' : (end_point.sub entry_point).dot (end_point.sub entry_point) *
        (1 - fn.2.dot (fn.1.sub entry_point) / fn.2.dot (end_point.sub entry_point)) ≥ 0 := by
      have : (end_point.sub entry_point).dot (end_point.sub (entry_point.add
          ((end_point.sub entry_point).mul
            (fn.2.dot (fn.1.sub entry_point) / fn.2.dot (end_point.sub entry_point))))) =
          (end_point.sub entry_point).dot (end_point.sub entry_point) *
            (1 - fn.2.dot (fn.1.sub entry_point) / fn.2.dot (end_point.sub entry_point)) := by
        generalize fn.2.dot (fn.1.sub entry_point) / fn.2.dot (end_point.sub entry_point) = t
        simp only [Vec3.dot, Vec3.sub, Vec3.add, Vec3.mul]
        ring
      rw [← this]; exact hfwd
    nlinarith

end ExitPointClaims

section ScenarioA

/-- The fourth root as the code computes it. -/
lemma sqrt_sqrt_eq_rpow (x : ℝ) (hx : 0 ≤ x) : Real.sqrt (Real.sqrt x) = x ^ ((1 : ℝ) / 4) := by
  rw [Real.sqrt_eq_rpow, Real.sqrt_eq_rpow, ← Real.rpow_mul hx]
  norm_num

/-- The equivalent radius of a unit square block with equal permeabilities. -/
lemma dir_wellblock_radius_unit :
    dir_wellblock_radius Real.sqrt 1 1 100 100 = 0.14 * Real.sqrt 2 := by
  have h2 : (1 : ℝ) + 1 = 2 := by norm_num
  simp only [dir_wellblock_radius, div_self (show (100 : ℝ) ≠ 0 by norm_num), Real.sqrt_one,
    mul_one, h2]
  ring

lemma log_radius_pos : 0 < Real.log (0.14 * Real.sqrt 2 / 0.1) := by
  apply Real.log_pos
  have h : (1 : ℝ) < Real.sqrt 2 := (Real.lt_sqrt (by norm_num)).2 (by norm_num)
  have h1 : (0.14 * Real.sqrt 2 / 0.1 : ℝ) = 1.4 * Real.sqrt 2 := by ring
  rw [h1]
  nlinarith

/-- The three projected lengths of Scenario A. -/
lemma scenarioA_lengths :
    projected_length Real.sqrt (⟨1, 0, 0⟩ : Vec3 ℝ) [⟨1 / 5, 1 / 5, 1 / 2⟩]
        [⟨4 / 5, 1 / 5, 1 / 2⟩] = 0.6 ∧
    projected_length Real.sqrt (⟨0, 1, 0⟩ : Vec3 ℝ) [⟨1 / 5, 1 / 5, 1 / 2⟩]
        [⟨4 / 5, 1 / 5, 1 / 2⟩] = 0 ∧
    projected_length Real.sqrt (⟨0, 0, -1⟩ : Vec3 ℝ) [⟨1 / 5, 1 / 5, 1 / 2⟩]
        [⟨4 / 5, 1 / 5, 1 / 2⟩] = 0 := by
  refine ⟨?_, ?_, ?_⟩
  · simp only [projected_length, List.zip_cons_cons, List.zip_nil_right, List.map_cons,
      List.map_nil, List.sum_cons, List.sum_nil, add_zero]
    exact norm_eq_of_dot_eq _ _ (by norm_num)
      (by norm_num [project_v1_on_v2, Vec3.dot, Vec3.sub, Vec3.mul, Vec3.div])
  · simp only [projected_length, List.zip_cons_cons, List.zip_nil_right, List.map_cons,
      List.map_nil, List.sum_cons, List.sum_nil, add_zero]
    exact norm_eq_of_dot_eq _ _ (by norm_num)
      (by norm_num [project_v1_on_v2, Vec3.dot, Vec3.sub, Vec3.mul, Vec3.div])
  · simp only [projected_length, List.zip_cons_cons, List.zip_nil_right, List.map_cons,
      List.map_nil, List.sum_cons, List.sum_nil, add_zero]
    exact norm_eq_of_dot_eq _ _ (by norm_num)
      (by norm_num [project_v1_on_v2, Vec3.dot, Vec3.sub, Vec3.mul, Vec3.div])

/-- The well index of the unit cube for the sub-segment of Scenario A. -/
lemma scenarioA_cell_index :
    well_index_cell_qvector Real.sqrt Real.log Real.pi (box 0 0 1 0 1 0 1 100 100 100 : Cell ℝ)
        [⟨1 / 5, 1 / 5, 1 / 2⟩] [⟨4 / 5, 1 / 5, 1 / 2⟩] (1 / 10) =
      .ok (0.008527 * 2 * Real.pi * 100 * 0.6 / Real.log (0.14 * Real.sqrt 2 / 0.1)) := by
  rw [well_index_cell_qvector_eq Real.sqrt Real.log Real.pi _ [⟨1 / 5, 1 / 5, 1 / 2⟩]
    [⟨4 / 5, 1 / 5, 1 / 2⟩] _ (by simp)]
  have hx : ((box 0 0 1 0 1 0 1 100 100 100 : Cell ℝ).corners 5).sub
      ((box 0 0 1 0 1 0 1 100 100 100 : Cell ℝ).corners 4) = ⟨1, 0, 0⟩ := by
    simp [box, Vec3.sub]
  have hy : ((box 0 0 1 0 1 0 1 100 100 100 : Cell ℝ).corners 6).sub
      ((box 0 0 1 0 1 0 1 100 100 100 : Cell ℝ).corners 4) = ⟨0, 1, 0⟩ := by
    simp [box, Vec3.sub]
  have hz : ((box 0 0 1 0 1 0 1 100 100 100 : Cell ℝ).corners 0).sub
      ((box 0 0 1 0 1 0 1 100 100 100 : Cell ℝ).corners 4) = ⟨0, 0, -1⟩ := by
    simp [box, Vec3.sub]
  have nx : (⟨1, 0, 0⟩ : Vec3 ℝ).norm Real.sqrt = 1 :=
    norm_eq_of_dot_eq _ _ (by norm_num) (by norm_num [Vec3.dot])
  have ny : (⟨0, 1, 0⟩ : Vec3 ℝ).norm Real.sqrt = 1 :=
    norm_eq_of_dot_eq _ _ (by norm_num) (by norm_num [Vec3.dot])
  have nz : (⟨0, 0, -1⟩ : Vec3 ℝ).norm Real.sqrt = 1 :=
    norm_eq_of_dot_eq _ _ (by norm_num) (by norm_num [Vec3.dot])
  have hk : Real.sqrt (100 * 100) = 100 := Real.sqrt_mul_self (by norm_num)
  have hperm : (box 0 0 1 0 1 0 1 100 100 100 : Cell ℝ).permx = 100 ∧
      (box 0 0 1 0 1 0 1 100 100 100 : Cell ℝ).permy = 100 ∧
      (box 0 0 1 0 1 0 1 100 100 100 : Cell ℝ).permz = 100 := ⟨rfl, rfl, rfl⟩
  have hr : ((1 : ℝ) / 10) = 0.1 := by norm_num
  rw [hx, hy, hz, nx, ny, nz, scenarioA_lengths.1, scenarioA_lengths.2.1, scenarioA_lengths.2.2,
    hperm.1, hperm.2.1, hperm.2.2]
  simp only [dir_well_index, dir_wellblock_radius_unit, hk, hr, mul_zero, zero_div, add_zero]
  have hpos : 0 ≤ 0.008527 * (2 * Real.pi * 100 * 0.6) /
      Real.log (0.14 * Real.sqrt 2 / 0.1) :=
    div_nonneg (by positivity) log_radius_pos.le
  rw [Real.sqrt_mul_self hpos]
  congr 1
  ring

end ScenarioA

section WellIndexClaims

variable {K : Type} [LinearOrderedField K]

/-- C18.  Scenario A: on the one-cell grid of the unit cube with permeability 100
in every direction and wellbore radius 0.1, `well_index_of_grid` for the segment
from `(0.2, 0.2, 0.5)` to `(0.8, 0.2, 0.5)` returns the one cell 0 and the one
well index `0.008527 * 2 * pi * 100 * 0.6 / ln (0.14 * sqrt 2 / 0.1)`; the
projected lengths are `Lx = 0.6`, `Ly = Lz = 0`. -/
theorem C18_scenario_A (fuel : Nat) :
    well_index_of_grid Real.sqrt Real.log Real.pi fuel (oneCell : Grid ℝ)
        [⟨1 / 5, 1 / 5, 1 / 2⟩] [⟨4 / 5, 1 / 5, 1 / 2⟩] (1 / 10) =
      .ok ([0], [0.008527 * 2 * Real.pi * 100 * 0.6 / Real.log (0.14 * Real.sqrt 2 / 0.1)]) ∧
    projection_loop Real.sqrt
        ((((oneCell : Grid ℝ).GetCell 0).corners 5).sub (((oneCell : Grid ℝ).GetCell 0).corners 4))
        ((((oneCell : Grid ℝ).GetCell 0).corners 6).sub (((oneCell : Grid ℝ).GetCell 0).corners 4))
        ((((oneCell : Grid ℝ).GetCell 0).corners 0).sub (((oneCell : Grid ℝ).GetCell 0).corners 4))
        [⟨1 / 5, 1 / 5, 1 / 2⟩] [⟨4 / 5, 1 / 5, 1 / 2⟩] (0, 0, 0) = .ok (0.6, 0, 0) := by
  constructor
  · have hstart : get_cell_enveloping_point Real.sqrt (oneCell : Grid ℝ)
        ⟨1 / 5, 1 / 5, 1 / 2⟩ = .ok (box 0 0 1 0 1 0 1 100 100 100) := by
      norm_num [get_cell_enveloping_point, total_cells, get_cell_loop, oneCell,
        is_point_inside_box]
    have hend : get_cell_enveloping_point Real.sqrt (oneCell : Grid ℝ)
        ⟨4 / 5, 1 / 5, 1 / 2⟩ = .ok (box 0 0 1 0 1 0 1 100 100 100) := by
      norm_num [get_cell_enveloping_point, total_cells, get_cell_loop, oneCell,
        is_point_inside_box]
    have hcells := cells_intersected_same_cell Real.sqrt fuel ⟨1 / 5, 1 / 5, 1 / 2⟩
      ⟨4 / 5, 1 / 5, 1 / 2⟩ (oneCell : Grid ℝ) _ _ hstart hend rfl
    have hgi : (box 0 0 1 0 1 0 1 100 100 100 : Cell ℝ).global_index = 0 := rfl
    rw [hgi] at hcells
    have hcell : (oneCell : Grid ℝ).GetCell 0 = box 0 0 1 0 1 0 1 100 100 100 := rfl
    simp only [well_index_of_grid, at_index, List.get?, hcells, well_indeces_loop, hcell,
      scenarioA_cell_index, List.nil_append]
  · have hx : (((oneCell : Grid ℝ).GetCell 0).corners 5).sub
        (((oneCell : Grid ℝ).GetCell 0).corners 4) = ⟨1, 0, 0⟩ := by
      simp [oneCell, box, Vec3.sub]
    have hy : (((oneCell : Grid ℝ).GetCell 0).corners 6).sub
        (((oneCell : Grid ℝ).GetCell 0).corners 4) = ⟨0, 1, 0⟩ := by
      simp [oneCell, box, Vec3.sub]
    have hz : (((oneCell : Grid ℝ).GetCell 0).corners 0).sub
        (((oneCell : Grid ℝ).GetCell 0).corners 4) = ⟨0, 0, -1⟩ := by
      simp [oneCell, box, Vec3.sub]
    rw [hx, hy, hz, projection_loop_eq Real.sqrt _ _ _ [⟨1 / 5, 1 / 5, 1 / 2⟩]
      [⟨4 / 5, 1 / 5, 1 / 2⟩] _ (by simp), scenarioA_lengths.1, scenarioA_lengths.2.1,
      scenarioA_lengths.2.2]
    simp

/-- C19.  For positive `k1` and `k2` (and all `d1`, `d2`, `r_w`, `L`),
`dir_wellblock_radius d1 d2 k1 k2` is
`0.28 * sqrt (d1^2 * sqrt (k2/k1) + d2^2 * sqrt (k1/k2)) / ((k1/k2)^(1/4) + (k2/k1)^(1/4))`
and `dir_well_index L d1 d2 k1 k2 r_w` is
`0.008527 * 2 * pi * sqrt (k1 * k2) * L / ln (dir_wellblock_radius d1 d2 k1 k2 / r_w)`. -/
theorem C19_directional_peaceman (L d1 d2 k1 k2 wellbore_radius : ℝ) (hk1 : 0 < k1)
    (hk2 : 0 < k2) :
    dir_wellblock_radius Real.sqrt d1 d2 k1 k2 =
      0.28 * Real.sqrt (d1 ^ 2 * Real.sqrt (k2 / k1) + d2 ^ 2 * Real.sqrt (k1 / k2)) /
        ((k1 / k2) ^ ((1 : ℝ) / 4) + (k2 / k1) ^ ((1 : ℝ) / 4)) ∧
    dir_well_index Real.sqrt Real.log Real.pi L d1 d2 k1 k2 wellbore_radius =
      0.008527 * 2 * Real.pi * Real.sqrt (k1 * k2) * L /
        Real.log (dir_wellblock_radius Real.sqrt d1 d2 k1 k2 / wellbore_radius) := by
  constructor
  · simp only [dir_wellblock_radius, sqrt_sqrt_eq_rpow _ (div_pos hk1 hk2).le,
      sqrt_sqrt_eq_rpow _ (div_pos hk2 hk1).le, pow_two]
  · simp only [dir_well_index]
    congr 1
    ring

/-- C19, witness: a block of 2 by 3 with permeabilities 100 and 50. -/
theorem C19_directional_peaceman_witness :
    dir_well_index Real.sqrt Real.log Real.pi 1 2 3 100 50 (1 / 10) =
      0.008527 * 2 * Real.pi * Real.sqrt (100 * 50) * 1 /
        Real.log (dir_wellblock_radius Real.sqrt 2 3 100 50 / (1 / 10)) :=
  (C19_directional_peaceman 1 2 3 100 50 (1 / 10) (by norm_num) (by norm_num)).2

/-- C20.  For lists of sub-segments of equal length, `well_index_cell_qvector`
returns `sqrt (WIx^2 + WIy^2 + WIz^2)`, where `xvec = c5 - c4`, `yvec = c6 - c4`,
`zvec = c0 - c4`, `dx`, `dy`, `dz` are their norms, `Lx`, `Ly`, `Lz` are the
sums of the lengths of the projections of the sub-segments on them, and
`WIx = dir_well_index Lx dy dz ky kz r_w`, `WIy = dir_well_index Ly dx dz kx kz r_w`,
`WIz = dir_well_index Lz dx dy kx ky r_w`. -/
theorem C20_cell_well_index_composition (sqrt log : K → K) (pi : K) (cell : Cell K)
    (start_points end_points : List (Vec3 K)) (wellbore_radius : K)
    (hlen : start_points.length = end_points.length) :
    let xvec := (cell.corners 5).sub (cell.corners 4)
    let yvec := (cell.corners 6).sub (cell.corners 4)
    let zvec := (cell.corners 0).sub (cell.corners 4)
    let dx := xvec.norm sqrt
    let dy := yvec.norm sqrt
    let dz := zvec.norm sqrt
    let Lx := ((start_points.zip end_points).map fun se =>
      (project_v1_on_v2 (se.2.sub se.1) xvec).norm sqrt).sum
    let Ly := ((start_points.zip end_points).map fun se =>
      (project_v1_on_v2 (se.2.sub se.1) yvec).norm sqrt).sum
    let Lz := ((start_points.zip end_points).map fun se =>
      (project_v1_on_v2 (se.2.sub se.1) zvec).norm sqrt).sum
    let WIx := dir_well_index sqrt log pi Lx dy dz cell.permy cell.permz wellbore_radius
    let WIy := dir_well_index sqrt log pi Ly dx dz cell.permx cell.permz wellbore_radius
    let WIz := dir_well_index sqrt log pi Lz dx dy cell.permx cell.permy wellbore_radius
    well_index_cell_qvector sqrt log pi cell start_points end_points wellbore_radius =
      .ok (sqrt (WIx ^ 2 + WIy ^ 2 + WIz ^ 2)) := by
  intro xvec yvec zvec dx dy dz Lx Ly Lz WIx WIy WIz
  rw [well_index_cell_qvector_eq sqrt log pi cell start_points end_points wellbore_radius
    hlen.le]
  simp only [pow_two]
  rfl

/-- C20, witness: the unit cube and the sub-segment of Scenario A. -/
theorem C20_cell_well_index_composition_witness :
    ∃ w, well_index_cell_qvector Real.sqrt Real.log Real.pi
        (box 0 0 1 0 1 0 1 100 100 100 : Cell ℝ) [⟨1 / 5, 1 / 5, 1 / 2⟩]
        [⟨4 / 5, 1 / 5, 1 / 2⟩] (1 / 10) = .ok w :=
  ⟨_, C20_cell_well_index_composition Real.sqrt Real.log Real.pi
    (box 0 0 1 0 1 0 1 100 100 100) [⟨1 / 5, 1 / 5, 1 / 2⟩] [⟨4 / 5, 1 / 5, 1 / 2⟩] (1 / 10) rfl⟩

end WellIndexClaims

section ExitFinderParameter

variable {K : Type} [LinearOrderedField K]

lemma stepping_loop_with_eq (sqrt : K → K) (grid : Grid K) (end_point : Vec3 K)
    (last_cell : Cell K) :
    ∀ (fuel : Nat) (cells : List Nat) (points : List (Vec3 K)) (exit_point : Vec3 K)
      (current_cell : Cell K),
      stepping_loop_with (find_exit_point sqrt) sqrt grid end_point last_cell fuel cells points
          exit_point current_cell =
        stepping_loop sqrt grid end_point last_cell fuel cells points exit_point current_cell := by
  intro fuel
  induction fuel with
  | zero => intro cells points exit_point current_cell; rfl
  | succ n ih =>
    intro cells points exit_point current_cell
    simp only [stepping_loop_with, stepping_loop, ih]

/-- With `find_exit_point` as the parameter, `cells_intersected_with` is
`cells_intersected`. -/
lemma cells_intersected_with_eq (sqrt : K → K) (fuel : Nat) (start_point end_point : Vec3 K)
    (grid : Grid K) :
    cells_intersected_with (find_exit_point sqrt) sqrt fuel start_point end_point grid =
      cells_intersected sqrt fuel start_point end_point grid := by
  simp only [cells_intersected_with, cells_intersected, stepping_loop_with_eq]

lemma cells_intersected_with_same_cell
    (find_exit : Cell K → Vec3 K → Vec3 K → Vec3 K → Vec3 K) (sqrt : K → K) (fuel : Nat)
    (start_point end_point : Vec3 K) (grid : Grid K) (first_cell last_cell : Cell K)
    (hfirst : get_cell_enveloping_point sqrt grid start_point = .ok first_cell)
    (hlast : get_cell_enveloping_point sqrt grid end_point = .ok last_cell)
    (heq : last_cell.global_index = first_cell.global_index) :
    cells_intersected_with find_exit sqrt fuel start_point end_point grid =
      .ok ([first_cell.global_index], [start_point, end_point]) := by
  simp [cells_intersected_with, hfirst, hlast, heq]

end ExitFinderParameter

section TraversalStateClaims

variable {K : Type} [LinearOrderedField K]

/-- C22.  For non-empty lists, `well_index_of_grid` gives the same result as on
the one-element lists holding the first start point and the first end point, so
two calls whose lists agree on element 0 give the same result. -/
theorem C22_only_first_segment (sqrt log : K → K) (pi : K) (fuel : Nat) (grid : Grid K)
    (start_point end_point : Vec3 K) (start_points end_points : List (Vec3 K))
    (wellbore_radius : K) :
    well_index_of_grid sqrt log pi fuel grid (start_point :: start_points)
        (end_point :: end_points) wellbore_radius =
      well_index_of_grid sqrt log pi fuel grid [start_point] [end_point] wellbore_radius ∧
    ∀ start_points' end_points' : List (Vec3 K),
      well_index_of_grid sqrt log pi fuel grid (start_point :: start_points)
          (end_point :: end_points) wellbore_radius =
        well_index_of_grid sqrt log pi fuel grid (start_point :: start_points')
          (end_point :: end_points') wellbore_radius := by
  constructor
  · simp only [well_index_of_grid, at_index, List.get?]
  · intro _ _
    simp only [well_index_of_grid, at_index, List.get?]

/-- C23.  When the cells located for the start and the end point have the same
global index, `cells_intersected` returns that one index with the point list
`[start, end]`, for every iteration budget and whatever function is put in the
place of `find_exit_point` (`cells_intersected_with`, which is `cells_intersected`
when that function is `find_exit_point`): the run does not call it. -/
theorem C23_same_cell_terminal (sqrt : K → K) (fuel : Nat) (start_point end_point : Vec3 K)
    (grid : Grid K) (first_cell last_cell : Cell K)
    (hfirst : get_cell_enveloping_point sqrt grid start_point = .ok first_cell)
    (hlast : get_cell_enveloping_point sqrt grid end_point = .ok last_cell)
    (heq : first_cell.global_index = last_cell.global_index) :
    cells_intersected sqrt fuel start_point end_point grid =
      .ok ([first_cell.global_index], [start_point, end_point]) ∧
    (∀ find_exit : Cell K → Vec3 K → Vec3 K → Vec3 K → Vec3 K,
      cells_intersected_with find_exit sqrt fuel start_point end_point grid =
        .ok ([first_cell.global_index], [start_point, end_point])) ∧
    cells_intersected_with (find_exit_point sqrt) sqrt fuel start_point end_point grid =
      cells_intersected sqrt fuel start_point end_point grid :=
  ⟨cells_intersected_same_cell sqrt fuel start_point end_point grid first_cell last_cell hfirst
      hlast heq.symm,
    fun find_exit => cells_intersected_with_same_cell find_exit sqrt fuel start_point end_point
      grid first_cell last_cell hfirst hlast heq.symm,
    cells_intersected_with_eq sqrt fuel start_point end_point grid⟩

/-- C23 at a concrete input: two points of the cell `[0,1]^3` of the 2 x 2 grid. -/
theorem C23_same_cell_terminal_witness :
    cells_intersected Real.sqrt 10 ⟨1 / 5, 1 / 5, 1 / 2⟩ ⟨4 / 5, 1 / 5, 1 / 2⟩
        (fourCells : Grid ℝ) =
      .ok ([0], [⟨1 / 5, 1 / 5, 1 / 2⟩, ⟨4 / 5, 1 / 5, 1 / 2⟩]) :=
  (C23_same_cell_terminal Real.sqrt 10 ⟨1 / 5, 1 / 5, 1 / 2⟩ ⟨4 / 5, 1 / 5, 1 / 2⟩ fourCells
    (box 0 0 1 0 1 0 1 100 100 100) (box 0 0 1 0 1 0 1 100 100 100)
    (fourCells_locate_0 _ (by norm_num) (by norm_num) (by norm_num))
    (fourCells_locate_0 _ (by norm_num) (by norm_num) (by norm_num)) rfl).1

end TraversalStateClaims

section ProjectionClaims

variable {K : Type} [LinearOrderedField K]

/-- C25.  The point `p` returned by `find_exit_point cell entry end exception` is
the entry point, or it lies on the line through entry and end
(`p = entry + t * (end - entry)`), its distance from the exception point is
greater than `1e-10` (the source demands more than `10e-10`), and
`dot (end - entry) (end - p) ≥ 0`. -/
theorem C25_exit_point_conditions (cell : Cell ℝ)
    (entry_point end_point exception_point : Vec3 ℝ) :
    find_exit_point Real.sqrt cell entry_point end_point exception_point = entry_point ∨
    ((∃ t : ℝ, find_exit_point Real.sqrt cell entry_point end_point exception_point =
        entry_point.add ((end_point.sub entry_point).mul t)) ∧
      (exception_point.sub
        (find_exit_point Real.sqrt cell entry_point end_point exception_point)).norm Real.sqrt >
          1 / 10000000000 ∧
      (end_point.sub entry_point).dot (end_point.sub
        (find_exit_point Real.sqrt cell entry_point end_point exception_point)) ≥ 0) := by
  rcases find_exit_point_cases Real.sqrt cell entry_point end_point exception_point with
    h | ⟨fn, _, hdot, hacc, hres⟩
  · exact Or.inl h
  · right
    have hd : 0 < (end_point.sub entry_point).dot (end_point.sub entry_point) :=
      dot_self_pos_of_dot_ne_right _ _ hdot
    have hn : 0 < fn.2.dot fn.2 := dot_self_pos_of_dot_ne _ _ hdot
    have hline := line_plane_intersection_real entry_point end_point fn.2 fn.1 hd hn
    obtain ⟨_, hdist, hfwd⟩ := (accept_point_iff _ _ _ _ _ _).1 hacc
    rw [hres]
    refine ⟨⟨_, hline⟩, ?_, hfwd⟩
    have h9 : (1 : ℝ) / 10000000000 < 1 / 1000000000 := by norm_num
    exact lt_trans h9 hdist

/-- The squared length of a nonzero vector is positive. -/
lemma dot_self_pos_of_ne_zero (v : Vec3 K) (h : v ≠ ⟨0, 0, 0⟩) : 0 < v.dot v := by
  have h0 : 0 ≤ v.dot v := by
    simp only [Vec3.dot]
    nlinarith [mul_self_nonneg v.x, mul_self_nonneg v.y, mul_self_nonneg v.z]
  rcases h0.lt_or_eq with h1 | h1
  · exact h1
  · exfalso
    apply h
    simp only [Vec3.dot] at h1
    have hx : v.x = 0 := by
      have : v.x * v.x = 0 := by
        nlinarith [mul_self_nonneg v.x, mul_self_nonneg v.y, mul_self_nonneg v.z]
      exact mul_self_eq_zero.1 this
    have hy : v.y = 0 := by
      have : v.y * v.y = 0 := by
        nlinarith [mul_self_nonneg v.x, mul_self_nonneg v.y, mul_self_nonneg v.z]
      exact mul_self_eq_zero.1 this
    have hz : v.z = 0 := by
      have : v.z * v.z = 0 := by
        nlinarith [mul_self_nonneg v.x, mul_self_nonneg v.y, mul_self_nonneg v.z]
      exact mul_self_eq_zero.1 this
    ext <;> simp [hx, hy, hz]

/-- C27.  For every `v` and every nonzero axis `a`, `project_v1_on_v2 v a` is
`a * (dot a v / dot a a)`, a scalar multiple of `a`; the residual
`v - project_v1_on_v2 v a` is orthogonal to `a`, and projecting the result on `a`
again leaves it unchanged. -/
theorem C27_orthogonal_projection (v a : Vec3 K) (ha : a ≠ ⟨0, 0, 0⟩) :
    project_v1_on_v2 v a = a.mul (a.dot v / a.dot a) ∧
    (∃ c : K, project_v1_on_v2 v a = a.mul c) ∧
    a.dot (v.sub (project_v1_on_v2 v a)) = 0 ∧
    project_v1_on_v2 (project_v1_on_v2 v a) a = project_v1_on_v2 v a := by
  have hpos : 0 < a.dot a := dot_self_pos_of_ne_zero a ha
  have hne : a.dot a ≠ 0 := hpos.ne'
  have h1 : project_v1_on_v2 v a = a.mul (a.dot v / a.dot a) := by
    simp only [project_v1_on_v2, Vec3.mul, Vec3.div]
    ext <;> simp only <;> ring
  refine ⟨h1, ⟨_, h1⟩, ?_, ?_⟩
  · rw [h1]
    generalize hc : a.dot v / a.dot a = c
    have hc' : c * a.dot a = a.dot v := by
      rw [← hc]; field_simp
    simp only [Vec3.dot, Vec3.sub, Vec3.mul] at hc' ⊢
    linear_combination -hc'
  · rw [h1]
    generalize a.dot v / a.dot a = c
    simp only [project_v1_on_v2, Vec3.mul, Vec3.div]
    simp only [Vec3.dot] at hne
    ext <;> simp only [Vec3.dot] <;> field_simp <;> ring

/-- C27, witness: the projection of `(3, 4, 5)` on the axis `(2, 0, 0)`. -/
theorem C27_orthogonal_projection_witness :
    (⟨2, 0, 0⟩ : Vec3 ℚ).dot ((⟨3, 4, 5⟩ : Vec3 ℚ).sub
      (project_v1_on_v2 ⟨3, 4, 5⟩ ⟨2, 0, 0⟩)) = 0 :=
  (C27_orthogonal_projection ⟨3, 4, 5⟩ ⟨2, 0, 0⟩ (by decide)).2.2.1

/-- The length of the projection does not depend on the orientation of the
sub-segment. -/
lemma norm_project_swap (sqrt : K → K) (s e axis : Vec3 K) :
    (project_v1_on_v2 (e.sub s) axis).norm sqrt = (project_v1_on_v2 (s.sub e) axis).norm sqrt := by
  simp only [Vec3.norm]
  congr 1
  simp only [project_v1_on_v2, Vec3.dot, Vec3.sub, Vec3.mul, Vec3.div]
  ring

/-- The segment loop gives the same result when one sub-segment is reversed. -/
lemma projection_loop_swap (sqrt : K → K) (xvec yvec zvec : Vec3 K) (s e : Vec3 K)
    (ss es : List (Vec3 K)) :
    ∀ (ps pe : List (Vec3 K)) (acc : K × K × K), ps.length = pe.length →
      projection_loop sqrt xvec yvec zvec (ps ++ s :: ss) (pe ++ e :: es) acc =
        projection_loop sqrt xvec yvec zvec (ps ++ e :: ss) (pe ++ s :: es) acc := by
  intro ps
  induction ps with
  | nil =>
    intro pe acc h
    cases pe with
    | nil =>
      obtain ⟨Lx, Ly, Lz⟩ := acc
      simp only [List.nil_append, projection_loop]
      rw [norm_project_swap sqrt s e xvec, norm_project_swap sqrt s e yvec,
        norm_project_swap sqrt s e zvec]
    | cons q pe => simp at h
  | cons p ps ih =>
    intro pe acc h
    cases pe with
    | nil => simp at h
    | cons q pe =>
      obtain ⟨Lx, Ly, Lz⟩ := acc
      simp only [List.cons_append, projection_loop]
      exact ih pe _ (by simpa using h)

/-- C28.  Reversing one sub-segment (the entry point `s` and the exit point `e`
at the same position of the two lists change places) leaves the result of
`well_index_cell_qvector` unchanged. -/
theorem C28_orientation_independence (sqrt log : K → K) (pi : K) (cell : Cell K)
    (wellbore_radius : K) (s e : Vec3 K) (starts_before ends_before starts_after
      ends_after : List (Vec3 K))
    (hlen : starts_before.length = ends_before.length) :
    well_index_cell_qvector sqrt log pi cell (starts_before ++ e :: starts_after)
        (ends_before ++ s :: ends_after) wellbore_radius =
      well_index_cell_qvector sqrt log pi cell (starts_before ++ s :: starts_after)
        (ends_before ++ e :: ends_after) wellbore_radius := by
  simp only [well_index_cell_qvector]
  rw [projection_loop_swap sqrt _ _ _ s e starts_after ends_after starts_before ends_before _
    hlen]

/-- C28, witness: the sub-segment of Scenario A and its reverse. -/
theorem C28_orientation_independence_witness :
    well_index_cell_qvector Real.sqrt Real.log Real.pi (box 0 0 1 0 1 0 1 100 100 100 : Cell ℝ)
        [⟨4 / 5, 1 / 5, 1 / 2⟩] [⟨1 / 5, 1 / 5, 1 / 2⟩] (1 / 10) =
      well_index_cell_qvector Real.sqrt Real.log Real.pi (box 0 0 1 0 1 0 1 100 100 100 : Cell ℝ)
        [⟨1 / 5, 1 / 5, 1 / 2⟩] [⟨4 / 5, 1 / 5, 1 / 2⟩] (1 / 10) :=
  C28_orientation_independence Real.sqrt Real.log Real.pi (box 0 0 1 0 1 0 1 100 100 100)
    (1 / 10) ⟨1 / 5, 1 / 5, 1 / 2⟩ ⟨4 / 5, 1 / 5, 1 / 2⟩ [] [] [] [] rfl

/-- C30.  For every positive `k` (and all `d1`, `d2`),
`dir_wellblock_radius d1 d2 k k` is well defined, none of its divisors is zero,
and equals `0.14 * sqrt (d1^2 + d2^2)`. -/
theorem C30_isotropic_block_radius (d1 d2 k : ℝ) (hk : 0 < k) :
    (∀ d ∈ dir_wellblock_radius_divisors Real.sqrt k k, d ≠ 0) ∧
    dir_wellblock_radius Real.sqrt d1 d2 k k = 0.14 * Real.sqrt (d1 ^ 2 + d2 ^ 2) := by
  have hkk : k / k = 1 := div_self hk.ne'
  constructor
  · intro d hd
    simp only [dir_wellblock_radius_divisors, hkk, Real.sqrt_one, List.mem_cons,
      List.mem_singleton, List.not_mem_nil, or_false] at hd
    rcases hd with rfl | rfl | rfl
    · exact hk.ne'
    · exact hk.ne'
    · norm_num
  · simp only [dir_wellblock_radius, hkk, Real.sqrt_one, mul_one, pow_two]
    ring

/-- C30, witness: a block of 3 by 4 with permeability 100 has radius `0.14 * sqrt 25`. -/
theorem C30_isotropic_block_radius_witness :
    dir_wellblock_radius Real.sqrt 3 4 100 100 = 0.14 * Real.sqrt (3 ^ 2 + 4 ^ 2) :=
  (C30_isotropic_block_radius 3 4 100 (by norm_num)).2

end ProjectionClaims

section ResultStructureClaims

variable {K : Type} [LinearOrderedField K]

/-- On one-element lists `well_index_cell_qvector` returns a value. -/
lemma well_index_cell_qvector_single (sqrt log : K → K) (pi : K) (cell : Cell K)
    (p q : Vec3 K) (wellbore_radius : K) :
    ∃ w, well_index_cell_qvector sqrt log pi cell [p] [q] wellbore_radius = .ok w :=
  ⟨_, well_index_cell_qvector_eq sqrt log pi cell [p] [q] wellbore_radius (le_refl _)⟩

/-- The cell loop of `well_index_of_grid`, started at position `ii` with enough
points left, appends one value per cell: the well index of that cell for the
sub-segment between the points at its position and the next one. -/
lemma well_indeces_loop_spec (sqrt log : K → K) (pi : K) (grid : Grid K)
    (points : List (Vec3 K)) (wellbore_radius : K) :
    ∀ (cells : List Nat) (ii : Nat) (acc : List K),
      ii + cells.length + 1 ≤ points.length →
      ∃ ws : List K,
        well_indeces_loop sqrt log pi grid points wellbore_radius cells ii acc =
          .ok (acc ++ ws) ∧
        ws.length = cells.length ∧
        ∀ (j : Nat) (c : Nat), cells.get? j = some c →
          ∃ p q w, points.get? (ii + j) = some p ∧ points.get? (ii + j + 1) = some q ∧
            ws.get? j = some w ∧
            well_index_cell_qvector sqrt log pi (grid.GetCell c) [p] [q] wellbore_radius =
              .ok w := by
  intro cells
  induction cells with
  | nil =>
    intro ii acc _
    exact ⟨[], by simp [well_indeces_loop], rfl, by intro j c h; simp at h⟩
  | cons c cs ih =>
    intro ii acc h
    simp only [List.length_cons] at h
    obtain ⟨p, hp⟩ : ∃ p, points.get? ii = some p :=
      ⟨_, List.get?_eq_get (by omega)⟩
    obtain ⟨q, hq⟩ : ∃ q, points.get? (ii + 1) = some q :=
      ⟨_, List.get?_eq_get (by omega)⟩
    obtain ⟨w, hw⟩ := well_index_cell_qvector_single sqrt log pi (grid.GetCell c) p q
      wellbore_radius
    obtain ⟨ws, hws, hlen, hall⟩ := ih (ii + 1) (acc ++ [w]) (by omega)
    refine ⟨w :: ws, ?_, by simp [hlen], ?_⟩
    · simp only [well_indeces_loop, at_index, hp, hq, hw, hws, List.append_assoc,
        List.singleton_append]
    · intro j c' hj
      cases j with
      | zero =>
        simp only [List.get?_cons_zero, Option.some.injEq] at hj
        subst hj
        exact ⟨p, q, w, by simpa using hp, by simpa using hq, rfl, hw⟩
      | succ j =>
        simp only [List.get?_cons_succ] at hj
        obtain ⟨p', q', w', hp', hq', hw', hwi⟩ := hall j c' hj
        refine ⟨p', q', w', ?_, ?_, ?_, hwi⟩
        · rw [← hp']; congr 1; omega
        · rw [← hq']; congr 1; omega
        · simpa using hw'

/-- C29.  For non-empty lists whose first segment `cells_intersected` answers
with `(cells, points)`, `well_index_of_grid` returns `(cells, w)`, no list access
is out of range, `w` is as long as `cells`, and `w[i]` is the result of
`well_index_cell_qvector` for the cell `grid.GetCell cells[i]` and the
sub-segment from `points[i]` to `points[i+1]`. -/
theorem C29_result_structure (sqrt log : K → K) (pi : K) (fuel : Nat) (grid : Grid K)
    (start_point end_point : Vec3 K) (start_points end_points : List (Vec3 K))
    (wellbore_radius : K) (cells : List Nat) (points : List (Vec3 K))
    (h : cells_intersected sqrt fuel start_point end_point grid = .ok (cells, points)) :
    ∃ w : List K,
      well_index_of_grid sqrt log pi fuel grid (start_point :: start_points)
        (end_point :: end_points) wellbore_radius = .ok (cells, w) ∧
      w.length = cells.length ∧
      ∀ (i : Nat) (c : Nat), cells.get? i = some c →
        ∃ p q wi, points.get? i = some p ∧ points.get? (i + 1) = some q ∧
          w.get? i = some wi ∧
          well_index_cell_qvector sqrt log pi (grid.GetCell c) [p] [q] wellbore_radius =
            .ok wi := by
  have hshape : points.length = cells.length + 1 := by
    obtain ⟨first_cell, last_cell, cs, ps, _, _, hlen, hcase⟩ :=
      cells_intersected_shape sqrt fuel start_point end_point grid cells points h
    rcases hcase with ⟨hc, hp, _⟩ | ⟨hc, exit_point, hp⟩
    · simp [hc, hp]
    · simp [hc, hp, hlen]
  obtain ⟨ws, hws, hlen, hall⟩ := well_indeces_loop_spec sqrt log pi grid points
    wellbore_radius cells 0 [] (by omega)
  refine ⟨ws, ?_, hlen, ?_⟩
  · simp only [well_index_of_grid, at_index, List.get?, h, hws, List.nil_append]
  · intro i c hi
    obtain ⟨p, q, w, hp, hq, hw, hwi⟩ := hall i c hi
    exact ⟨p, q, w, by simpa using hp, by simpa using hq, hw, hwi⟩

/-- C29, witness: Scenario B with wellbore radius 0.1. -/
theorem C29_result_structure_witness :
    ∃ w : List ℝ,
      well_index_of_grid Real.sqrt Real.log Real.pi 0 (twoCells : Grid ℝ)
        [⟨1 / 2, 1 / 2, 1 / 2⟩] [⟨3 / 2, 1 / 2, 1 / 2⟩] (1 / 10) = .ok ([0, 1], w) ∧
      w.length = 2 := by
  obtain ⟨w, h1, h2, _⟩ := C29_result_structure Real.sqrt Real.log Real.pi 0
    (twoCells : Grid ℝ) ⟨1 / 2, 1 / 2, 1 / 2⟩ ⟨3 / 2, 1 / 2, 1 / 2⟩ [] [] (1 / 10) [0, 1]
    [⟨1 / 2, 1 / 2, 1 / 2⟩, ⟨1, 1 / 2, 1 / 2⟩, ⟨3 / 2, 1 / 2, 1 / 2⟩] (scenarioB_eval 0)
  exact ⟨w, h1, h2⟩

end ResultStructureClaims

section ProbeLemmas

end ProbeLemmas

section ProbeClaims

end ProbeClaims

section ZeroLengthLemmas

lemma dir_well_index_zero_length (d1 d2 k1 k2 wellbore_radius : ℝ) :
    dir_well_index Real.sqrt Real.log Real.pi 0 d1 d2 k1 k2 wellbore_radius = 0 := by
  simp only [dir_well_index, mul_zero, zero_div]

/-- For positive arguments the block radius is positive. -/
lemma dir_wellblock_radius_pos (d1 d2 k1 k2 : ℝ) (hd1 : 0 < d1) (hk1 : 0 < k1) (hk2 : 0 < k2) :
    0 < dir_wellblock_radius Real.sqrt d1 d2 k1 k2 := by
  have h1 : 0 < Real.sqrt (k2 / k1) := Real.sqrt_pos.2 (div_pos hk2 hk1)
  have h2 : 0 < Real.sqrt (k1 / k2) := Real.sqrt_pos.2 (div_pos hk1 hk2)
  have h3 : 0 < Real.sqrt (Real.sqrt (k2 / k1)) := Real.sqrt_pos.2 h1
  have h4 : 0 < Real.sqrt (Real.sqrt (k1 / k2)) := Real.sqrt_pos.2 h2
  have h5 : 0 < d1 * d1 * Real.sqrt (k2 / k1) + d2 * d2 * Real.sqrt (k1 / k2) := by
    have : 0 ≤ d2 * d2 * Real.sqrt (k1 / k2) := mul_nonneg (mul_self_nonneg d2) h2.le
    have : 0 < d1 * d1 * Real.sqrt (k2 / k1) := mul_pos (mul_pos hd1 hd1) h1
    linarith
  simp only [dir_wellblock_radius]
  exact div_pos (mul_pos (by norm_num) (Real.sqrt_pos.2 h5)) (by linarith)

/-- For positive arguments and a block radius different from the wellbore
radius, no divisor in `dir_well_index` is zero. -/
lemma dir_well_index_divisors_ne_zero (d1 d2 k1 k2 wellbore_radius : ℝ) (hd1 : 0 < d1)
    (hk1 : 0 < k1) (hk2 : 0 < k2) (hrw : 0 < wellbore_radius)
    (hne : dir_wellblock_radius Real.sqrt d1 d2 k1 k2 ≠ wellbore_radius) :
    ∀ d ∈ dir_well_index_divisors Real.sqrt Real.log d1 d2 k1 k2 wellbore_radius, d ≠ 0 := by
  intro d hd
  simp only [dir_well_index_divisors, dir_wellblock_radius_divisors, List.cons_append,
    List.nil_append, List.mem_cons, List.mem_singleton, List.not_mem_nil, or_false] at hd
  rcases hd with rfl | rfl | rfl | rfl | rfl
  · exact hk1.ne'
  · exact hk2.ne'
  · have h3 : 0 < Real.sqrt (Real.sqrt (k2 / k1)) :=
      Real.sqrt_pos.2 (Real.sqrt_pos.2 (div_pos hk2 hk1))
    have h4 : 0 < Real.sqrt (Real.sqrt (k1 / k2)) :=
      Real.sqrt_pos.2 (Real.sqrt_pos.2 (div_pos hk1 hk2))
    linarith
  · exact hrw.ne'
  · apply Real.log_ne_zero_of_pos_of_ne_one
    · exact div_pos (dir_wellblock_radius_pos d1 d2 k1 k2 hd1 hk1 hk2) hrw
    · intro h
      rw [div_eq_one_iff_eq hrw.ne'] at h
      exact hne h

/-- Sub-segments orthogonal to an axis have projected length zero on it. -/
lemma projected_length_orthogonal (axis : Vec3 ℝ) (start_points end_points : List (Vec3 ℝ))
    (h : ∀ se ∈ start_points.zip end_points, axis.dot (se.2.sub se.1) = 0) :
    projected_length Real.sqrt axis start_points end_points = 0 := by
  simp only [projected_length]
  apply List.sum_eq_zero
  intro x hx
  obtain ⟨se, hse, rfl⟩ := List.mem_map.1 hx
  have h0 := h se hse
  simp only [Vec3.norm, project_v1_on_v2]
  rw [h0]
  simp only [Vec3.mul, Vec3.div, Vec3.dot, mul_zero, zero_div, add_zero, Real.sqrt_zero]

end ZeroLengthLemmas

section ZeroLengthClaims

/-- C21, counterexample.  For the positive arguments `d1 = d2 = 1`,
`k1 = k2 = 100` and `r_w = 0.14 * sqrt 2`, the block radius equals `r_w`, so the
logarithm by which `dir_well_index` divides is zero, and with `L = 0` the
dividend is zero too: the quotient is `0 / 0`. -/
theorem C21_counterexample :
    (0 : ℝ) < 0.14 * Real.sqrt 2 ∧
    Real.log (dir_wellblock_radius Real.sqrt 1 1 100 100 / (0.14 * Real.sqrt 2)) ∈
      dir_well_index_divisors Real.sqrt Real.log 1 1 100 100 (0.14 * Real.sqrt 2) ∧
    Real.log (dir_wellblock_radius Real.sqrt 1 1 100 100 / (0.14 * Real.sqrt 2)) = 0 ∧
    (0.008527 : ℝ) * (2 * Real.pi * Real.sqrt (100 * 100) * 0) = 0 := by
  have hpos : (0 : ℝ) < 0.14 * Real.sqrt 2 :=
    mul_pos (by norm_num) (Real.sqrt_pos.2 (by norm_num))
  refine ⟨hpos, ?_, ?_, by simp⟩
  · simp [dir_well_index_divisors]
  · rw [dir_wellblock_radius_unit, div_self hpos.ne', Real.log_one]

/-- C21, amended.  For positive `d1`, `k1`, `k2`, `r_w` (and every `d2`) with
`dir_wellblock_radius d1 d2 k1 k2 ≠ r_w`, no divisor in `dir_well_index` is zero
and `dir_well_index 0 d1 d2 k1 k2 r_w` is exactly 0.  So for a cell with a
nonzero `xvec` whose sub-segments are all orthogonal to `xvec` and whose
quotient for the x axis has no zero divisor, `well_index_cell_qvector` returns
`sqrt (WIy^2 + WIz^2)`; likewise for the y and the z axis. -/
theorem C21_zero_axis_length (d1 d2 k1 k2 wellbore_radius : ℝ) (hd1 : 0 < d1)
    (hk1 : 0 < k1) (hk2 : 0 < k2) (hrw : 0 < wellbore_radius)
    (hne : dir_wellblock_radius Real.sqrt d1 d2 k1 k2 ≠ wellbore_radius) :
    (∀ d ∈ dir_well_index_divisors Real.sqrt Real.log d1 d2 k1 k2 wellbore_radius, d ≠ 0) ∧
    dir_well_index Real.sqrt Real.log Real.pi 0 d1 d2 k1 k2 wellbore_radius = 0 ∧
    ∀ (cell : Cell ℝ) (start_points end_points : List (Vec3 ℝ)),
      start_points.length = end_points.length →
      ((cell.corners 5).sub (cell.corners 4) ≠ ⟨0, 0, 0⟩ →
        (∀ se ∈ start_points.zip end_points,
          ((cell.corners 5).sub (cell.corners 4)).dot (se.2.sub se.1) = 0) →
        (∀ d ∈ dir_well_index_divisors Real.sqrt Real.log
          (((cell.corners 6).sub (cell.corners 4)).norm Real.sqrt)
          (((cell.corners 0).sub (cell.corners 4)).norm Real.sqrt) cell.permy cell.permz
          wellbore_radius, d ≠ 0) →
        well_index_cell_qvector Real.sqrt Real.log Real.pi cell start_points end_points
            wellbore_radius =
          .ok (Real.sqrt (
            dir_well_index Real.sqrt Real.log Real.pi
              (projected_length Real.sqrt ((cell.corners 6).sub (cell.corners 4)) start_points
                end_points)
              (((cell.corners 5).sub (cell.corners 4)).norm Real.sqrt)
              (((cell.corners 0).sub (cell.corners 4)).norm Real.sqrt) cell.permx cell.permz
              wellbore_radius ^ 2 +
            dir_well_index Real.sqrt Real.log Real.pi
              (projected_length Real.sqrt ((cell.corners 0).sub (cell.corners 4)) start_points
                end_points)
              (((cell.corners 5).sub (cell.corners 4)).norm Real.sqrt)
              (((cell.corners 6).sub (cell.corners 4)).norm Real.sqrt) cell.permx cell.permy
              wellbore_radius ^ 2))) ∧
      ((cell.corners 6).sub (cell.corners 4) ≠ ⟨0, 0, 0⟩ →
        (∀ se ∈ start_points.zip end_points,
          ((cell.corners 6).sub (cell.corners 4)).dot (se.2.sub se.1) = 0) →
        (∀ d ∈ dir_well_index_divisors Real.sqrt Real.log
          (((cell.corners 5).sub (cell.corners 4)).norm Real.sqrt)
          (((cell.corners 0).sub (cell.corners 4)).norm Real.sqrt) cell.permx cell.permz
          wellbore_radius, d ≠ 0) →
        well_index_cell_qvector Real.sqrt Real.log Real.pi cell start_points end_points
            wellbore_radius =
          .ok (Real.sqrt (
            dir_well_index Real.sqrt Real.log Real.pi
              (projected_length Real.sqrt ((cell.corners 5).sub (cell.corners 4)) start_points
                end_points)
              (((cell.corners 6).sub (cell.corners 4)).norm Real.sqrt)
              (((cell.corners 0).sub (cell.corners 4)).norm Real.sqrt) cell.permy cell.permz
              wellbore_radius ^ 2 +
            dir_well_index Real.sqrt Real.log Real.pi
              (projected_length Real.sqrt ((cell.corners 0).sub (cell.corners 4)) start_points
                end_points)
              (((cell.corners 5).sub (cell.corners 4)).norm Real.sqrt)
              (((cell.corners 6).sub (cell.corners 4)).norm Real.sqrt) cell.permx cell.permy
              wellbore_radius ^ 2))) ∧
      ((cell.corners 0).sub (cell.corners 4) ≠ ⟨0, 0, 0⟩ →
        (∀ se ∈ start_points.zip end_points,
          ((cell.corners 0).sub (cell.corners 4)).dot (se.2.sub se.1) = 0) →
        (∀ d ∈ dir_well_index_divisors Real.sqrt Real.log
          (((cell.corners 5).sub (cell.corners 4)).norm Real.sqrt)
          (((cell.corners 6).sub (cell.corners 4)).norm Real.sqrt) cell.permx cell.permy
          wellbore_radius, d ≠ 0) →
        well_index_cell_qvector Real.sqrt Real.log Real.pi cell start_points end_points
            wellbore_radius =
          .ok (Real.sqrt (
            dir_well_index Real.sqrt Real.log Real.pi
              (projected_length Real.sqrt ((cell.corners 5).sub (cell.corners 4)) start_points
                end_points)
              (((cell.corners 6).sub (cell.corners 4)).norm Real.sqrt)
              (((cell.corners 0).sub (cell.corners 4)).norm Real.sqrt) cell.permy cell.permz
              wellbore_radius ^ 2 +
            dir_well_index Real.sqrt Real.log Real.pi
              (projected_length Real.sqrt ((cell.corners 6).sub (cell.corners 4)) start_points
                end_points)
              (((cell.corners 5).sub (cell.corners 4)).norm Real.sqrt)
              (((cell.corners 0).sub (cell.corners 4)).norm Real.sqrt) cell.permx cell.permz
              wellbore_radius ^ 2))) := by
  refine ⟨dir_well_index_divisors_ne_zero d1 d2 k1 k2 wellbore_radius hd1 hk1 hk2 hrw hne,
    dir_well_index_zero_length _ _ _ _ _, ?_⟩
  intro cell start_points end_points hlen
  have heq := well_index_cell_qvector_eq Real.sqrt Real.log Real.pi cell start_points
    end_points wellbore_radius hlen.le
  refine ⟨?_, ?_, ?_⟩
  · intro _ horth _
    rw [heq, projected_length_orthogonal _ _ _ horth, dir_well_index_zero_length]
    simp only [mul_zero, zero_add, pow_two]
  · intro _ horth _
    rw [heq, projected_length_orthogonal _ _ _ horth, dir_well_index_zero_length]
    simp only [mul_zero, add_zero, pow_two]
  · intro _ horth _
    rw [heq, projected_length_orthogonal _ _ _ horth, dir_well_index_zero_length]
    simp only [mul_zero, add_zero, pow_two]

/-- C21, witness: a unit block with permeabilities 100 and wellbore radius 0.1,
whose block radius `0.14 * sqrt 2` is not 0.1. -/
theorem C21_zero_axis_length_witness :
    dir_well_index Real.sqrt Real.log Real.pi 0 1 1 100 100 (1 / 10) = 0 ∧
    ∀ d ∈ dir_well_index_divisors Real.sqrt Real.log 1 1 100 100 (1 / 10), d ≠ 0 := by
  have hne : dir_wellblock_radius Real.sqrt 1 1 100 100 ≠ 1 / 10 := by
    rw [dir_wellblock_radius_unit]
    have h : (1 : ℝ) < Real.sqrt 2 := (Real.lt_sqrt (by norm_num)).2 (by norm_num)
    intro h'
    norm_num at h'
    linarith
  have h := C21_zero_axis_length 1 1 100 100 (1 / 10) (by norm_num)
    (by norm_num) (by norm_num) (by norm_num) hne
  exact ⟨h.2.1, h.1⟩

end ZeroLengthClaims

section AxisExit

/-- The candidate of a face with normal along `x` for a line parallel to `x`. -/
lemma candidate_x (sx sy sz ex n qx qy qz : ℝ) (hline : ex ≠ sx) (hn : n ≠ 0) :
    line_plane_intersection Real.sqrt ⟨sx, sy, sz⟩ ⟨ex, sy, sz⟩ ⟨n, 0, 0⟩ ⟨qx, qy, qz⟩ =
      ⟨qx, sy, sz⟩ := by
  have hd : 0 < ((⟨ex, sy, sz⟩ : Vec3 ℝ).sub ⟨sx, sy, sz⟩).dot
      ((⟨ex, sy, sz⟩ : Vec3 ℝ).sub ⟨sx, sy, sz⟩) := by
    simp only [Vec3.dot, Vec3.sub, sub_self, mul_zero, add_zero]
    exact mul_self_pos.2 (sub_ne_zero.2 hline)
  have hn' : 0 < (⟨n, 0, 0⟩ : Vec3 ℝ).dot ⟨n, 0, 0⟩ := by
    simp only [Vec3.dot, mul_zero, add_zero]
    exact mul_self_pos.2 hn
  rw [line_plane_intersection_real _ _ _ _ hd hn']
  have h1 : ex - sx ≠ 0 := sub_ne_zero.2 hline
  simp only [Vec3.dot, Vec3.sub, Vec3.add, Vec3.mul, sub_self, mul_zero, zero_mul, add_zero]
  ext
  · simp only; field_simp; ring
  · rfl
  · rfl

/-- The answer of `find_exit_point` for a box and a line parallel to `x`. -/
lemma find_exit_point_box_x (gi : Nat) (x0 x1 y0 y1 z0 z1 kx ky kz : ℝ)
    (hx : x0 < x1) (hy : y0 < y1) (hz : z0 < z1) (sx sy sz ex xe : ℝ) (hline : ex ≠ sx)
    (hsy : y0 ≤ sy ∧ sy ≤ y1) (hsz : z0 ≤ sz ∧ sz ≤ z1) :
    find_exit_point Real.sqrt (box gi x0 x1 y0 y1 z0 z1 kx ky kz) ⟨sx, sy, sz⟩ ⟨ex, sy, sz⟩
        ⟨xe, sy, sz⟩ =
      ⟨axis_exit x0 x1 sx ex xe, sy, sz⟩ := by
  rw [find_exit_point_box _ _ _ _ _ _ _ _ _ _ hx hy hz]
  have h1 : ex - sx ≠ 0 := sub_ne_zero.2 hline
  simp only [find_exit_loop, Vec3.dot, Vec3.sub, sub_self, mul_zero, zero_mul, add_zero,
    zero_add, one_mul, ne_eq, not_true_eq_false, if_false, neg_mul, neg_eq_zero, h1,
    not_false_eq_true, if_true,
    candidate_x sx sy sz ex 1 _ _ _ hline one_ne_zero,
    candidate_x sx sy sz ex (-1) _ _ _ hline (by norm_num),
    accept_point_real, feasible_point_box_faces, axis_exit, axis_accept]
  have hy0 : y0 - 1 / 100000 ≤ sy ∧ sy ≤ y1 + 1 / 100000 :=
    ⟨by linarith [hsy.1], by linarith [hsy.2]⟩
  have hz0 : z0 - 1 / 100000 ≤ sz ∧ sz ≤ z1 + 1 / 100000 :=
    ⟨by linarith [hsz.1], by linarith [hsz.2]⟩
  have hlo : x0 - 1 / 100000 ≤ x0 ∧ x0 ≤ x1 + 1 / 100000 := ⟨by linarith, by linarith⟩
  have hhi : x0 - 1 / 100000 ≤ x1 ∧ x1 ≤ x1 + 1 / 100000 := ⟨by linarith, by linarith⟩
  simp only [hy0, hz0, hlo, hhi, and_self, true_and, Bool.and_eq_true, decide_eq_true_eq, pow_two]
  split_ifs <;> rfl

end AxisExit

section AxisExitYZ

/-- The candidate of a face with normal along `y` for a line parallel to `y`. -/
lemma candidate_y (sx sy sz ey n qx qy qz : ℝ) (hline : ey ≠ sy) (hn : n ≠ 0) :
    line_plane_intersection Real.sqrt ⟨sx, sy, sz⟩ ⟨sx, ey, sz⟩ ⟨0, n, 0⟩ ⟨qx, qy, qz⟩ =
      ⟨sx, qy, sz⟩ := by
  have hd : 0 < ((⟨sx, ey, sz⟩ : Vec3 ℝ).sub ⟨sx, sy, sz⟩).dot
      ((⟨sx, ey, sz⟩ : Vec3 ℝ).sub ⟨sx, sy, sz⟩) := by
    simp only [Vec3.dot, Vec3.sub, sub_self, mul_zero, add_zero, zero_add]
    exact mul_self_pos.2 (sub_ne_zero.2 hline)
  have hn' : 0 < (⟨0, n, 0⟩ : Vec3 ℝ).dot ⟨0, n, 0⟩ := by
    simp only [Vec3.dot, mul_zero, add_zero, zero_add]
    exact mul_self_pos.2 hn
  rw [line_plane_intersection_real _ _ _ _ hd hn']
  have h1 : ey - sy ≠ 0 := sub_ne_zero.2 hline
  simp only [Vec3.dot, Vec3.sub, Vec3.add, Vec3.mul, sub_self, mul_zero, zero_mul, add_zero,
    zero_add]
  ext
  · rfl
  · simp only; field_simp; ring
  · rfl

/-- The candidate of a face with normal along `z` for a line parallel to `z`. -/
lemma candidate_z (sx sy sz ez n qx qy qz : ℝ) (hline : ez ≠ sz) (hn : n ≠ 0) :
    line_plane_intersection Real.sqrt ⟨sx, sy, sz⟩ ⟨sx, sy, ez⟩ ⟨0, 0, n⟩ ⟨qx, qy, qz⟩ =
      ⟨sx, sy, qz⟩ := by
  have hd : 0 < ((⟨sx, sy, ez⟩ : Vec3 ℝ).sub ⟨sx, sy, sz⟩).dot
      ((⟨sx, sy, ez⟩ : Vec3 ℝ).sub ⟨sx, sy, sz⟩) := by
    simp only [Vec3.dot, Vec3.sub, sub_self, mul_zero, add_zero, zero_add]
    exact mul_self_pos.2 (sub_ne_zero.2 hline)
  have hn' : 0 < (⟨0, 0, n⟩ : Vec3 ℝ).dot ⟨0, 0, n⟩ := by
    simp only [Vec3.dot, mul_zero, add_zero, zero_add]
    exact mul_self_pos.2 hn
  rw [line_plane_intersection_real _ _ _ _ hd hn']
  have h1 : ez - sz ≠ 0 := sub_ne_zero.2 hline
  simp only [Vec3.dot, Vec3.sub, Vec3.add, Vec3.mul, sub_self, mul_zero, zero_mul, add_zero,
    zero_add]
  ext
  · rfl
  · rfl
  · simp only; field_simp; ring

/-- The answer of `find_exit_point` for a box and a line parallel to `y`. -/
lemma find_exit_point_box_y (gi : Nat) (x0 x1 y0 y1 z0 z1 kx ky kz : ℝ)
    (hx : x0 < x1) (hy : y0 < y1) (hz : z0 < z1) (sx sy sz ey ye : ℝ) (hline : ey ≠ sy)
    (hsx : x0 ≤ sx ∧ sx ≤ x1) (hsz : z0 ≤ sz ∧ sz ≤ z1) :
    find_exit_point Real.sqrt (box gi x0 x1 y0 y1 z0 z1 kx ky kz) ⟨sx, sy, sz⟩ ⟨sx, ey, sz⟩
        ⟨sx, ye, sz⟩ =
      ⟨sx, axis_exit y0 y1 sy ey ye, sz⟩ := by
  rw [find_exit_point_box _ _ _ _ _ _ _ _ _ _ hx hy hz]
  have h1 : ey - sy ≠ 0 := sub_ne_zero.2 hline
  simp only [find_exit_loop, Vec3.dot, Vec3.sub, sub_self, mul_zero, zero_mul, add_zero,
    zero_add, one_mul, ne_eq, not_true_eq_false, if_false, neg_mul, neg_eq_zero, h1,
    not_false_eq_true, if_true,
    candidate_y sx sy sz ey 1 _ _ _ hline one_ne_zero,
    candidate_y sx sy sz ey (-1) _ _ _ hline (by norm_num),
    accept_point_real, feasible_point_box_faces, axis_exit, axis_accept]
  have hx0 : x0 - 1 / 100000 ≤ sx ∧ sx ≤ x1 + 1 / 100000 :=
    ⟨by linarith [hsx.1], by linarith [hsx.2]⟩
  have hz0 : z0 - 1 / 100000 ≤ sz ∧ sz ≤ z1 + 1 / 100000 :=
    ⟨by linarith [hsz.1], by linarith [hsz.2]⟩
  have hlo : y0 - 1 / 100000 ≤ y0 ∧ y0 ≤ y1 + 1 / 100000 := ⟨by linarith, by linarith⟩
  have hhi : y0 - 1 / 100000 ≤ y1 ∧ y1 ≤ y1 + 1 / 100000 := ⟨by linarith, by linarith⟩
  simp only [hx0, hz0, hlo, hhi, and_self, true_and, Bool.and_eq_true, decide_eq_true_eq, pow_two]
  split_ifs <;> rfl

/-- The answer of `find_exit_point` for a box and a line parallel to `z`. -/
lemma find_exit_point_box_z (gi : Nat) (x0 x1 y0 y1 z0 z1 kx ky kz : ℝ)
    (hx : x0 < x1) (hy : y0 < y1) (hz : z0 < z1) (sx sy sz ez ze : ℝ) (hline : ez ≠ sz)
    (hsx : x0 ≤ sx ∧ sx ≤ x1) (hsy : y0 ≤ sy ∧ sy ≤ y1) :
    find_exit_point Real.sqrt (box gi x0 x1 y0 y1 z0 z1 kx ky kz) ⟨sx, sy, sz⟩ ⟨sx, sy, ez⟩
        ⟨sx, sy, ze⟩ =
      ⟨sx, sy, axis_exit z0 z1 sz ez ze⟩ := by
  rw [find_exit_point_box _ _ _ _ _ _ _ _ _ _ hx hy hz]
  have h1 : ez - sz ≠ 0 := sub_ne_zero.2 hline
  simp only [find_exit_loop, Vec3.dot, Vec3.sub, sub_self, mul_zero, zero_mul, add_zero,
    zero_add, one_mul, ne_eq, not_true_eq_false, if_false, neg_mul, neg_eq_zero, h1,
    not_false_eq_true, if_true,
    candidate_z sx sy sz ez 1 _ _ _ hline one_ne_zero,
    candidate_z sx sy sz ez (-1) _ _ _ hline (by norm_num),
    accept_point_real, feasible_point_box_faces, axis_exit, axis_accept]
  have hx0 : x0 - 1 / 100000 ≤ sx ∧ sx ≤ x1 + 1 / 100000 :=
    ⟨by linarith [hsx.1], by linarith [hsx.2]⟩
  have hy0 : y0 - 1 / 100000 ≤ sy ∧ sy ≤ y1 + 1 / 100000 :=
    ⟨by linarith [hsy.1], by linarith [hsy.2]⟩
  have hlo : z0 - 1 / 100000 ≤ z0 ∧ z0 ≤ z1 + 1 / 100000 := ⟨by linarith, by linarith⟩
  have hhi : z0 - 1 / 100000 ≤ z1 ∧ z1 ≤ z1 + 1 / 100000 := ⟨by linarith, by linarith⟩
  simp only [hx0, hy0, hlo, hhi, and_self, true_and, Bool.and_eq_true, decide_eq_true_eq, pow_two]
  split_ifs <;> rfl

end AxisExitYZ

section AxisExitOrder

/-- The acceptance conditions along the line, with the distance test unsquared. -/
lemma axis_accept_iff (sa ea exc c : ℝ) :
    axis_accept sa ea exc c = true ↔
      1 / 1000000000 < |exc - c| ∧ 0 ≤ (ea - sa) * (ea - c) := by
  simp only [axis_accept, Bool.and_eq_true, decide_eq_true_eq]
  rw [sq_lt_sq, abs_of_pos (show (0 : ℝ) < 1 / 1000000000 by norm_num)]

/-- The exit coordinate after the direction check and the retry of lines 84-91,
for a start coordinate strictly between the bounds of a box wider than `2e-9` and
an end coordinate outside them: the bound on the side of the end coordinate. -/
lemma axis_first_exit (lo hi sa ea : ℝ) (hs : lo < sa ∧ sa < hi)
    (hw : 2 / 1000000000 < hi - lo) (he : ea < lo ∨ hi < ea) :
    (if (ea - sa) * (axis_exit lo hi sa ea sa - sa) ≤ 0 then
        axis_exit lo hi sa ea (axis_exit lo hi sa ea sa)
      else axis_exit lo hi sa ea sa) = if hi < ea then hi else lo := by
  obtain ⟨hs1, hs2⟩ := hs
  have hself : ∀ c : ℝ, axis_accept sa ea c c = false := by
    intro c
    rw [Bool.eq_false_iff, ne_eq, axis_accept_iff]
    rintro ⟨h, _⟩
    rw [sub_self, abs_zero] at h
    norm_num at h
  have hwide : axis_accept sa ea lo hi = true ∧ axis_accept sa ea hi lo = true := by
    rw [axis_accept_iff, axis_accept_iff, abs_of_neg (by linarith), abs_of_pos (by linarith)]
    rcases he with he | he
    · exact ⟨⟨by linarith, mul_nonneg_of_nonpos_of_nonpos (by linarith) (by linarith)⟩,
        ⟨by linarith, mul_nonneg_of_nonpos_of_nonpos (by linarith) (by linarith)⟩⟩
    · exact ⟨⟨by linarith, mul_nonneg (by linarith) (by linarith)⟩,
        ⟨by linarith, mul_nonneg (by linarith) (by linarith)⟩⟩
  have hfwd : ∀ c : ℝ, lo ≤ c → c ≤ hi → 0 ≤ (ea - sa) * (ea - c) := by
    intro c h1 h2
    rcases he with he | he
    · exact mul_nonneg_of_nonpos_of_nonpos (by linarith) (by linarith)
    · exact mul_nonneg (by linarith) (by linarith)
  by_cases hnear : 1 / 1000000000 < sa - lo
  · -- the lower face is accepted first
    have h1 : axis_accept sa ea sa lo = true := by
      rw [axis_accept_iff, abs_of_pos (by linarith)]
      exact ⟨hnear, hfwd lo (le_refl _) (by linarith)⟩
    have ha1 : axis_exit lo hi sa ea sa = lo := by
      simp only [axis_exit, h1, if_true]
    have ha2 : axis_exit lo hi sa ea lo = hi := by
      simp only [axis_exit, hself lo, hwide.1, if_true, Bool.false_eq_true, if_false]
    rw [ha1, ha2]
    rcases he with he | he
    · have hpos : ¬ (ea - sa) * (lo - sa) ≤ 0 :=
        not_le.2 (mul_pos_of_neg_of_neg (by linarith) (by linarith))
      rw [if_neg hpos, if_neg (by linarith)]
    · have hneg : (ea - sa) * (lo - sa) ≤ 0 :=
        mul_nonpos_of_nonneg_of_nonpos (by linarith) (by linarith)
      rw [if_pos hneg, if_pos he]
  · -- the start is within the tolerance of the lower face: the upper face is accepted
    have h1 : axis_accept sa ea sa lo = false := by
      rw [Bool.eq_false_iff, ne_eq, axis_accept_iff, abs_of_pos (by linarith)]
      exact fun h => hnear h.1
    have h2 : axis_accept sa ea sa hi = true := by
      rw [axis_accept_iff, abs_of_neg (by linarith)]
      exact ⟨by linarith [not_lt.1 hnear], hfwd hi (by linarith) (le_refl _)⟩
    have ha1 : axis_exit lo hi sa ea sa = hi := by
      simp only [axis_exit, h1, h2, if_true, Bool.false_eq_true, if_false]
    have ha2 : axis_exit lo hi sa ea hi = lo := by
      simp only [axis_exit, hwide.2, if_true]
    rw [ha1, ha2]
    rcases he with he | he
    · have hneg : (ea - sa) * (hi - sa) ≤ 0 :=
        mul_nonpos_of_nonpos_of_nonneg (by linarith) (by linarith)
      rw [if_pos hneg, if_neg (by linarith)]
    · have hpos : ¬ (ea - sa) * (hi - sa) ≤ 0 :=
        not_le.2 (mul_pos (by linarith) (by linarith))
      rw [if_neg hpos, if_pos he]

end AxisExitOrder

section FirstExit

/-- The boundary of an axis-aligned box in coordinates. -/
lemma on_boundary_box (gi : Nat) (x0 x1 y0 y1 z0 z1 kx ky kz : ℝ)
    (hx : x0 < x1) (hy : y0 < y1) (hz : z0 < z1) (p : Vec3 ℝ) :
    on_boundary Real.sqrt (box gi x0 x1 y0 y1 z0 z1 kx ky kz) p ↔
      ((x0 ≤ p.x ∧ p.x ≤ x1) ∧ (y0 ≤ p.y ∧ p.y ≤ y1) ∧ (z0 ≤ p.z ∧ p.z ≤ z1)) ∧
      ¬ ((x0 < p.x ∧ p.x < x1) ∧ (y0 < p.y ∧ p.y < y1) ∧ (z0 < p.z ∧ p.z < z1)) := by
  rw [on_boundary, is_point_inside_box gi x0 x1 y0 y1 z0 z1 kx ky kz hx hy hz,
    in_interior_box gi x0 x1 y0 y1 z0 z1 kx ky kz hx hy hz]

/-- The bound on the side of the end coordinate is the one coordinate of the
segment from `sa` to `ea` that lies on a bound. -/
lemma axis_crossing (lo hi sa ea : ℝ) (hs : lo < sa ∧ sa < hi) (he : ea < lo ∨ hi < ea) :
    ((lo ≤ (if hi < ea then hi else lo) ∧ (if hi < ea then hi else lo) ≤ hi) ∧
      ¬ (lo < (if hi < ea then hi else lo) ∧ (if hi < ea then hi else lo) < hi)) ∧
    (∃ t : ℝ, 0 ≤ t ∧ t ≤ 1 ∧ (if hi < ea then hi else lo) = sa + (ea - sa) * t) ∧
    ∀ t : ℝ, 0 ≤ t → t ≤ 1 → lo ≤ sa + (ea - sa) * t → sa + (ea - sa) * t ≤ hi →
      ¬ (lo < sa + (ea - sa) * t ∧ sa + (ea - sa) * t < hi) →
      sa + (ea - sa) * t = if hi < ea then hi else lo := by
  obtain ⟨hs1, hs2⟩ := hs
  rcases he with he | he
  · have hn : ¬ hi < ea := by linarith
    simp only [hn, if_false]
    refine ⟨⟨⟨le_refl _, by linarith⟩, fun h => lt_irrefl _ h.1⟩, ?_, ?_⟩
    · have hd : ea - sa < 0 := by linarith
      refine ⟨(lo - sa) / (ea - sa), ?_, ?_, ?_⟩
      · exact div_nonneg_of_nonpos (by linarith) (le_of_lt hd)
      · rw [div_le_one_of_neg hd]; linarith
      · field_simp [ne_of_lt hd]
    · intro t ht0 _ h1 _ h3
      have h4 : sa + (ea - sa) * t ≤ sa := by nlinarith
      rcases lt_or_eq_of_le h1 with h5 | h5
      · exact absurd ⟨h5, by linarith⟩ h3
      · exact h5.symm
  · simp only [he, if_true]
    refine ⟨⟨⟨by linarith, le_refl _⟩, fun h => lt_irrefl _ h.2⟩, ?_, ?_⟩
    · have hd : 0 < ea - sa := by linarith
      refine ⟨(hi - sa) / (ea - sa), ?_, ?_, ?_⟩
      · exact div_nonneg (by linarith) (le_of_lt hd)
      · rw [div_le_one hd]; linarith
      · field_simp [ne_of_gt hd]
    · intro t ht0 _ _ h2 h3
      have h4 : sa ≤ sa + (ea - sa) * t := by nlinarith
      rcases lt_or_eq_of_le h2 with h5 | h5
      · exact absurd ⟨by linarith, h5⟩ h3
      · exact h5

/-- The exit point of the first cell for a start inside a box wider than `2e-9`
along `x` and an end outside it on the line through the start parallel to `x`. -/
lemma first_exit_point_box_x (gi : Nat) (x0 x1 y0 y1 z0 z1 kx ky kz : ℝ)
    (hx : x0 < x1) (hy : y0 < y1) (hz : z0 < z1) (sx sy sz ex : ℝ)
    (hsx : x0 < sx ∧ sx < x1) (hsy : y0 ≤ sy ∧ sy ≤ y1) (hsz : z0 ≤ sz ∧ sz ≤ z1)
    (hw : 2 / 1000000000 < x1 - x0) (he : ex < x0 ∨ x1 < ex) :
    first_exit_point Real.sqrt (box gi x0 x1 y0 y1 z0 z1 kx ky kz) ⟨sx, sy, sz⟩ ⟨ex, sy, sz⟩ =
      ⟨if x1 < ex then x1 else x0, sy, sz⟩ := by
  have hline : ex ≠ sx := by
    rcases he with h | h
    · exact ne_of_lt (by linarith [hsx.1])
    · exact ne_of_gt (by linarith [hsx.2])
  simp only [first_exit_point]
  rw [find_exit_point_box_x gi x0 x1 y0 y1 z0 z1 kx ky kz hx hy hz sx sy sz ex sx hline hsy hsz,
    find_exit_point_box_x gi x0 x1 y0 y1 z0 z1 kx ky kz hx hy hz sx sy sz ex _ hline hsy hsz]
  simp only [Vec3.dot, Vec3.sub, sub_self, mul_zero, add_zero]
  rw [← axis_first_exit x0 x1 sx ex hsx hw he]
  split_ifs <;> rfl

/-- The exit point of the first cell for a start inside a box wider than `2e-9`
along `y` and an end outside it on the line through the start parallel to `y`. -/
lemma first_exit_point_box_y (gi : Nat) (x0 x1 y0 y1 z0 z1 kx ky kz : ℝ)
    (hx : x0 < x1) (hy : y0 < y1) (hz : z0 < z1) (sx sy sz ey : ℝ)
    (hsx : x0 ≤ sx ∧ sx ≤ x1) (hsy : y0 < sy ∧ sy < y1) (hsz : z0 ≤ sz ∧ sz ≤ z1)
    (hw : 2 / 1000000000 < y1 - y0) (he : ey < y0 ∨ y1 < ey) :
    first_exit_point Real.sqrt (box gi x0 x1 y0 y1 z0 z1 kx ky kz) ⟨sx, sy, sz⟩ ⟨sx, ey, sz⟩ =
      ⟨sx, if y1 < ey then y1 else y0, sz⟩ := by
  have hline : ey ≠ sy := by
    rcases he with h | h
    · exact ne_of_lt (by linarith [hsy.1])
    · exact ne_of_gt (by linarith [hsy.2])
  simp only [first_exit_point]
  rw [find_exit_point_box_y gi x0 x1 y0 y1 z0 z1 kx ky kz hx hy hz sx sy sz ey sy hline hsx hsz,
    find_exit_point_box_y gi x0 x1 y0 y1 z0 z1 kx ky kz hx hy hz sx sy sz ey _ hline hsx hsz]
  simp only [Vec3.dot, Vec3.sub, sub_self, mul_zero, add_zero, zero_add]
  rw [← axis_first_exit y0 y1 sy ey hsy hw he]
  split_ifs <;> rfl

/-- The exit point of the first cell for a start inside a box wider than `2e-9`
along `z` and an end outside it on the line through the start parallel to `z`. -/
lemma first_exit_point_box_z (gi : Nat) (x0 x1 y0 y1 z0 z1 kx ky kz : ℝ)
    (hx : x0 < x1) (hy : y0 < y1) (hz : z0 < z1) (sx sy sz ez : ℝ)
    (hsx : x0 ≤ sx ∧ sx ≤ x1) (hsy : y0 ≤ sy ∧ sy ≤ y1) (hsz : z0 < sz ∧ sz < z1)
    (hw : 2 / 1000000000 < z1 - z0) (he : ez < z0 ∨ z1 < ez) :
    first_exit_point Real.sqrt (box gi x0 x1 y0 y1 z0 z1 kx ky kz) ⟨sx, sy, sz⟩ ⟨sx, sy, ez⟩ =
      ⟨sx, sy, if z1 < ez then z1 else z0⟩ := by
  have hline : ez ≠ sz := by
    rcases he with h | h
    · exact ne_of_lt (by linarith [hsz.1])
    · exact ne_of_gt (by linarith [hsz.2])
  simp only [first_exit_point]
  rw [find_exit_point_box_z gi x0 x1 y0 y1 z0 z1 kx ky kz hx hy hz sx sy sz ez sz hline hsx hsy,
    find_exit_point_box_z gi x0 x1 y0 y1 z0 z1 kx ky kz hx hy hz sx sy sz ez _ hline hsx hsy]
  simp only [Vec3.dot, Vec3.sub, sub_self, mul_zero, add_zero, zero_add]
  rw [← axis_first_exit z0 z1 sz ez hsz hw he]
  split_ifs <;> rfl

end FirstExit

section FirstExitClaims

/-- C24 as stated fails: in the box `[0, 1e-9] x [0,1] x [0,1]` the start
`(5e-10, 1/2, 1/2)` is strictly inside and the end `(1, 1/2, 1/2)` strictly
outside along `+x`, both face candidates lie within the exception distance `1e-9`
of the start, and the exit point used for the first cell is the start itself,
which is not on the boundary of the box. -/
theorem C24_counterexample :
    in_interior Real.sqrt (box 0 0 (1 / 1000000000) 0 1 0 1 1 1 1 : Cell ℝ)
      ⟨1 / 2000000000, 1 / 2, 1 / 2⟩ ∧
    is_point_inside_cell Real.sqrt (box 0 0 (1 / 1000000000) 0 1 0 1 1 1 1 : Cell ℝ)
      ⟨1, 1 / 2, 1 / 2⟩ = false ∧
    first_exit_point Real.sqrt (box 0 0 (1 / 1000000000) 0 1 0 1 1 1 1 : Cell ℝ)
      ⟨1 / 2000000000, 1 / 2, 1 / 2⟩ ⟨1, 1 / 2, 1 / 2⟩ = ⟨1 / 2000000000, 1 / 2, 1 / 2⟩ ∧
    ¬ on_boundary Real.sqrt (box 0 0 (1 / 1000000000) 0 1 0 1 1 1 1 : Cell ℝ)
      (first_exit_point Real.sqrt (box 0 0 (1 / 1000000000) 0 1 0 1 1 1 1 : Cell ℝ)
        ⟨1 / 2000000000, 1 / 2, 1 / 2⟩ ⟨1, 1 / 2, 1 / 2⟩) := by
  have hin : in_interior Real.sqrt (box 0 0 (1 / 1000000000) 0 1 0 1 1 1 1 : Cell ℝ)
      ⟨1 / 2000000000, 1 / 2, 1 / 2⟩ := by
    rw [in_interior_box _ _ _ _ _ _ _ _ _ _ (by norm_num) (by norm_num) (by norm_num)]
    norm_num
  have hout : is_point_inside_cell Real.sqrt (box 0 0 (1 / 1000000000) 0 1 0 1 1 1 1 : Cell ℝ)
      ⟨1, 1 / 2, 1 / 2⟩ = false := by
    rw [Bool.eq_false_iff, ne_eq,
      is_point_inside_box _ _ _ _ _ _ _ _ _ _ (by norm_num) (by norm_num) (by norm_num)]
    norm_num
  have hexit : first_exit_point Real.sqrt (box 0 0 (1 / 1000000000) 0 1 0 1 1 1 1 : Cell ℝ)
      ⟨1 / 2000000000, 1 / 2, 1 / 2⟩ ⟨1, 1 / 2, 1 / 2⟩ = ⟨1 / 2000000000, 1 / 2, 1 / 2⟩ := by
    have h1 : axis_exit (0 : ℝ) (1 / 1000000000) (1 / 2000000000) 1 (1 / 2000000000) =
        1 / 2000000000 := by
      norm_num [axis_exit, axis_accept]
    simp only [first_exit_point]
    rw [find_exit_point_box_x 0 0 (1 / 1000000000) 0 1 0 1 1 1 1 (by norm_num) (by norm_num)
      (by norm_num) (1 / 2000000000) (1 / 2) (1 / 2) 1 (1 / 2000000000) (by norm_num)
      (by norm_num) (by norm_num), h1]
    norm_num [Vec3.dot, Vec3.sub]
    rw [find_exit_point_box_x 0 0 (1 / 1000000000) 0 1 0 1 1 1 1 (by norm_num) (by norm_num)
      (by norm_num) (1 / 2000000000) (1 / 2) (1 / 2) 1 (1 / 2000000000) (by norm_num)
      (by norm_num) (by norm_num), h1]
  refine ⟨hin, hout, hexit, ?_⟩
  rw [hexit]
  exact fun h => h.2 hin

/-- C24, amended.  For an axis-aligned box in the corner convention, a start point
strictly inside it and an end point outside it with `end - start` parallel to a
coordinate axis along which the box is wider than `2e-9`, the exit point that
`cells_intersected` uses for the first cell is on the boundary of the box, lies
on the segment from start to end, and every point of the segment on the boundary
of the box equals it. -/
theorem C24_first_exit_axis_parallel (gi : Nat) (x0 x1 y0 y1 z0 z1 kx ky kz : ℝ)
    (hx : x0 < x1) (hy : y0 < y1) (hz : z0 < z1) (start_point end_point : Vec3 ℝ)
    (hs : in_interior Real.sqrt (box gi x0 x1 y0 y1 z0 z1 kx ky kz) start_point)
    (he : is_point_inside_cell Real.sqrt (box gi x0 x1 y0 y1 z0 z1 kx ky kz) end_point = false)
    (hdir : (end_point.y = start_point.y ∧ end_point.z = start_point.z ∧
          2 / 1000000000 < x1 - x0) ∨
        (end_point.x = start_point.x ∧ end_point.z = start_point.z ∧
          2 / 1000000000 < y1 - y0) ∨
        (end_point.x = start_point.x ∧ end_point.y = start_point.y ∧
          2 / 1000000000 < z1 - z0)) :
    on_boundary Real.sqrt (box gi x0 x1 y0 y1 z0 z1 kx ky kz)
      (first_exit_point Real.sqrt (box gi x0 x1 y0 y1 z0 z1 kx ky kz) start_point end_point) ∧
    (∃ t : ℝ, 0 ≤ t ∧ t ≤ 1 ∧
      first_exit_point Real.sqrt (box gi x0 x1 y0 y1 z0 z1 kx ky kz) start_point end_point =
        segment_point start_point end_point t) ∧
    ∀ t : ℝ, 0 ≤ t → t ≤ 1 →
      on_boundary Real.sqrt (box gi x0 x1 y0 y1 z0 z1 kx ky kz)
        (segment_point start_point end_point t) →
      segment_point start_point end_point t =
        first_exit_point Real.sqrt (box gi x0 x1 y0 y1 z0 z1 kx ky kz) start_point
          end_point := by
  obtain ⟨sx, sy, sz⟩ := start_point
  obtain ⟨ex, ey, ez⟩ := end_point
  rw [in_interior_box gi x0 x1 y0 y1 z0 z1 kx ky kz hx hy hz] at hs
  rw [Bool.eq_false_iff, ne_eq, is_point_inside_box gi x0 x1 y0 y1 z0 z1 kx ky kz hx hy hz] at he
  simp only at hs he hdir
  obtain ⟨hsx, hsy, hsz⟩ := hs
  have hsx' : x0 ≤ sx ∧ sx ≤ x1 := ⟨hsx.1.le, hsx.2.le⟩
  have hsy' : y0 ≤ sy ∧ sy ≤ y1 := ⟨hsy.1.le, hsy.2.le⟩
  have hsz' : z0 ≤ sz ∧ sz ≤ z1 := ⟨hsz.1.le, hsz.2.le⟩
  rcases hdir with ⟨h1, h2, hw⟩ | ⟨h1, h2, hw⟩ | ⟨h1, h2, hw⟩
  · subst h1 h2
    have hex : ex < x0 ∨ x1 < ex := by
      by_contra hc
      rw [not_or, not_lt, not_lt] at hc
      exact he ⟨hc, hsy', hsz'⟩
    have hseg : ∀ t : ℝ, segment_point (⟨sx, ey, ez⟩ : Vec3 ℝ) ⟨ex, ey, ez⟩ t =
        ⟨sx + (ex - sx) * t, ey, ez⟩ := by
      intro t
      simp [segment_point, Vec3.add, Vec3.sub, Vec3.mul]
    rw [first_exit_point_box_x gi x0 x1 y0 y1 z0 z1 kx ky kz hx hy hz sx ey ez ex hsx hsy' hsz'
      hw hex]
    obtain ⟨⟨hb1, hb2⟩, ⟨t, ht0, ht1, ht⟩, huniq⟩ := axis_crossing x0 x1 sx ex hsx hex
    refine ⟨?_, ⟨t, ht0, ht1, ?_⟩, ?_⟩
    · rw [on_boundary_box gi x0 x1 y0 y1 z0 z1 kx ky kz hx hy hz]
      exact ⟨⟨hb1, hsy', hsz'⟩, fun h => hb2 h.1⟩
    · rw [hseg, ← ht]
    · intro u hu0 hu1 hb
      rw [hseg] at hb ⊢
      rw [on_boundary_box gi x0 x1 y0 y1 z0 z1 kx ky kz hx hy hz] at hb
      rw [huniq u hu0 hu1 hb.1.1.1 hb.1.1.2 (fun h => hb.2 ⟨h, hsy, hsz⟩)]
  · subst h1 h2
    have hex : ey < y0 ∨ y1 < ey := by
      by_contra hc
      rw [not_or, not_lt, not_lt] at hc
      exact he ⟨hsx', hc, hsz'⟩
    have hseg : ∀ t : ℝ, segment_point (⟨ex, sy, ez⟩ : Vec3 ℝ) ⟨ex, ey, ez⟩ t =
        ⟨ex, sy + (ey - sy) * t, ez⟩ := by
      intro t
      simp [segment_point, Vec3.add, Vec3.sub, Vec3.mul]
    rw [first_exit_point_box_y gi x0 x1 y0 y1 z0 z1 kx ky kz hx hy hz ex sy ez ey hsx' hsy hsz'
      hw hex]
    obtain ⟨⟨hb1, hb2⟩, ⟨t, ht0, ht1, ht⟩, huniq⟩ := axis_crossing y0 y1 sy ey hsy hex
    refine ⟨?_, ⟨t, ht0, ht1, ?_⟩, ?_⟩
    · rw [on_boundary_box gi x0 x1 y0 y1 z0 z1 kx ky kz hx hy hz]
      exact ⟨⟨hsx', hb1, hsz'⟩, fun h => hb2 h.2.1⟩
    · rw [hseg, ← ht]
    · intro u hu0 hu1 hb
      rw [hseg] at hb ⊢
      rw [on_boundary_box gi x0 x1 y0 y1 z0 z1 kx ky kz hx hy hz] at hb
      rw [huniq u hu0 hu1 hb.1.2.1.1 hb.1.2.1.2 (fun h => hb.2 ⟨hsx, h, hsz⟩)]
  · subst h1 h2
    have hex : ez < z0 ∨ z1 < ez := by
      by_contra hc
      rw [not_or, not_lt, not_lt] at hc
      exact he ⟨hsx', hsy', hc⟩
    have hseg : ∀ t : ℝ, segment_point (⟨ex, ey, sz⟩ : Vec3 ℝ) ⟨ex, ey, ez⟩ t =
        ⟨ex, ey, sz + (ez - sz) * t⟩ := by
      intro t
      simp [segment_point, Vec3.add, Vec3.sub, Vec3.mul]
    rw [first_exit_point_box_z gi x0 x1 y0 y1 z0 z1 kx ky kz hx hy hz ex ey sz ez hsx' hsy' hsz
      hw hex]
    obtain ⟨⟨hb1, hb2⟩, ⟨t, ht0, ht1, ht⟩, huniq⟩ := axis_crossing z0 z1 sz ez hsz hex
    refine ⟨?_, ⟨t, ht0, ht1, ?_⟩, ?_⟩
    · rw [on_boundary_box gi x0 x1 y0 y1 z0 z1 kx ky kz hx hy hz]
      exact ⟨⟨hsx', hsy', hb1⟩, fun h => hb2 h.2.2⟩
    · rw [hseg, ← ht]
    · intro u hu0 hu1 hb
      rw [hseg] at hb ⊢
      rw [on_boundary_box gi x0 x1 y0 y1 z0 z1 kx ky kz hx hy hz] at hb
      rw [huniq u hu0 hu1 hb.1.2.2.1 hb.1.2.2.2 (fun h => hb.2 ⟨hsx, hsy, h⟩)]

/-- C24 (amended) at a concrete input: the unit cell, the start `(1/2, 1/2, 1/2)`
and the end `(3/2, 1/2, 1/2)`: the first search answers the face `x = 0` behind the
start, and the retry gives the face `x = 1`. -/
theorem C24_first_exit_axis_parallel_witness :
    on_boundary Real.sqrt (box 0 0 1 0 1 0 1 100 100 100 : Cell ℝ)
      (first_exit_point Real.sqrt (box 0 0 1 0 1 0 1 100 100 100 : Cell ℝ)
        ⟨1 / 2, 1 / 2, 1 / 2⟩ ⟨3 / 2, 1 / 2, 1 / 2⟩) :=
  (C24_first_exit_axis_parallel 0 0 1 0 1 0 1 100 100 100 (by norm_num) (by norm_num)
    (by norm_num) ⟨1 / 2, 1 / 2, 1 / 2⟩ ⟨3 / 2, 1 / 2, 1 / 2⟩
    ((in_interior_box 0 0 1 0 1 0 1 100 100 100 (by norm_num) (by norm_num) (by norm_num) _).2
      (by norm_num))
    (by
      rw [Bool.eq_false_iff, ne_eq,
        is_point_inside_box _ _ _ _ _ _ _ _ _ _ (by norm_num) (by norm_num) (by norm_num)]
      norm_num)
    (Or.inl ⟨rfl, rfl, by norm_num⟩)).1

end FirstExitClaims

section SignLemmas

/-- The dividend of `dir_well_index` is positive for positive length and
permeabilities. -/
lemma dir_well_index_dividend_pos (L k1 k2 : ℝ) (hL : 0 < L) (hk1 : 0 < k1) (hk2 : 0 < k2) :
    (0 : ℝ) < 0.008527 * (2 * Real.pi * Real.sqrt (k1 * k2) * L) :=
  mul_pos (by norm_num)
    (mul_pos (mul_pos (mul_pos (by norm_num) Real.pi_pos) (Real.sqrt_pos.2 (mul_pos hk1 hk2))) hL)

end SignLemmas

section SignClaims

/-- C31, counterexample.  For the positive arguments `L = 1`, `d1 = d2 = 1`,
`k1 = k2 = 100` and `r_w = 0.14 * sqrt 2` the block radius equals `r_w`, so it
does not exceed `r_w`; the logarithm by which `dir_well_index` divides is zero
and the dividend is positive: the quotient is not a negative number (the source
computes `+inf`). -/
theorem C31_counterexample :
    (0 : ℝ) < 0.14 * Real.sqrt 2 ∧
    ¬ (0.14 * Real.sqrt 2 < dir_wellblock_radius Real.sqrt 1 1 100 100) ∧
    Real.log (dir_wellblock_radius Real.sqrt 1 1 100 100 / (0.14 * Real.sqrt 2)) ∈
      dir_well_index_divisors Real.sqrt Real.log 1 1 100 100 (0.14 * Real.sqrt 2) ∧
    Real.log (dir_wellblock_radius Real.sqrt 1 1 100 100 / (0.14 * Real.sqrt 2)) = 0 ∧
    (0 : ℝ) < 0.008527 * (2 * Real.pi * Real.sqrt (100 * 100) * 1) := by
  have hpos : (0 : ℝ) < 0.14 * Real.sqrt 2 :=
    mul_pos (by norm_num) (Real.sqrt_pos.2 (by norm_num))
  refine ⟨hpos, ?_, ?_, ?_, ?_⟩
  · rw [dir_wellblock_radius_unit]
    exact lt_irrefl _
  · simp [dir_well_index_divisors]
  · rw [dir_wellblock_radius_unit, div_self hpos.ne', Real.log_one]
  · exact dir_well_index_dividend_pos 1 100 100 (by norm_num) (by norm_num) (by norm_num)

/-- C31, amended.  For positive `L`, `d1`, `k1`, `k2`, `r_w` (and every `d2`),
`dir_well_index L d1 d2 k1 k2 r_w` is strictly positive when
`dir_wellblock_radius d1 d2 k1 k2 > r_w` and strictly negative when
`dir_wellblock_radius d1 d2 k1 k2 < r_w`; when the block radius differs from
`r_w` (the logarithm is not zero) the index is non-negative if and only if the
block radius exceeds `r_w`. -/
theorem C31_directional_index_sign (L d1 d2 k1 k2 wellbore_radius : ℝ) (hL : 0 < L)
    (hd1 : 0 < d1) (hk1 : 0 < k1) (hk2 : 0 < k2) (hrw : 0 < wellbore_radius) :
    (wellbore_radius < dir_wellblock_radius Real.sqrt d1 d2 k1 k2 →
      0 < dir_well_index Real.sqrt Real.log Real.pi L d1 d2 k1 k2 wellbore_radius) ∧
    (dir_wellblock_radius Real.sqrt d1 d2 k1 k2 < wellbore_radius →
      dir_well_index Real.sqrt Real.log Real.pi L d1 d2 k1 k2 wellbore_radius < 0) ∧
    (dir_wellblock_radius Real.sqrt d1 d2 k1 k2 ≠ wellbore_radius →
      ((∀ d ∈ dir_well_index_divisors Real.sqrt Real.log d1 d2 k1 k2 wellbore_radius, d ≠ 0) ∧
        (0 ≤ dir_well_index Real.sqrt Real.log Real.pi L d1 d2 k1 k2 wellbore_radius ↔
          wellbore_radius < dir_wellblock_radius Real.sqrt d1 d2 k1 k2))) := by
  have hr : 0 < dir_wellblock_radius Real.sqrt d1 d2 k1 k2 :=
    dir_wellblock_radius_pos d1 d2 k1 k2 hd1 hk1 hk2
  have hnum := dir_well_index_dividend_pos L k1 k2 hL hk1 hk2
  have hgt : wellbore_radius < dir_wellblock_radius Real.sqrt d1 d2 k1 k2 →
      0 < dir_well_index Real.sqrt Real.log Real.pi L d1 d2 k1 k2 wellbore_radius := by
    intro h
    simp only [dir_well_index]
    exact div_pos hnum (Real.log_pos ((one_lt_div hrw).2 h))
  have hlt : dir_wellblock_radius Real.sqrt d1 d2 k1 k2 < wellbore_radius →
      dir_well_index Real.sqrt Real.log Real.pi L d1 d2 k1 k2 wellbore_radius < 0 := by
    intro h
    simp only [dir_well_index]
    exact div_neg_of_pos_of_neg hnum
      (Real.log_neg (div_pos hr hrw) ((div_lt_one hrw).2 h))
  refine ⟨hgt, hlt, fun hne => ⟨dir_well_index_divisors_ne_zero d1 d2 k1 k2 wellbore_radius hd1
    hk1 hk2 hrw hne, ?_, fun h => (hgt h).le⟩⟩
  intro h0
  rcases lt_or_gt_of_ne hne with h | h
  · exact absurd h0 (not_le.2 (hlt h))
  · exact h

/-- C31 (amended) at a concrete input: a unit block with permeabilities 100 and
wellbore radius 0.1, below the block radius `0.14 * sqrt 2`. -/
theorem C31_directional_index_sign_witness :
    0 < dir_well_index Real.sqrt Real.log Real.pi 1 1 1 100 100 (1 / 10) :=
  (C31_directional_index_sign 1 1 1 100 100 (1 / 10) (by norm_num) (by norm_num) (by norm_num)
    (by norm_num) (by norm_num)).1 (by
      rw [dir_wellblock_radius_unit]
      have h : (1 : ℝ) < Real.sqrt 2 := (Real.lt_sqrt (by norm_num)).2 (by norm_num)
      linarith)

end SignClaims

section HomogeneityLemmas

/-- The norm of a scaled vector. -/
lemma norm_mul_abs (v : Vec3 ℝ) (c : ℝ) :
    (v.mul c).norm Real.sqrt = |c| * v.norm Real.sqrt := by
  have h : (v.mul c).dot (v.mul c) = c * c * v.dot v := by
    simp only [Vec3.dot, Vec3.mul]; ring
  rw [Vec3.norm, h, Real.sqrt_mul (mul_self_nonneg c), Real.sqrt_mul_self_eq_abs, Vec3.norm]

/-- The projection of the sub-segment from `a` to `a + c * (b - a)`. -/
lemma project_scaled_segment (axis a b : Vec3 ℝ) (c : ℝ) :
    project_v1_on_v2 ((a.add ((b.sub a).mul c)).sub a) axis =
      (project_v1_on_v2 (b.sub a) axis).mul c := by
  simp only [project_v1_on_v2, Vec3.dot, Vec3.sub, Vec3.add, Vec3.mul, Vec3.div]
  ext <;> simp only <;> ring

/-- The projected length of the sub-segment from `a` to `a + c * (b - a)`. -/
lemma projected_length_scaled (axis a b : Vec3 ℝ) (c : ℝ) :
    projected_length Real.sqrt axis [a] [a.add ((b.sub a).mul c)] =
      |c| * projected_length Real.sqrt axis [a] [b] := by
  simp only [projected_length, List.zip_cons_cons, List.zip_nil_right, List.map_cons,
    List.map_nil, List.sum_cons, List.sum_nil, add_zero]
  rw [project_scaled_segment, norm_mul_abs]

/-- The directional index is homogeneous in the projected length. -/
lemma dir_well_index_scaled (m L d1 d2 k1 k2 wellbore_radius : ℝ) :
    dir_well_index Real.sqrt Real.log Real.pi (m * L) d1 d2 k1 k2 wellbore_radius =
      m * dir_well_index Real.sqrt Real.log Real.pi L d1 d2 k1 k2 wellbore_radius := by
  simp only [dir_well_index]
  ring

end HomogeneityLemmas

section HomogeneityClaims

/-- C32.  For every cell, wellbore radius, points `a`, `b` and real `c`,
`well_index_cell_qvector cell [a] [b] r_w` returns a value `w`, and
`well_index_cell_qvector cell [a] [a + c * (b - a)] r_w` returns `|c| * w`. -/
theorem C32_length_homogeneity (cell : Cell ℝ) (wellbore_radius : ℝ) (a b : Vec3 ℝ) (c : ℝ) :
    ∃ w : ℝ,
      well_index_cell_qvector Real.sqrt Real.log Real.pi cell [a] [b] wellbore_radius = .ok w ∧
      well_index_cell_qvector Real.sqrt Real.log Real.pi cell [a] [a.add ((b.sub a).mul c)]
        wellbore_radius = .ok (|c| * w) := by
  refine ⟨_, well_index_cell_qvector_eq Real.sqrt Real.log Real.pi cell [a] [b] wellbore_radius
    (le_refl _), ?_⟩
  rw [well_index_cell_qvector_eq Real.sqrt Real.log Real.pi cell [a] [a.add ((b.sub a).mul c)]
    wellbore_radius (le_refl _)]
  simp only [projected_length_scaled, dir_well_index_scaled]
  congr 1
  rw [← Real.sqrt_mul_self (abs_nonneg c), ← Real.sqrt_mul (mul_self_nonneg |c|),
    Real.sqrt_mul_self (abs_nonneg c)]
  congr 1
  ring

end HomogeneityClaims

section InvarianceClaims

/-- C33.  For `dot n (p1 - p0) ≠ 0` (so `p0 ≠ p1` and `n ≠ 0`),
`line_plane_intersection p0 p1 n q` is `p0 + t * (p1 - p0)` with
`t = dot n (q - p0) / dot n (p1 - p0)`; the result is the same for `k * n` with
any nonzero `k` in the place of `n`, and for `p0 + c * (p1 - p0)` with any
nonzero `c` in the place of `p1`. -/
theorem C33_line_plane_invariance (p0 p1 n q : Vec3 ℝ) (hnd : n.dot (p1.sub p0) ≠ 0) :
    line_plane_intersection Real.sqrt p0 p1 n q =
      p0.add ((p1.sub p0).mul (n.dot (q.sub p0) / n.dot (p1.sub p0))) ∧
    (∀ k : ℝ, k ≠ 0 →
      line_plane_intersection Real.sqrt p0 p1 (n.mul k) q =
        line_plane_intersection Real.sqrt p0 p1 n q) ∧
    (∀ c : ℝ, c ≠ 0 →
      line_plane_intersection Real.sqrt p0 (p0.add ((p1.sub p0).mul c)) n q =
        line_plane_intersection Real.sqrt p0 p1 n q) := by
  have hd : 0 < (p1.sub p0).dot (p1.sub p0) := dot_self_pos_of_dot_ne_right _ _ hnd
  have hn : 0 < n.dot n := dot_self_pos_of_dot_ne _ _ hnd
  have h1 := line_plane_intersection_real p0 p1 n q hd hn
  refine ⟨h1, ?_, ?_⟩
  · intro k hk
    have hn' : 0 < (n.mul k).dot (n.mul k) := by
      have h : (n.mul k).dot (n.mul k) = k * k * n.dot n := by
        simp only [Vec3.dot, Vec3.mul]; ring
      rw [h]
      exact mul_pos (mul_self_pos.2 hk) hn
    rw [h1, line_plane_intersection_real p0 p1 (n.mul k) q hd hn']
    have ha : ∀ v : Vec3 ℝ, (n.mul k).dot v = k * n.dot v := by
      intro v
      simp only [Vec3.dot, Vec3.mul]; ring
    rw [ha, ha, mul_div_mul_left _ _ hk]
  · intro c hc
    have hsub : (p0.add ((p1.sub p0).mul c)).sub p0 = (p1.sub p0).mul c := by
      simp only [Vec3.sub, Vec3.add, Vec3.mul]
      ext <;> simp only <;> ring
    have hd' : 0 < ((p0.add ((p1.sub p0).mul c)).sub p0).dot
        ((p0.add ((p1.sub p0).mul c)).sub p0) := by
      have h : ((p1.sub p0).mul c).dot ((p1.sub p0).mul c) =
          c * c * (p1.sub p0).dot (p1.sub p0) := by
        simp only [Vec3.dot, Vec3.mul]; ring
      rw [hsub, h]
      exact mul_pos (mul_self_pos.2 hc) hd
    rw [h1, line_plane_intersection_real p0 _ n q hd' hn, hsub]
    have hb : n.dot ((p1.sub p0).mul c) = c * n.dot (p1.sub p0) := by
      simp only [Vec3.dot, Vec3.mul]; ring
    rw [hb]
    generalize n.dot (q.sub p0) = u
    generalize hw : n.dot (p1.sub p0) = w at hnd
    simp only [Vec3.add, Vec3.mul]
    ext <;> simp only <;> field_simp <;> ring

/-- C33 at a concrete input: the line from `(0.5, 0.5, 0.5)` to `(1.5, 0.5, 0.5)`
and the plane `x = 1`; the end point is replaced by the point at `c = -2`,
`(-1.5, 0.5, 0.5)`, behind the start. -/
theorem C33_line_plane_invariance_witness :
    line_plane_intersection Real.sqrt (⟨1 / 2, 1 / 2, 1 / 2⟩ : Vec3 ℝ)
        ((⟨1 / 2, 1 / 2, 1 / 2⟩ : Vec3 ℝ).add
          (((⟨3 / 2, 1 / 2, 1 / 2⟩ : Vec3 ℝ).sub ⟨1 / 2, 1 / 2, 1 / 2⟩).mul (-2)))
        ⟨-1, 0, 0⟩ ⟨1, 0, 0⟩ =
      line_plane_intersection Real.sqrt ⟨1 / 2, 1 / 2, 1 / 2⟩ ⟨3 / 2, 1 / 2, 1 / 2⟩
        ⟨-1, 0, 0⟩ ⟨1, 0, 0⟩ :=
  (C33_line_plane_invariance ⟨1 / 2, 1 / 2, 1 / 2⟩ ⟨3 / 2, 1 / 2, 1 / 2⟩ ⟨-1, 0, 0⟩
    ⟨1, 0, 0⟩ (by norm_num [Vec3.dot, Vec3.sub])).2.2 (-2) (by norm_num)

end InvarianceClaims

section DefinedLemmas

/-- The norm of a nonzero vector is positive. -/
lemma norm_pos_of_ne_zero (v : Vec3 ℝ) (h : v ≠ ⟨0, 0, 0⟩) : 0 < v.norm Real.sqrt :=
  Real.sqrt_pos.2 (dot_self_pos_of_ne_zero v h)

/-- Where `well_index_defined` holds, no divisor of `well_index_cell_qvector` is
zero. -/
lemma well_index_defined_divisors (cell : Cell ℝ) (wellbore_radius : ℝ)
    (h : well_index_defined Real.sqrt cell wellbore_radius) :
    ∀ d ∈ well_index_cell_qvector_divisors Real.sqrt Real.log cell wellbore_radius, d ≠ 0 := by
  obtain ⟨⟨hkx, hky, hkz, hrw⟩, ⟨hx, hy, hz⟩, hrx, hry, hrz⟩ := h
  intro d hd
  simp only [well_index_cell_qvector_divisors, List.mem_append, List.mem_cons,
    List.not_mem_nil, or_false] at hd
  rcases hd with ((hd | hd) | hd) | hd
  · rcases hd with rfl | rfl | rfl
    · exact (dot_self_pos_of_ne_zero _ hx).ne'
    · exact (dot_self_pos_of_ne_zero _ hy).ne'
    · exact (dot_self_pos_of_ne_zero _ hz).ne'
  · exact dir_well_index_divisors_ne_zero _ _ _ _ _ (norm_pos_of_ne_zero _ hy) hky hkz hrw hrx
      d hd
  · exact dir_well_index_divisors_ne_zero _ _ _ _ _ (norm_pos_of_ne_zero _ hx) hkx hkz hrw hry
      d hd
  · exact dir_well_index_divisors_ne_zero _ _ _ _ _ (norm_pos_of_ne_zero _ hx) hkx hky hrw hrz
      d hd

/-- The edge vectors of the unit cube. -/
lemma unit_cube_edges :
    ((box 0 0 1 0 1 0 1 100 100 100 : Cell ℝ).corners 5).sub
        ((box 0 0 1 0 1 0 1 100 100 100 : Cell ℝ).corners 4) = ⟨1, 0, 0⟩ ∧
    ((box 0 0 1 0 1 0 1 100 100 100 : Cell ℝ).corners 6).sub
        ((box 0 0 1 0 1 0 1 100 100 100 : Cell ℝ).corners 4) = ⟨0, 1, 0⟩ ∧
    ((box 0 0 1 0 1 0 1 100 100 100 : Cell ℝ).corners 0).sub
        ((box 0 0 1 0 1 0 1 100 100 100 : Cell ℝ).corners 4) = ⟨0, 0, -1⟩ := by
  refine ⟨?_, ?_, ?_⟩ <;> simp [box, Vec3.sub]

/-- The lengths of the three edge vectors of the unit cube. -/
lemma unit_cube_extents :
    (⟨1, 0, 0⟩ : Vec3 ℝ).norm Real.sqrt = 1 ∧ (⟨0, 1, 0⟩ : Vec3 ℝ).norm Real.sqrt = 1 ∧
    (⟨0, 0, -1⟩ : Vec3 ℝ).norm Real.sqrt = 1 := by
  refine ⟨?_, ?_, ?_⟩ <;>
    exact norm_eq_of_dot_eq _ _ (by norm_num) (by norm_num [Vec3.dot])

end DefinedLemmas

section NonnegClaims

/-- C17, counterexample.  The unit cube has the positive permeabilities 100 and
the wellbore radius `0.14 * sqrt 2` is positive, but it equals the block radius
of the cube: for the sub-segment from `(0.2, 0.2, 0.5)` to `(0.8, 0.2, 0.5)` the
projected length `Ly` is 0 and the logarithm by which the index of the y axis is
divided is 0, so that index is `0 / 0` (NaN in the source) and the value
returned is not a number `≥ 0`. -/
theorem C17_counterexample :
    ((0 : ℝ) < (box 0 0 1 0 1 0 1 100 100 100 : Cell ℝ).permx ∧
      (0 : ℝ) < (box 0 0 1 0 1 0 1 100 100 100 : Cell ℝ).permy ∧
      (0 : ℝ) < (box 0 0 1 0 1 0 1 100 100 100 : Cell ℝ).permz ∧
      (0 : ℝ) < 0.14 * Real.sqrt 2) ∧
    projected_length Real.sqrt
      (((box 0 0 1 0 1 0 1 100 100 100 : Cell ℝ).corners 6).sub
        ((box 0 0 1 0 1 0 1 100 100 100 : Cell ℝ).corners 4))
      [⟨1 / 5, 1 / 5, 1 / 2⟩] [⟨4 / 5, 1 / 5, 1 / 2⟩] = 0 ∧
    Real.log (dir_wellblock_radius Real.sqrt
        ((((box 0 0 1 0 1 0 1 100 100 100 : Cell ℝ).corners 5).sub
          ((box 0 0 1 0 1 0 1 100 100 100 : Cell ℝ).corners 4)).norm Real.sqrt)
        ((((box 0 0 1 0 1 0 1 100 100 100 : Cell ℝ).corners 0).sub
          ((box 0 0 1 0 1 0 1 100 100 100 : Cell ℝ).corners 4)).norm Real.sqrt)
        (box 0 0 1 0 1 0 1 100 100 100 : Cell ℝ).permx
        (box 0 0 1 0 1 0 1 100 100 100 : Cell ℝ).permz / (0.14 * Real.sqrt 2)) ∈
      well_index_cell_qvector_divisors Real.sqrt Real.log
        (box 0 0 1 0 1 0 1 100 100 100 : Cell ℝ) (0.14 * Real.sqrt 2) ∧
    Real.log (dir_wellblock_radius Real.sqrt
        ((((box 0 0 1 0 1 0 1 100 100 100 : Cell ℝ).corners 5).sub
          ((box 0 0 1 0 1 0 1 100 100 100 : Cell ℝ).corners 4)).norm Real.sqrt)
        ((((box 0 0 1 0 1 0 1 100 100 100 : Cell ℝ).corners 0).sub
          ((box 0 0 1 0 1 0 1 100 100 100 : Cell ℝ).corners 4)).norm Real.sqrt)
        (box 0 0 1 0 1 0 1 100 100 100 : Cell ℝ).permx
        (box 0 0 1 0 1 0 1 100 100 100 : Cell ℝ).permz / (0.14 * Real.sqrt 2)) = 0 := by
  have hpos : (0 : ℝ) < 0.14 * Real.sqrt 2 :=
    mul_pos (by norm_num) (Real.sqrt_pos.2 (by norm_num))
  have hk : (0 : ℝ) < (box 0 0 1 0 1 0 1 100 100 100 : Cell ℝ).permx ∧
      (0 : ℝ) < (box 0 0 1 0 1 0 1 100 100 100 : Cell ℝ).permy ∧
      (0 : ℝ) < (box 0 0 1 0 1 0 1 100 100 100 : Cell ℝ).permz := by
    simp [box]
  refine ⟨⟨hk.1, hk.2.1, hk.2.2, hpos⟩, ?_, ?_, ?_⟩
  · rw [unit_cube_edges.2.1]
    exact scenarioA_lengths.2.1
  · simp [well_index_cell_qvector_divisors, dir_well_index_divisors]
  · rw [unit_cube_edges.1, unit_cube_edges.2.2, unit_cube_extents.1, unit_cube_extents.2.2]
    have hp : (box 0 0 1 0 1 0 1 100 100 100 : Cell ℝ).permx = 100 ∧
        (box 0 0 1 0 1 0 1 100 100 100 : Cell ℝ).permz = 100 := ⟨rfl, rfl⟩
    rw [hp.1, hp.2, dir_wellblock_radius_unit, div_self hpos.ne', Real.log_one]

/-- C17, amended.  Over the reals, for every cell and wellbore radius for which
`well_index_defined` holds (positive permeabilities and radius, nonzero edge
vectors, radius different from the three directional block radii) and every
list of sub-segments (as many exit points as entry points), no divisor of
`well_index_cell_qvector` is zero and it returns a value that is `≥ 0`; and
when `well_index_defined` holds for every cell of a grid, no divisor is zero in
any cell and every well index in a list returned by `well_index_of_grid` is
`≥ 0`. -/
theorem C17_well_index_nonneg (cell : Cell ℝ) (start_points end_points : List (Vec3 ℝ))
    (wellbore_radius : ℝ) (hlen : start_points.length = end_points.length)
    (hdef : well_index_defined Real.sqrt cell wellbore_radius) :
    (∀ d ∈ well_index_cell_qvector_divisors Real.sqrt Real.log cell wellbore_radius, d ≠ 0) ∧
    (∃ w, well_index_cell_qvector Real.sqrt Real.log Real.pi cell start_points end_points
        wellbore_radius = .ok w ∧ 0 ≤ w) ∧
    (∀ (fuel : Nat) (grid : Grid ℝ) (starts ends : List (Vec3 ℝ)) (cells : List Nat)
        (well_indeces : List ℝ),
      (∀ i, well_index_defined Real.sqrt (grid.GetCell i) wellbore_radius) →
      well_index_of_grid Real.sqrt Real.log Real.pi fuel grid starts ends wellbore_radius =
        .ok (cells, well_indeces) →
      (∀ i, ∀ d ∈ well_index_cell_qvector_divisors Real.sqrt Real.log (grid.GetCell i)
        wellbore_radius, d ≠ 0) ∧
      ∀ w ∈ well_indeces, 0 ≤ w) := by
  refine ⟨well_index_defined_divisors cell wellbore_radius hdef, ?_, ?_⟩
  · have h := well_index_cell_qvector_eq Real.sqrt Real.log Real.pi cell start_points end_points
      wellbore_radius hlen.le
    exact ⟨_, h, well_index_cell_qvector_nonneg _ _ _ _ _ h⟩
  · intro fuel grid starts ends cells well_indeces hgrid h
    refine ⟨fun i => well_index_defined_divisors _ _ (hgrid i), ?_⟩
    simp only [well_index_of_grid] at h
    split at h
    · cases h
    · split at h
      · cases h
      · split at h
        · cases h
        · split at h
          · cases h
          · rename_i ws hws
            simp only [Except.ok.injEq, Prod.mk.injEq] at h
            rw [← h.2]
            exact well_indeces_loop_nonneg _ _ _ _ _ _ _ (by simp) hws

/-- C17 (amended) at a concrete input: the unit cube, the sub-segment of
Scenario A and the wellbore radius 0.1, which is not the block radius
`0.14 * sqrt 2`. -/
theorem C17_well_index_nonneg_witness :
    ∃ w, well_index_cell_qvector Real.sqrt Real.log Real.pi
        (box 0 0 1 0 1 0 1 100 100 100 : Cell ℝ) [⟨1 / 5, 1 / 5, 1 / 2⟩]
        [⟨4 / 5, 1 / 5, 1 / 2⟩] (1 / 10) = .ok w ∧ 0 ≤ w :=
  (C17_well_index_nonneg (box 0 0 1 0 1 0 1 100 100 100) [⟨1 / 5, 1 / 5, 1 / 2⟩]
    [⟨4 / 5, 1 / 5, 1 / 2⟩] (1 / 10) rfl (by
      have hne : dir_wellblock_radius Real.sqrt 1 1 100 100 ≠ 1 / 10 := by
        rw [dir_wellblock_radius_unit]
        have h : (1 : ℝ) < Real.sqrt 2 := (Real.lt_sqrt (by norm_num)).2 (by norm_num)
        intro h'
        norm_num at h'
        linarith
      have hp : (box 0 0 1 0 1 0 1 100 100 100 : Cell ℝ).permx = 100 ∧
          (box 0 0 1 0 1 0 1 100 100 100 : Cell ℝ).permy = 100 ∧
          (box 0 0 1 0 1 0 1 100 100 100 : Cell ℝ).permz = 100 := ⟨rfl, rfl, rfl⟩
      simp only [well_index_defined, unit_cube_edges.1, unit_cube_edges.2.1,
        unit_cube_edges.2.2, unit_cube_extents.1, unit_cube_extents.2.1, unit_cube_extents.2.2,
        hp.1, hp.2.1, hp.2.2]
      refine ⟨⟨by norm_num, by norm_num, by norm_num, by norm_num⟩, ⟨?_, ?_, ?_⟩,
        hne, hne, hne⟩
      · intro h; have := congrArg Vec3.x h; norm_num at this
      · intro h; have := congrArg Vec3.y h; norm_num at this
      · intro h; have := congrArg Vec3.z h; norm_num at this)).2.1

end NonnegClaims

end WellIndexCalculator
